import Mathlib

/-!
# Bittrex API facade: a shallow embedding

The facade of `bittrex.go` builds a URI, calls the injected transport
(`Client.Do`), and decodes the JSON response with `encoding/json` into the
record types declared at the end of the file.  The development has four layers:

* Go values the facade handles: `error` values, `[]byte` bodies taken as text,
  nil-able slices and pointers (`Option`);
* the two libraries the facade calls, `encoding/json` and
  `github.com/shopspring/decimal`, restricted to the record types of the
  repository;
* the facade itself, one definition per method of `BittrexAPI`, over a world
  that records every call of the transport;
* the transport of the test-suite, `fakeBittrexClient`.

A body is a `String`, that is a `[]byte` holding valid UTF-8; a length is
counted in characters where the literals at stake are ASCII.  The libraries are
followed as they stood when the test bodies were recorded (September 2020):
`encoding/json` of Go 1.15 and `decimal` 1.2.0; their error messages are part
of the embedding.
-/

namespace Bittrex

/-! ## Go error values -/

deriving instance DecidableEq for Except

/-- Go `error` values the facade can see: `errors.New`/`fmt.Errorf` strings,
and the two error types of `encoding/json` (`Offset` is left out, it is not part
of the message). -/
inductive GoError where
  | errorString (s : String)
  | SyntaxError (msg : String)
  | UnmarshalTypeError (Value : String) (Typ : String) (Struct : String) (Field : String)
  deriving DecidableEq, Repr

/-- The method `Error() string` of an error value. -/
def GoError.Error : GoError → String
  | .errorString s => s
  | .SyntaxError msg => msg
  | .UnmarshalTypeError v t s f =>
    if s ≠ "" ∨ f ≠ "" then
      "json: cannot unmarshal " ++ v ++ " into Go struct field " ++ s ++ "." ++ f ++ " of type " ++ t
    else
      "json: cannot unmarshal " ++ v ++ " into Go value of type " ++ t

/-- Go `errors.New`. -/
def errors_New (text : String) : GoError := .errorString text

/-! ## JSON text: the scanner of `encoding/json` -/

/-- A JSON value as `encoding/json` reads it.  Every node keeps what the decoder
hands to an `Unmarshaler`: the literal text of the value (`raw`; for a string the
text between the quotes). -/
inductive Json where
  | null
  | bool (b : Bool)
  | num (lit : String)
  | str (raw : String) (val : String)
  | arr (raw : String) (items : List Json)
  | obj (raw : String) (members : List (String × Json))
  deriving Repr

/-- The source text of a value, as `d.data[start:d.off]`. -/
def Json.text : Json → String
  | .null => "null"
  | .bool true => "true"
  | .bool false => "false"
  | .num lit => lit
  | .str raw _ => "\"" ++ raw ++ "\""
  | .arr raw _ => raw
  | .obj raw _ => raw

/-- The scanner's `isSpace`. -/
def isSpace (c : Char) : Bool :=
  c = ' ' || c = '\t' || c = '\r' || c = '\n'

/-- Drop leading white space (`scanSkipSpace`). -/
def skipSpace : List Char → List Char
  | [] => []
  | c :: cs => if isSpace c then skipSpace cs else c :: cs

/-- Lower-case hexadecimal digit of `n < 16`. -/
def hexDigit (n : Nat) : Char :=
  if n < 10 then Char.ofNat (48 + n) else Char.ofNat (87 + n)

/-- First byte of the UTF-8 encoding of a character: the scanner works on
bytes, and reports the byte it stopped at. -/
def firstByte (c : Char) : Nat :=
  let n := c.toNat
  if n < 0x80 then n
  else if n < 0x800 then 0xC0 + n / 64
  else if n < 0x10000 then 0xE0 + n / 4096
  else 0xF0 + n / 262144

/-- The scanner's `quoteChar`: a byte as it appears in a syntax error. -/
def quoteChar (c : Char) : String :=
  let b := firstByte c
  if b = 39 then "'\\''"
  else if b = 34 then "'\"'"
  else if b = 7 then "'\\a'"
  else if b = 8 then "'\\b'"
  else if b = 12 then "'\\f'"
  else if b = 10 then "'\\n'"
  else if b = 13 then "'\\r'"
  else if b = 9 then "'\\t'"
  else if b = 11 then "'\\v'"
  else if b = 92 then "'\\\\'"
  else if b < 32 ∨ b = 127 then
    "'\\x" ++ String.mk [hexDigit (b / 16), hexDigit (b % 16)] ++ "'"
  else "'" ++ String.mk [Char.ofNat b] ++ "'"

/-- The scanner's `s.error(c, context)`. -/
def syntaxError (c : Char) (context : String) : GoError :=
  .SyntaxError ("invalid character " ++ quoteChar c ++ " " ++ context)

/-- What `checkValid` reports when the input ends inside a value. -/
def unexpectedEnd : GoError :=
  .SyntaxError "unexpected end of JSON input"

/-- The scanner's `maxNestingDepth`. -/
def maxNestingDepth : Nat := 10000

def isDigit (c : Char) : Bool := 48 ≤ c.toNat && c.toNat ≤ 57

def isHex (c : Char) : Bool :=
  isDigit c || (97 ≤ c.toNat && c.toNat ≤ 102) || (65 ≤ c.toNat && c.toNat ≤ 70)

/-- The scanner states inside a string literal. -/
inductive StrState where
  | stateInString
  | stateInStringEsc
  | stateInStringEscU
  | stateInStringEscU1
  | stateInStringEscU12
  | stateInStringEscU123
  deriving DecidableEq, Repr

/-- Scan a string literal after its opening quote: the text up to the closing
quote, and what follows the closing quote.  At the end of the input the scanner
is fed one space, which the states inside an escape refuse. -/
def scanString : StrState → List Char → Except GoError (List Char × List Char)
  | .stateInString, [] => .error unexpectedEnd
  | .stateInStringEsc, [] => .error (syntaxError ' ' "in string escape code")
  | _, [] => .error (syntaxError ' ' "in \\u hexadecimal character escape")
  | .stateInString, c :: cs =>
    if c = '"' then .ok ([], cs)
    else if c = '\\' then
      (scanString .stateInStringEsc cs).map (fun r => (c :: r.1, r.2))
    else if c.toNat < 32 then .error (syntaxError c "in string literal")
    else (scanString .stateInString cs).map (fun r => (c :: r.1, r.2))
  | .stateInStringEsc, c :: cs =>
    if c = 'b' ∨ c = 'f' ∨ c = 'n' ∨ c = 'r' ∨ c = 't' ∨ c = '\\' ∨ c = '/' ∨ c = '"' then
      (scanString .stateInString cs).map (fun r => (c :: r.1, r.2))
    else if c = 'u' then
      (scanString .stateInStringEscU cs).map (fun r => (c :: r.1, r.2))
    else .error (syntaxError c "in string escape code")
  | .stateInStringEscU, c :: cs =>
    if isHex c then (scanString .stateInStringEscU1 cs).map (fun r => (c :: r.1, r.2))
    else .error (syntaxError c "in \\u hexadecimal character escape")
  | .stateInStringEscU1, c :: cs =>
    if isHex c then (scanString .stateInStringEscU12 cs).map (fun r => (c :: r.1, r.2))
    else .error (syntaxError c "in \\u hexadecimal character escape")
  | .stateInStringEscU12, c :: cs =>
    if isHex c then (scanString .stateInStringEscU123 cs).map (fun r => (c :: r.1, r.2))
    else .error (syntaxError c "in \\u hexadecimal character escape")
  | .stateInStringEscU123, c :: cs =>
    if isHex c then (scanString .stateInString cs).map (fun r => (c :: r.1, r.2))
    else .error (syntaxError c "in \\u hexadecimal character escape")

/-- Value of a hexadecimal digit. -/
def hexVal (c : Char) : Nat :=
  if isDigit c then c.toNat - 48
  else if 97 ≤ c.toNat ∧ c.toNat ≤ 102 then c.toNat - 87
  else c.toNat - 55

/-- The decoder's `getu4` on four hexadecimal digits. -/
def getu4 (a b c d : Char) : Nat :=
  ((hexVal a * 16 + hexVal b) * 16 + hexVal c) * 16 + hexVal d

/-- Go `utf16.IsSurrogate`. -/
def isSurrogate (r : Nat) : Bool := 0xd800 ≤ r && r < 0xe000

/-- The Unicode replacement character, `unicode.ReplacementChar`. -/
def replacementChar : Char := Char.ofNat 0xFFFD

/-- Go `utf16.DecodeRune`. -/
def utf16_DecodeRune (r1 r2 : Nat) : Char :=
  if 0xd800 ≤ r1 ∧ r1 < 0xdc00 ∧ 0xdc00 ≤ r2 ∧ r2 < 0xe000 then
    Char.ofNat ((r1 - 0xd800) * 1024 + (r2 - 0xdc00) + 0x10000)
  else replacementChar

/-- The character a one-letter escape stands for. -/
def unescape (c : Char) : Char :=
  if c = 'b' then Char.ofNat 8
  else if c = 'f' then Char.ofNat 12
  else if c = 'n' then '\n'
  else if c = 'r' then '\r'
  else if c = 't' then '\t'
  else c

/-- The decoder's `unquote` on the text between the quotes of a literal the
scanner accepted: escapes are replaced, a `\u` escape of half a surrogate pair
becomes the replacement character. -/
def unquote : Nat → List Char → List Char
  | 0, _ => []
  | _, [] => []
  | fuel + 1, c :: cs =>
    if c = '\\' then
      match cs with
      | 'u' :: h1 :: h2 :: h3 :: h4 :: rest =>
        let rr := getu4 h1 h2 h3 h4
        if isSurrogate rr then
          match rest with
          | '\\' :: 'u' :: k1 :: k2 :: k3 :: k4 :: rest2 =>
            let dec := utf16_DecodeRune rr (getu4 k1 k2 k3 k4)
            if dec ≠ replacementChar then dec :: unquote fuel rest2
            else replacementChar :: unquote fuel rest
          | _ => replacementChar :: unquote fuel rest
        else Char.ofNat rr :: unquote fuel rest
      | e :: rest => unescape e :: unquote fuel rest
      | [] => []
    else c :: unquote fuel cs

/-- The scanner states inside a number. -/
inductive NumState where
  | stateNeg
  | state1
  | state0
  | stateDot
  | stateDot0
  | stateE
  | stateESign
  | stateE0
  deriving DecidableEq, Repr

/-- Scan a number after its first character: the rest of the literal and what
follows it.  A character that cannot continue a complete number ends it
(`stateEndValue`); one that cannot continue an incomplete number is an error,
and so is the end of the input there (the scanner is fed a space). -/
def scanNumber : NumState → List Char → Except GoError (List Char × List Char)
  | .stateNeg, [] => .error (syntaxError ' ' "in numeric literal")
  | .stateDot, [] => .error (syntaxError ' ' "after decimal point in numeric literal")
  | .stateE, [] => .error (syntaxError ' ' "in exponent of numeric literal")
  | .stateESign, [] => .error (syntaxError ' ' "in exponent of numeric literal")
  | _, [] => .ok ([], [])
  | .stateNeg, c :: cs =>
    if c = '0' then (scanNumber .state0 cs).map (fun r => (c :: r.1, r.2))
    else if isDigit c then (scanNumber .state1 cs).map (fun r => (c :: r.1, r.2))
    else .error (syntaxError c "in numeric literal")
  | .state1, c :: cs =>
    if isDigit c then (scanNumber .state1 cs).map (fun r => (c :: r.1, r.2))
    else if c = '.' then (scanNumber .stateDot cs).map (fun r => (c :: r.1, r.2))
    else if c = 'e' ∨ c = 'E' then (scanNumber .stateE cs).map (fun r => (c :: r.1, r.2))
    else .ok ([], c :: cs)
  | .state0, c :: cs =>
    if c = '.' then (scanNumber .stateDot cs).map (fun r => (c :: r.1, r.2))
    else if c = 'e' ∨ c = 'E' then (scanNumber .stateE cs).map (fun r => (c :: r.1, r.2))
    else .ok ([], c :: cs)
  | .stateDot, c :: cs =>
    if isDigit c then (scanNumber .stateDot0 cs).map (fun r => (c :: r.1, r.2))
    else .error (syntaxError c "after decimal point in numeric literal")
  | .stateDot0, c :: cs =>
    if isDigit c then (scanNumber .stateDot0 cs).map (fun r => (c :: r.1, r.2))
    else if c = 'e' ∨ c = 'E' then (scanNumber .stateE cs).map (fun r => (c :: r.1, r.2))
    else .ok ([], c :: cs)
  | .stateE, c :: cs =>
    if c = '+' ∨ c = '-' then (scanNumber .stateESign cs).map (fun r => (c :: r.1, r.2))
    else if isDigit c then (scanNumber .stateE0 cs).map (fun r => (c :: r.1, r.2))
    else .error (syntaxError c "in exponent of numeric literal")
  | .stateESign, c :: cs =>
    if isDigit c then (scanNumber .stateE0 cs).map (fun r => (c :: r.1, r.2))
    else .error (syntaxError c "in exponent of numeric literal")
  | .stateE0, c :: cs =>
    if isDigit c then (scanNumber .stateE0 cs).map (fun r => (c :: r.1, r.2))
    else .ok ([], c :: cs)

/-- Scan the rest of one of the literals `true`, `false`, `null` after its
first letter; `word` names the literal in the error. -/
def scanLiteral (word : String) : List Char → List Char → Except GoError (List Char)
  | [], cs => .ok cs
  | e :: _, [] =>
    .error (syntaxError ' ' ("in literal " ++ word ++ " (expecting " ++ quoteChar e ++ ")"))
  | e :: es, c :: cs =>
    if c = e then scanLiteral word es cs
    else .error (syntaxError c ("in literal " ++ word ++ " (expecting " ++ quoteChar e ++ ")"))

/-- The text a value took: what was read of `cs` when `rest` is left. -/
def consumed (cs rest : List Char) : String :=
  String.mk (cs.take (cs.length - rest.length))

mutual
/-- One JSON value at the head of the input (`stateBeginValue` and the states
after it), at nesting depth `depth`; returns the value and the input after it. -/
def parseValue : Nat → Nat → List Char → Except GoError (Json × List Char)
  | 0, _, _ => .error unexpectedEnd
  | fuel + 1, depth, cs =>
    match skipSpace cs with
    | [] => .error unexpectedEnd
    | c :: rest =>
      if c = '\x7b' then
        if maxNestingDepth < depth + 1 then .error (syntaxError c "exceeded max depth")
        else
          match skipSpace rest with
          | [] => .error unexpectedEnd
          | c2 :: rest2 =>
            if c2 = '\x7d' then .ok (.obj (consumed (c :: rest) rest2) [], rest2)
            else
              match parseMembers fuel (depth + 1) (c2 :: rest2) with
              | .error e => .error e
              | .ok (ms, rest3) => .ok (.obj (consumed (c :: rest) rest3) ms, rest3)
      else if c = '[' then
        if maxNestingDepth < depth + 1 then .error (syntaxError c "exceeded max depth")
        else
          match skipSpace rest with
          | [] => .error unexpectedEnd
          | c2 :: rest2 =>
            if c2 = ']' then .ok (.arr (consumed (c :: rest) rest2) [], rest2)
            else
              match parseElements fuel (depth + 1) (c2 :: rest2) with
              | .error e => .error e
              | .ok (items, rest3) => .ok (.arr (consumed (c :: rest) rest3) items, rest3)
      else if c = '"' then
        match scanString .stateInString rest with
        | .error e => .error e
        | .ok (raw, rest2) => .ok (.str (String.mk raw) (String.mk (unquote raw.length raw)), rest2)
      else if c = '-' then
        match scanNumber .stateNeg rest with
        | .error e => .error e
        | .ok (lit, rest2) => .ok (.num (String.mk (c :: lit)), rest2)
      else if c = '0' then
        match scanNumber .state0 rest with
        | .error e => .error e
        | .ok (lit, rest2) => .ok (.num (String.mk (c :: lit)), rest2)
      else if isDigit c then
        match scanNumber .state1 rest with
        | .error e => .error e
        | .ok (lit, rest2) => .ok (.num (String.mk (c :: lit)), rest2)
      else if c = 't' then
        (scanLiteral "true" ['r', 'u', 'e'] rest).map (fun r => (.bool true, r))
      else if c = 'f' then
        (scanLiteral "false" ['a', 'l', 's', 'e'] rest).map (fun r => (.bool false, r))
      else if c = 'n' then
        (scanLiteral "null" ['u', 'l', 'l'] rest).map (fun r => (.null, r))
      else .error (syntaxError c "looking for beginning of value")
/-- The elements of an array from the first one to the closing bracket. -/
def parseElements : Nat → Nat → List Char → Except GoError (List Json × List Char)
  | 0, _, _ => .error unexpectedEnd
  | fuel + 1, depth, cs =>
    match parseValue fuel depth cs with
    | .error e => .error e
    | .ok (v, rest) =>
      match skipSpace rest with
      | [] => .error unexpectedEnd
      | c :: rest2 =>
        if c = ']' then .ok ([v], rest2)
        else if c = ',' then
          match parseElements fuel depth rest2 with
          | .error e => .error e
          | .ok (vs, rest3) => .ok (v :: vs, rest3)
        else .error (syntaxError c "after array element")
/-- The members of an object from the first key to the closing brace. -/
def parseMembers : Nat → Nat → List Char → Except GoError (List (String × Json) × List Char)
  | 0, _, _ => .error unexpectedEnd
  | fuel + 1, depth, cs =>
    match skipSpace cs with
    | [] => .error unexpectedEnd
    | q :: rest =>
      if q ≠ '"' then .error (syntaxError q "looking for beginning of object key string")
      else
        match scanString .stateInString rest with
        | .error e => .error e
        | .ok (rawKey, rest2) =>
          match skipSpace rest2 with
          | [] => .error unexpectedEnd
          | c :: rest3 =>
            if c ≠ ':' then .error (syntaxError c "after object key")
            else
              match parseValue fuel depth rest3 with
              | .error e => .error e
              | .ok (v, rest4) =>
                match skipSpace rest4 with
                | [] => .error unexpectedEnd
                | c2 :: rest5 =>
                  if c2 = '\x7d' then
                    .ok ([(String.mk (unquote rawKey.length rawKey), v)], rest5)
                  else if c2 = ',' then
                    match parseMembers fuel depth rest5 with
                    | .error e => .error e
                    | .ok (ms, rest6) =>
                      .ok ((String.mk (unquote rawKey.length rawKey), v) :: ms, rest6)
                  else .error (syntaxError c2 "after object key:value pair")
end

/-- The syntax pass of `json.Unmarshal` (`checkValid`), returning the value the
decoder then walks: one value, white space around it, nothing after it. -/
def parseJSON (data : String) : Except GoError Json :=
  match parseValue (2 * data.length + 2) 0 data.toList with
  | .error e => .error e
  | .ok (v, rest) =>
    match skipSpace rest with
    | [] => .ok v
    | c :: _ => .error (syntaxError c "after top-level value")

/-! ## strconv, math/big and shopspring/decimal -/

/-- The two causes of a `strconv.NumError`. -/
inductive NumError where
  | ErrSyntax
  | ErrRange
  deriving DecidableEq, Repr

/-- The digit loop of `strconv.ParseUint` in base 10: the first character that
is no digit is a syntax error, the first digit that takes the value past
`maxVal` is a range error. -/
def parseUintLoop (maxVal : Nat) : Nat → List Char → Except NumError Nat
  | n, [] => .ok n
  | n, c :: cs =>
    if !isDigit c then .error .ErrSyntax
    else if maxVal < n * 10 + (c.toNat - 48) then .error .ErrRange
    else parseUintLoop maxVal (n * 10 + (c.toNat - 48)) cs

/-- Go `strconv.ParseUint(s, 10, bitSize)`. -/
def strconv_ParseUint (s : List Char) (bitSize : Nat) : Except NumError Nat :=
  if s = [] then .error .ErrSyntax else parseUintLoop (2 ^ bitSize - 1) 0 s

/-- Go `strconv.ParseInt(s, 10, bitSize)`. -/
def strconv_ParseInt (s : List Char) (bitSize : Nat) : Except NumError Int :=
  match s with
  | [] => .error .ErrSyntax
  | c :: cs =>
    let neg := c = '-'
    let digits := if c = '+' ∨ c = '-' then cs else c :: cs
    match strconv_ParseUint digits bitSize with
    | .error e => .error e
    | .ok un =>
      let cutoff := 2 ^ (bitSize - 1)
      if ¬ neg ∧ cutoff ≤ un then .error .ErrRange
      else if neg ∧ cutoff < un then .error .ErrRange
      else .ok (if neg then - (un : Int) else (un : Int))

/-- Value of a run of decimal digits. -/
def digitsValue (ds : List Char) : Nat :=
  ds.foldl (fun n c => n * 10 + (c.toNat - 48)) 0

/-- Go `new(big.Int).SetString(s, 10)`: an optional sign and at least one digit,
nothing else. -/
def big_SetString (s : List Char) : Option Int :=
  match s with
  | [] => none
  | c :: cs =>
    let neg := c = '-'
    let digits := if c = '+' ∨ c = '-' then cs else c :: cs
    if digits = [] ∨ ¬ digits.all isDigit then none
    else some (if neg then - (digitsValue digits : Int) else (digitsValue digits : Int))

/-- The record `decimal.Decimal`: `value * 10 ^ exp`, with `exp` an `int32`. -/
structure Decimal where
  value : Int := 0
  exp : Int := 0
  deriving DecidableEq, Repr

/-- Go `fmt.Errorf` with its verbs filled in. -/
def fmt_Errorf (text : String) : GoError := .errorString text

/-- Split at the first `e` or `E` (`strings.IndexAny(value, "Ee")`): the text
before it and the text after it. -/
def splitExponent : List Char → Option (List Char × List Char)
  | [] => none
  | c :: cs =>
    if c = 'E' ∨ c = 'e' then some ([], cs)
    else (splitExponent cs).map (fun r => (c :: r.1, r.2))

/-- Split at the first decimal point. -/
def splitPoint : List Char → Option (List Char × List Char)
  | [] => none
  | c :: cs =>
    if c = '.' then some ([], cs)
    else (splitPoint cs).map (fun r => (c :: r.1, r.2))

/-- Go `decimal.NewFromString`. -/
def NewFromString (originalInput : String) : Except GoError Decimal :=
  let input := originalInput.toList
  let step1 : Except GoError (List Char × Int) :=
    match splitExponent input with
    | none => .ok (input, 0)
    | some (mantissa, expText) =>
      match strconv_ParseInt expText 32 with
      | .error .ErrRange =>
        .error (fmt_Errorf ("can't convert " ++ originalInput ++ " to decimal: fractional part too long"))
      | .error .ErrSyntax =>
        .error (fmt_Errorf ("can't convert " ++ originalInput ++ " to decimal: exponent is not numeric"))
      | .ok e => .ok (mantissa, e)
  match step1 with
  | .error e => .error e
  | .ok (value, exp0) =>
    if 1 < value.count '.' then
      .error (fmt_Errorf ("can't convert " ++ String.mk value ++ " to decimal: too many .s"))
    else
      let intString : List Char :=
        match splitPoint value with
        | none => value
        | some (whole, frac) => whole ++ frac
      let exp : Int :=
        match splitPoint value with
        | none => exp0
        | some (_, frac) => exp0 + - (frac.length : Int)
      let dValue : Option Int :=
        if intString.length ≤ 18 then
          match strconv_ParseInt intString 64 with
          | .error _ => none
          | .ok parsed64 => some parsed64
        else big_SetString intString
      match dValue with
      | none => .error (fmt_Errorf ("can't convert " ++ String.mk value ++ " to decimal"))
      | some v =>
        if exp < -2147483648 ∨ 2147483647 < exp then
          .error (fmt_Errorf ("can't convert " ++ originalInput ++ " to decimal: fractional part too long"))
        else .ok { value := v, exp := exp }

/-- The helper `unquoteIfQuoted` of the decimal package: the quotes of a quoted
text of more than two bytes are stripped, nothing is unescaped. -/
def unquoteIfQuoted (bytes : String) : String :=
  let cs := bytes.toList
  if 2 < cs.length ∧ cs.head? = some '"' ∧ cs.getLast? = some '"' then
    String.mk (cs.tail.dropLast)
  else bytes

/-- Go `(*Decimal).UnmarshalJSON`: the new value of the receiver and the error. -/
def Decimal_UnmarshalJSON (d : Decimal) (decimalBytes : String) : Decimal × Option GoError :=
  if decimalBytes = "null" then (d, none)
  else
    let str := unquoteIfQuoted decimalBytes
    match NewFromString str with
    | .ok dec => (dec, none)
    | .error err =>
      ({}, some (fmt_Errorf ("error decoding string '" ++ str ++ "': " ++ err.Error)))

/-- Decimal digits of a natural number (`big.Int.String` of a non-negative value). -/
def natString (n : Nat) : String := toString n

/-- Drop the trailing zeros of a run of digits. -/
def trimTrailingZeros (ds : List Char) : List Char :=
  (ds.reverse.dropWhile (fun c => c = '0')).reverse

/-- Go `Decimal.String`: the digits of the value with the decimal point placed
by the exponent, trailing zeros of the fraction trimmed. -/
def Decimal_String (d : Decimal) : String :=
  if 0 ≤ d.exp then toString (d.value * 10 ^ d.exp.toNat)
  else
    let str := (natString d.value.natAbs).toList
    let n := (- d.exp).toNat
    let intPart : List Char := if n < str.length then str.take (str.length - n) else ['0']
    let fractionalPart : List Char :=
      if n < str.length then str.drop (str.length - n)
      else List.replicate (n - str.length) '0' ++ str
    let fractionalPart := trimTrailingZeros fractionalPart
    let number : List Char :=
      if 0 < fractionalPart.length then intPart ++ '.' :: fractionalPart else intPart
    if d.value < 0 then String.mk ('-' :: number) else String.mk number

/-- Go `Decimal.MarshalJSON` (with `MarshalJSONWithoutQuotes` unset, its
default): the decimal as a quoted string; it never fails. -/
def Decimal_MarshalJSON (d : Decimal) : String × Option GoError :=
  ("\"" ++ Decimal_String d ++ "\"", none)

/-! ## The record types of `bittrex.go`

A Go `string`, `OrderSide`, `OrderType` and `TimeInForce` is a `String`, an
`int32` an `Int`, a pointer or a slice an `Option` (`none` is `nil`).  The
defaults are the zero values, so `{}` is Go's `T{}`. -/

structure Currency where
  Symbol : String := ""
  Name : String := ""
  CoinType : String := ""
  Status : String := ""
  MinConfirmations : String := ""
  Notice : String := ""
  TxFee : String := ""
  LogoUrl : String := ""
  ProhibitedIn : String := ""
  BaseAddress : String := ""
  deriving DecidableEq, Repr

structure Balance where
  CurrencySymbol : String := ""
  Total : String := ""
  Available : String := ""
  UpdatedAt : String := ""
  deriving DecidableEq, Repr

structure Market where
  Symbol : String := ""
  BaseCurrencySymbol : String := ""
  QuoteCurrencySymbol : String := ""
  MinTradeSize : String := ""
  Precision : Int := 0
  Status : String := ""
  CreatedAt : String := ""
  Notice : String := ""
  ProhibitedIn : Option (List String) := none
  deriving DecidableEq, Repr

structure MarketSummary where
  Symbol : String := ""
  High : Option Decimal := none
  Low : Option Decimal := none
  Volume : Option Decimal := none
  QuoteVolume : Option Decimal := none
  PercentChange : Option Decimal := none
  UpdatedAt : String := ""
  deriving DecidableEq, Repr

structure MarketTicker where
  Symbol : String := ""
  LastTradeRate : Option Decimal := none
  BidRate : Option Decimal := none
  AskRate : Option Decimal := none
  deriving DecidableEq, Repr

structure OrderCancel where
  OrderType : String := ""
  ID : String := ""
  deriving DecidableEq, Repr

structure Order where
  OrderID : String := ""
  MarketSymbol : String := ""
  Direction : String := ""
  OrderType : String := ""
  Quantity : Option Decimal := none
  Limit : Option Decimal := none
  Ceiling : Option Decimal := none
  TimeInForce : String := ""
  ClientOrderId : String := ""
  FillQuantity : Option Decimal := none
  Commission : Option Decimal := none
  Proceeds : Option Decimal := none
  Status : String := ""
  CreatedAt : String := ""
  UpdatedAt : String := ""
  ClosedAt : String := ""
  UseAwards : Bool := false
  OrderToCancel : Option OrderCancel := none
  Code : Option String := none
  deriving DecidableEq, Repr

/-! ## Decoding: `json.Unmarshal` into the record types -/

/-- The decoder's `errorContext`: the struct being decoded (`""` when none) and
the path of fields down to the value being decoded. -/
structure ErrorContext where
  Struct : String := ""
  FieldStack : List String := []
  deriving DecidableEq, Repr

/-- The decoder's `addErrorContext`: an `UnmarshalTypeError` is given the struct
and field it was met in. -/
def addErrorContext (ctx : ErrorContext) : GoError → GoError
  | .UnmarshalTypeError v t s f =>
    if ctx.Struct ≠ "" ∨ ctx.FieldStack ≠ [] then
      .UnmarshalTypeError v t ctx.Struct (".".intercalate ctx.FieldStack)
    else .UnmarshalTypeError v t s f
  | e => e

/-- The decoder's `saveError`: the first error saved is kept. -/
def saveError (ctx : ErrorContext) (saved : Option GoError) (e : GoError) : Option GoError :=
  match saved with
  | some s => some s
  | none => some (addErrorContext ctx e)

/-- Outcome of `d.value(v)`: the target after the call, the decoder's
`savedError`, and the error the call returned (which ends the decoding). -/
structure Decoding (α : Type) where
  val : α
  savedError : Option GoError
  err : Option GoError

/-- The decoder's `d.value(v)` for targets of one Go type: from a JSON value, the
error context, the saved error and the target before the call. -/
abbrev Decoder (α : Type) := Json → ErrorContext → Option GoError → α → Decoding α

/-- A value of the wrong kind for the target: an `UnmarshalTypeError` is saved,
the value is skipped and the target left as it was. -/
def mismatch {α : Type} (value typ : String) (ctx : ErrorContext) (saved : Option GoError)
    (v : α) : Decoding α :=
  ⟨v, saveError ctx saved (.UnmarshalTypeError value typ "" ""), none⟩

/-- Into a target of string kind of Go type `typ` (`literalStore`). -/
def decodeString (typ : String) : Decoder String
  | .null, _, saved, v => ⟨v, saved, none⟩
  | .str _ s, _, saved, _ => ⟨s, saved, none⟩
  | .bool _, ctx, saved, v => mismatch "bool" typ ctx saved v
  | .num _, ctx, saved, v => mismatch "number" typ ctx saved v
  | .arr _ _, ctx, saved, v => mismatch "array" typ ctx saved v
  | .obj _ _, ctx, saved, v => mismatch "object" typ ctx saved v

/-- Into a `bool`. -/
def decodeBool : Decoder Bool
  | .null, _, saved, v => ⟨v, saved, none⟩
  | .bool b, _, saved, _ => ⟨b, saved, none⟩
  | .str _ _, ctx, saved, v => mismatch "string" "bool" ctx saved v
  | .num _, ctx, saved, v => mismatch "number" "bool" ctx saved v
  | .arr _ _, ctx, saved, v => mismatch "array" "bool" ctx saved v
  | .obj _ _, ctx, saved, v => mismatch "object" "bool" ctx saved v

/-- Into an `int32`: the literal must be an integer `strconv.ParseInt` reads,
within the range of the type. -/
def decodeInt32 : Decoder Int
  | .null, _, saved, v => ⟨v, saved, none⟩
  | .num lit, ctx, saved, v =>
    match strconv_ParseInt lit.toList 64 with
    | .error _ => mismatch ("number " ++ lit) "int32" ctx saved v
    | .ok n =>
      if n < -2147483648 ∨ 2147483647 < n then mismatch ("number " ++ lit) "int32" ctx saved v
      else ⟨n, saved, none⟩
  | .str _ _, ctx, saved, v => mismatch "string" "int32" ctx saved v
  | .bool _, ctx, saved, v => mismatch "bool" "int32" ctx saved v
  | .arr _ _, ctx, saved, v => mismatch "array" "int32" ctx saved v
  | .obj _ _, ctx, saved, v => mismatch "object" "int32" ctx saved v

/-- The elements of a JSON array, each decoded into a fresh element `zero`
appended to the slice; an error returned for an element ends the loop. -/
def decodeElements {α : Type} (elem : Decoder α) (zero : α) (ctx : ErrorContext) :
    List Json → Option GoError → Decoding (List α)
  | [], saved => ⟨[], saved, none⟩
  | j :: js, saved =>
    let r := elem j ctx saved zero
    match r.err with
    | some e => ⟨[r.val], r.savedError, some e⟩
    | none =>
      let rs := decodeElements elem zero ctx js r.savedError
      ⟨r.val :: rs.val, rs.savedError, rs.err⟩

/-- Into a slice of Go type `typ` (`d.array`): `null` makes it nil, an array
replaces it (an empty array by an empty, non-nil slice). -/
def decodeSlice {α : Type} (typ : String) (elem : Decoder α) (zero : α) :
    Decoder (Option (List α))
  | .null, _, saved, _ => ⟨none, saved, none⟩
  | .arr _ items, ctx, saved, _ =>
    let rs := decodeElements elem zero ctx items saved
    ⟨some rs.val, rs.savedError, rs.err⟩
  | .str _ _, ctx, saved, v => mismatch "string" typ ctx saved v
  | .num _, ctx, saved, v => mismatch "number" typ ctx saved v
  | .bool _, ctx, saved, v => mismatch "bool" typ ctx saved v
  | .obj _ _, ctx, saved, v => mismatch "object" typ ctx saved v

/-- Into a pointer (`indirect`): `null` makes it nil; for any other value a nil
pointer is first pointed at a new zero value, and the value decoded into what
the pointer points at. -/
def decodePtr {α : Type} (elem : Decoder α) (zero : α) : Decoder (Option α)
  | .null, _, saved, _ => ⟨none, saved, none⟩
  | j, ctx, saved, p =>
    let r := elem j ctx saved (p.getD zero)
    ⟨some r.val, r.savedError, r.err⟩

/-- Into a `*decimal.Decimal`.  The type implements `json.Unmarshaler` (and the
`string` option of the tag is dropped for a struct), so any value but `null` is
handed as text to `UnmarshalJSON`, whose error ends the decoding. -/
def decodeDecimal : Decoder (Option Decimal)
  | .null, _, saved, _ => ⟨none, saved, none⟩
  | j, _, saved, p =>
    let r := Decimal_UnmarshalJSON (p.getD {}) j.text
    ⟨some r.1, saved, r.2⟩

/-- One field of a struct as the decoder sees it: its JSON name and how a value
is decoded into it. -/
structure Field (α : Type) where
  name : String
  store : Decoder α

/-- A field from its name, its getter and setter, and the decoder of its type. -/
def field {α β : Type} (name : String) (get : α → β) (set : α → β → α)
    (dec : Decoder β) : Field α :=
  ⟨name, fun j ctx saved v =>
    let r := dec j ctx saved (get v)
    ⟨set v r.val, r.savedError, r.err⟩⟩

/-- Case folding of a key (`foldName`) as far as it can meet the ASCII names of
the fields: ASCII letters in upper case, and the two letters outside ASCII that
fold to one, the long s and the Kelvin sign. -/
def foldRune (c : Char) : Char :=
  if 97 ≤ c.toNat ∧ c.toNat ≤ 122 then Char.ofNat (c.toNat - 32)
  else if c.toNat = 0x17F then 'S'
  else if c.toNat = 0x212A then 'K'
  else c

def foldName (s : String) : List Char := s.toList.map foldRune

/-- The field a key names: the one of that very name, else the first whose name
is the key up to case. -/
def findField {α : Type} (fields : List (Field α)) (key : String) : Option (Field α) :=
  match fields.find? (fun f => f.name = key) with
  | some f => some f
  | none => fields.find? (fun f => foldName f.name = foldName key)

/-- The members of a JSON object decoded in turn into the struct named
`structName` (`d.object`): a key that names no field is skipped. -/
def decodeMembers {α : Type} (structName : String) (fields : List (Field α))
    (ctx : ErrorContext) : List (String × Json) → Option GoError → α → Decoding α
  | [], saved, v => ⟨v, saved, none⟩
  | (key, j) :: rest, saved, v =>
    match findField fields key with
    | none => decodeMembers structName fields ctx rest saved v
    | some f =>
      let r := f.store j ⟨structName, ctx.FieldStack ++ [f.name]⟩ saved v
      match r.err with
      | some e => ⟨r.val, r.savedError, some e⟩
      | none => decodeMembers structName fields ctx rest r.savedError r.val

/-- Into a struct of Go type `typ`, named `structName`. -/
def decodeStruct {α : Type} (typ structName : String) (fields : List (Field α)) : Decoder α
  | .null, _, saved, v => ⟨v, saved, none⟩
  | .obj _ members, ctx, saved, v => decodeMembers structName fields ctx members saved v
  | .str _ _, ctx, saved, v => mismatch "string" typ ctx saved v
  | .num _, ctx, saved, v => mismatch "number" typ ctx saved v
  | .bool _, ctx, saved, v => mismatch "bool" typ ctx saved v
  | .arr _ _, ctx, saved, v => mismatch "array" typ ctx saved v

/-- Go `json.Unmarshal(data, &v)` for a target decoded by `dec`: the target after
the call and the error.  A syntax error leaves the target untouched; otherwise
the error is the one that ended the decoding, else the first one saved. -/
def json_Unmarshal {α : Type} (dec : Decoder α) (data : String) (v : α) : α × Option GoError :=
  match parseJSON data with
  | .error e => (v, some e)
  | .ok j =>
    let r := dec j {} none v
    match r.err with
    | some e => (r.val, some e)
    | none => (r.val, r.savedError)

def Currency.fields : List (Field Currency) :=
  [ field "symbol" (·.Symbol) (fun v x => { v with Symbol := x }) (decodeString "string"),
    field "name" (·.Name) (fun v x => { v with Name := x }) (decodeString "string"),
    field "coinType" (·.CoinType) (fun v x => { v with CoinType := x }) (decodeString "string"),
    field "status" (·.Status) (fun v x => { v with Status := x }) (decodeString "string"),
    field "minConfirmations" (·.MinConfirmations) (fun v x => { v with MinConfirmations := x })
      (decodeString "string"),
    field "notice" (·.Notice) (fun v x => { v with Notice := x }) (decodeString "string"),
    field "txFee" (·.TxFee) (fun v x => { v with TxFee := x }) (decodeString "string"),
    field "logoUrl" (·.LogoUrl) (fun v x => { v with LogoUrl := x }) (decodeString "string"),
    field "prohibitedIn" (·.ProhibitedIn) (fun v x => { v with ProhibitedIn := x })
      (decodeString "string"),
    field "baseAddress" (·.BaseAddress) (fun v x => { v with BaseAddress := x })
      (decodeString "string") ]

def Balance.fields : List (Field Balance) :=
  [ field "currencySymbol" (·.CurrencySymbol) (fun v x => { v with CurrencySymbol := x })
      (decodeString "string"),
    field "total" (·.Total) (fun v x => { v with Total := x }) (decodeString "string"),
    field "available" (·.Available) (fun v x => { v with Available := x }) (decodeString "string"),
    field "updatedAt" (·.UpdatedAt) (fun v x => { v with UpdatedAt := x }) (decodeString "string") ]

def Market.fields : List (Field Market) :=
  [ field "symbol" (·.Symbol) (fun v x => { v with Symbol := x }) (decodeString "string"),
    field "baseCurrencySymbol" (·.BaseCurrencySymbol)
      (fun v x => { v with BaseCurrencySymbol := x }) (decodeString "string"),
    field "quoteCurrencySymbol" (·.QuoteCurrencySymbol)
      (fun v x => { v with QuoteCurrencySymbol := x }) (decodeString "string"),
    field "minTradeSize" (·.MinTradeSize) (fun v x => { v with MinTradeSize := x })
      (decodeString "string"),
    field "precision" (·.Precision) (fun v x => { v with Precision := x }) decodeInt32,
    field "status" (·.Status) (fun v x => { v with Status := x }) (decodeString "string"),
    field "createdAt" (·.CreatedAt) (fun v x => { v with CreatedAt := x }) (decodeString "string"),
    field "notice" (·.Notice) (fun v x => { v with Notice := x }) (decodeString "string"),
    field "prohibitedIn" (·.ProhibitedIn) (fun v x => { v with ProhibitedIn := x })
      (decodeSlice "[]string" (decodeString "string") "") ]

def MarketSummary.fields : List (Field MarketSummary) :=
  [ field "symbol" (·.Symbol) (fun v x => { v with Symbol := x }) (decodeString "string"),
    field "high" (·.High) (fun v x => { v with High := x }) decodeDecimal,
    field "low" (·.Low) (fun v x => { v with Low := x }) decodeDecimal,
    field "volume" (·.Volume) (fun v x => { v with Volume := x }) decodeDecimal,
    field "quoteVolume" (·.QuoteVolume) (fun v x => { v with QuoteVolume := x }) decodeDecimal,
    field "percentChange" (·.PercentChange) (fun v x => { v with PercentChange := x })
      decodeDecimal,
    field "updatedAt" (·.UpdatedAt) (fun v x => { v with UpdatedAt := x }) (decodeString "string") ]

def MarketTicker.fields : List (Field MarketTicker) :=
  [ field "symbol" (·.Symbol) (fun v x => { v with Symbol := x }) (decodeString "string"),
    field "lastTradeRate" (·.LastTradeRate) (fun v x => { v with LastTradeRate := x })
      decodeDecimal,
    field "bidRate" (·.BidRate) (fun v x => { v with BidRate := x }) decodeDecimal,
    field "askRate" (·.AskRate) (fun v x => { v with AskRate := x }) decodeDecimal ]

def OrderCancel.fields : List (Field OrderCancel) :=
  [ field "type" (·.OrderType) (fun v x => { v with OrderType := x })
      (decodeString "bittrex.OrderType"),
    field "id" (·.ID) (fun v x => { v with ID := x }) (decodeString "string") ]

def Order.fields : List (Field Order) :=
  [ field "id" (·.OrderID) (fun v x => { v with OrderID := x }) (decodeString "string"),
    field "marketSymbol" (·.MarketSymbol) (fun v x => { v with MarketSymbol := x })
      (decodeString "string"),
    field "direction" (·.Direction) (fun v x => { v with Direction := x })
      (decodeString "bittrex.OrderSide"),
    field "type" (·.OrderType) (fun v x => { v with OrderType := x })
      (decodeString "bittrex.OrderType"),
    field "quantity" (·.Quantity) (fun v x => { v with Quantity := x }) decodeDecimal,
    field "limit" (·.Limit) (fun v x => { v with Limit := x }) decodeDecimal,
    field "ceiling" (·.Ceiling) (fun v x => { v with Ceiling := x }) decodeDecimal,
    field "timeInForce" (·.TimeInForce) (fun v x => { v with TimeInForce := x })
      (decodeString "bittrex.TimeInForce"),
    field "clientOrderId" (·.ClientOrderId) (fun v x => { v with ClientOrderId := x })
      (decodeString "string"),
    field "fillQuantity" (·.FillQuantity) (fun v x => { v with FillQuantity := x })
      decodeDecimal,
    field "commission" (·.Commission) (fun v x => { v with Commission := x }) decodeDecimal,
    field "proceeds" (·.Proceeds) (fun v x => { v with Proceeds := x }) decodeDecimal,
    field "status" (·.Status) (fun v x => { v with Status := x }) (decodeString "string"),
    field "createdAt" (·.CreatedAt) (fun v x => { v with CreatedAt := x }) (decodeString "string"),
    field "updatedAt" (·.UpdatedAt) (fun v x => { v with UpdatedAt := x }) (decodeString "string"),
    field "closedAt" (·.ClosedAt) (fun v x => { v with ClosedAt := x }) (decodeString "string"),
    field "useAwards" (·.UseAwards) (fun v x => { v with UseAwards := x }) decodeBool,
    field "orderToCancel" (·.OrderToCancel) (fun v x => { v with OrderToCancel := x })
      (decodePtr (decodeStruct "bittrex.OrderCancel" "OrderCancel" OrderCancel.fields) {}),
    field "code" (·.Code) (fun v x => { v with Code := x })
      (decodePtr (decodeString "string") "") ]

def decodeCurrency : Decoder Currency := decodeStruct "bittrex.Currency" "Currency" Currency.fields
def decodeBalance : Decoder Balance := decodeStruct "bittrex.Balance" "Balance" Balance.fields
def decodeMarket : Decoder Market := decodeStruct "bittrex.Market" "Market" Market.fields
def decodeMarketSummary : Decoder MarketSummary :=
  decodeStruct "bittrex.MarketSummary" "MarketSummary" MarketSummary.fields
def decodeMarketTicker : Decoder MarketTicker :=
  decodeStruct "bittrex.MarketTicker" "MarketTicker" MarketTicker.fields
def decodeOrder : Decoder Order := decodeStruct "bittrex.Order" "Order" Order.fields

/-! ## Encoding: `json.Marshal` of an `Order` -/

/-- One character of a string as the encoder writes it (`escapeHTML` set, as
`json.Marshal` has it): a quote and a backslash behind a backslash, the escapes
n, r and t for line feed, carriage return and tab, the other control characters
and the characters <, > and & as a u-escape of four hexadecimal digits, and so
the line and paragraph separators U+2028 and U+2029. -/
def encodeChar (c : Char) : List Char :=
  if c = '"' ∨ c = '\\' then ['\\', c]
  else if c = '\n' then ['\\', 'n']
  else if c = '\r' then ['\\', 'r']
  else if c = '\t' then ['\\', 't']
  else if c.toNat < 32 ∨ c = '<' ∨ c = '>' ∨ c = '&' then
    ['\\', 'u', '0', '0', hexDigit (c.toNat / 16), hexDigit (c.toNat % 16)]
  else if c.toNat = 0x2028 ∨ c.toNat = 0x2029 then
    ['\\', 'u', '2', '0', '2', hexDigit (c.toNat % 16)]
  else [c]

/-- A Go string as a JSON string literal (`encodeState.string`). -/
def encodeString (s : String) : String :=
  String.mk ('"' :: (s.toList.flatMap encodeChar ++ ['"']))

/-- A `*decimal.Decimal` that is not nil, as the encoder writes it: the text its
`MarshalJSON` returns, or the error of that call. -/
def encodeDecimal (d : Decimal) : Except GoError String :=
  match Decimal_MarshalJSON d with
  | (_, some err) =>
    .error (.errorString ("json: error calling MarshalJSON for type *decimal.Decimal: " ++ err.Error))
  | (text, none) => .ok text

/-- A field with the `omitempty` option whose value is empty is left out
(`none`); any other field is written as `"name":value`. -/
def member (name : String) (value : String) : Option String :=
  some (encodeString name ++ ":" ++ value)

def stringMember (name : String) (omitempty : Bool) (s : String) : Except GoError (Option String) :=
  if omitempty ∧ s = "" then .ok none else .ok (member name (encodeString s))

def decimalMember (name : String) (d : Option Decimal) : Except GoError (Option String) :=
  match d with
  | none => .ok none
  | some x => (encodeDecimal x).map (member name)

/-- An object from its members, those left out dropped. -/
def encodeObject (members : List (Option String)) : String :=
  "\x7b" ++ ",".intercalate (members.filterMap id) ++ "\x7d"

/-- The encoder's walk over the fields of a struct: the members in turn, up to
the first that fails. -/
def collectMembers : List (Except GoError (Option String)) → Except GoError (List (Option String))
  | [] => .ok []
  | .error err :: _ => .error err
  | .ok m :: rest =>
    match collectMembers rest with
    | .error err => .error err
    | .ok ms => .ok (m :: ms)

/-- The encoder on an `OrderCancel`: both fields have `omitempty`. -/
def encodeOrderCancel (c : OrderCancel) : Except GoError String :=
  (collectMembers [stringMember "type" true c.OrderType, stringMember "id" true c.ID]).map
    encodeObject

/-- The fields of an `Order` in the order of their declaration, each under the
name and the options of its tag. -/
def Order.members (order : Order) : List (Except GoError (Option String)) :=
  [ stringMember "id" true order.OrderID,
    stringMember "marketSymbol" false order.MarketSymbol,
    stringMember "direction" false order.Direction,
    stringMember "type" false order.OrderType,
    decimalMember "quantity" order.Quantity,
    decimalMember "limit" order.Limit,
    decimalMember "ceiling" order.Ceiling,
    stringMember "timeInForce" true order.TimeInForce,
    stringMember "clientOrderId" true order.ClientOrderId,
    decimalMember "fillQuantity" order.FillQuantity,
    decimalMember "commission" order.Commission,
    decimalMember "proceeds" order.Proceeds,
    stringMember "status" true order.Status,
    stringMember "createdAt" true order.CreatedAt,
    stringMember "updatedAt" true order.UpdatedAt,
    stringMember "closedAt" true order.ClosedAt,
    .ok (if order.UseAwards then member "useAwards" "true" else none),
    (match order.OrderToCancel with
      | none => .ok none
      | some c => (encodeOrderCancel c).map (member "orderToCancel")),
    .ok (match order.Code with
      | none => none
      | some code => member "code" (encodeString code)) ]

/-- Go `json.Marshal(order)`: the payload and the error. -/
def json_Marshal (order : Order) : String × Option GoError :=
  match collectMembers order.members with
  | .ok members => (encodeObject members, none)
  | .error err => ("", some err)

/-! ## The transport and the world -/

/-- One call of the transport: the four arguments of `Client.Do`. -/
structure Call where
  method : String
  uri : String
  payload : String
  authenticate : Bool
  deriving DecidableEq, Repr

/-- The interface `Client` (declared outside the files at hand; its one method
is read off the call sites and off `fakeBittrexClient.Do`): a transport answers
a call with a body and an error, and may change its own state `σ`. -/
structure Client (σ : Type) where
  Do : String → String → String → Bool → σ → (String × Option GoError) × σ

/-- The world a method of the facade runs in: the state of the transport and
the calls made of it so far, oldest first. -/
structure World (σ : Type) where
  state : σ
  calls : List Call
  deriving Repr

/-- The call `client.Do(method, uri, payload, authenticate)` in a world: the
answer of the transport, and the world with the call recorded. -/
def Client.call {σ : Type} (client : Client σ) (method uri payload : String)
    (authenticate : Bool) (w : World σ) : (String × Option GoError) × World σ :=
  let r := client.Do method uri payload authenticate w.state
  (r.1, { state := r.2, calls := w.calls ++ [⟨method, uri, payload, authenticate⟩] })

/-! ## The facade: `BittrexAPI` -/

structure BittrexAPI (σ : Type) where
  uri : String
  client : Client σ

def NewBittrexAPI {σ : Type} (client : Client σ) (uri : String) : BittrexAPI σ :=
  { client := client, uri := uri }

def BittrexAPI.GetMarket {σ : Type} (this : BittrexAPI σ) (symbol : String) (w : World σ) :
    (Market × Option GoError) × World σ :=
  let uri := this.uri ++ "/markets/" ++ symbol
  let r := this.client.call "GET" uri "" false w
  match r.1.2 with
  | some err => (({}, some err), r.2)
  | none =>
    let u := json_Unmarshal decodeMarket r.1.1 {}
    match u.2 with
    | some err => (({}, some err), r.2)
    | none => ((u.1, none), r.2)

def BittrexAPI.GetMarkets {σ : Type} (this : BittrexAPI σ) (w : World σ) :
    (Option (List Market) × Option GoError) × World σ :=
  let uri := this.uri ++ "/markets"
  let r := this.client.call "GET" uri "" false w
  match r.1.2 with
  | some err => ((none, some err), r.2)
  | none =>
    let u := json_Unmarshal (decodeSlice "[]bittrex.Market" decodeMarket {}) r.1.1 none
    match u.2 with
    | some err => ((none, some err), r.2)
    | none => ((u.1, none), r.2)

def BittrexAPI.GetMarketSummary {σ : Type} (this : BittrexAPI σ) (symbol : String) (w : World σ) :
    (MarketSummary × Option GoError) × World σ :=
  let uri := this.uri ++ "/markets/" ++ symbol ++ "/summary"
  let r := this.client.call "GET" uri "" false w
  match r.1.2 with
  | some err => (({}, some err), r.2)
  | none =>
    let u := json_Unmarshal decodeMarketSummary r.1.1 {}
    match u.2 with
    | some err => (({}, some err), r.2)
    | none => ((u.1, none), r.2)

def BittrexAPI.GetMarketSummaries {σ : Type} (this : BittrexAPI σ) (w : World σ) :
    (Option (List MarketSummary) × Option GoError) × World σ :=
  let uri := this.uri ++ "/markets/summaries"
  let r := this.client.call "GET" uri "" false w
  match r.1.2 with
  | some err => ((none, some err), r.2)
  | none =>
    let u := json_Unmarshal (decodeSlice "[]bittrex.MarketSummary" decodeMarketSummary {}) r.1.1 none
    match u.2 with
    | some err => ((none, some err), r.2)
    | none => ((u.1, none), r.2)

def BittrexAPI.GetMarketTicker {σ : Type} (this : BittrexAPI σ) (symbol : String) (w : World σ) :
    (MarketTicker × Option GoError) × World σ :=
  let uri := this.uri ++ "/markets/" ++ symbol ++ "/ticker"
  let r := this.client.call "GET" uri "" false w
  match r.1.2 with
  | some err => (({}, some err), r.2)
  | none =>
    let u := json_Unmarshal decodeMarketTicker r.1.1 {}
    match u.2 with
    | some err => (({}, some err), r.2)
    | none => ((u.1, none), r.2)

def BittrexAPI.GetMarketTickers {σ : Type} (this : BittrexAPI σ) (w : World σ) :
    (Option (List MarketTicker) × Option GoError) × World σ :=
  let uri := this.uri ++ "/markets/tickers"
  let r := this.client.call "GET" uri "" false w
  match r.1.2 with
  | some err => ((none, some err), r.2)
  | none =>
    let u := json_Unmarshal (decodeSlice "[]bittrex.MarketTicker" decodeMarketTicker {}) r.1.1 none
    match u.2 with
    | some err => ((none, some err), r.2)
    | none => ((u.1, none), r.2)

def BittrexAPI.GetCurrency {σ : Type} (this : BittrexAPI σ) (symbol : String) (w : World σ) :
    (Currency × Option GoError) × World σ :=
  let uri := this.uri ++ "/currencies/" ++ symbol
  let r := this.client.call "GET" uri "" false w
  match r.1.2 with
  | some err => (({}, some err), r.2)
  | none =>
    let u := json_Unmarshal decodeCurrency r.1.1 {}
    match u.2 with
    | some err => (({}, some err), r.2)
    | none => ((u.1, none), r.2)

def BittrexAPI.GetBalances {σ : Type} (this : BittrexAPI σ) (w : World σ) :
    (Option (List Balance) × Option GoError) × World σ :=
  let uri := this.uri ++ "/balances"
  let r := this.client.call "GET" uri "" true w
  match r.1.2 with
  | some err => ((none, some err), r.2)
  | none =>
    let u := json_Unmarshal (decodeSlice "[]bittrex.Balance" decodeBalance {}) r.1.1 none
    match u.2 with
    | some err => ((none, some err), r.2)
    | none => ((u.1, none), r.2)

def BittrexAPI.GetOrder {σ : Type} (this : BittrexAPI σ) (orderID : String) (w : World σ) :
    (Order × Option GoError) × World σ :=
  let uri := this.uri ++ "/orders/" ++ orderID
  let r := this.client.call "GET" uri "" false w
  match r.1.2 with
  | some err => (({}, some err), r.2)
  | none =>
    let u := json_Unmarshal decodeOrder r.1.1 {}
    match u.2 with
    | some err => (({}, some err), r.2)
    | none => ((u.1, none), r.2)

def BittrexAPI.GetOrders {σ : Type} (this : BittrexAPI σ) (openOrClosed : String) (w : World σ) :
    (Option (List Order) × Option GoError) × World σ :=
  let uri := this.uri ++ "/orders/" ++ openOrClosed
  let r := this.client.call "GET" uri "" true w
  match r.1.2 with
  | some err => ((none, some err), r.2)
  | none =>
    let u := json_Unmarshal (decodeSlice "[]bittrex.Order" decodeOrder {}) r.1.1 none
    match u.2 with
    | some err => ((none, some err), r.2)
    | none => ((u.1, none), r.2)

/-- Required: marketSymbol, direction, type, timeInForce. -/
def BittrexAPI.CreateOrder {σ : Type} (this : BittrexAPI σ) (order : Order) (w : World σ) :
    (Option Order × Option GoError) × World σ :=
  let m := json_Marshal order
  match m.2 with
  | some err => ((none, some err), w)
  | none =>
    let uri := this.uri ++ "/orders"
    let r := this.client.call "POST" uri m.1 true w
    match r.1.2 with
    | some err => ((none, some err), r.2)
    | none =>
      let u := json_Unmarshal (decodePtr decodeOrder {}) r.1.1 none
      match u.2 with
      | some err => ((none, some (errors_New (err.Error ++ r.1.1))), r.2)
      | none => ((u.1, none), r.2)

def BittrexAPI.CancelOrder {σ : Type} (this : BittrexAPI σ) (orderId : String) (w : World σ) :
    (Option Order × Option GoError) × World σ :=
  let uri := this.uri ++ "/orders/" ++ orderId
  let r := this.client.call "DELETE" uri "" true w
  match r.1.2 with
  | some err => ((none, some err), r.2)
  | none =>
    let u := json_Unmarshal (decodePtr decodeOrder {}) r.1.1 (some {})
    match u.2 with
    | some err => ((none, some (errors_New (err.Error ++ r.1.1))), r.2)
    | none => ((u.1, none), r.2)

/-! ## The transport of the tests: `fakeBittrexClient` -/

structure fakeBittrexClient where
  EnableErrors : Bool := false
  deriving DecidableEq, Repr

def fakeBittrexClient.Do (this : fakeBittrexClient) (_method uri _payload : String)
    (_authenticate : Bool) : String × Option GoError :=
  if uri = "/balances" then
    ("[\x7b\"currencySymbol\": \"BTC\",\"total\": \"0.00000000\",\"available\": \"0.00000000\",\"updatedAt\": \"2019-10-29T20:25:10.16Z\"\x7d,\x7b\"currencySymbol\": \"LTC\",\"total\": \"0\",\"available\": \"0\",\"updatedAt\": \"2020-09-03T21:27:53.8210894Z\"\x7d]", none)
  else if uri = "/currencies/fakesymbol" then
    ("\x7b\x7d", none)
  else if uri = "/markets/fakesymbol" then
    ("\x7b\"symbol\":\"ETH-BTC\",\"baseCurrencySymbol\":\"ETH\",\"quoteCurrencySymbol\":\"BTC\",\"minTradeSize\":\"0.01000000\",\"precision\":8,\"status\":\"ONLINE\",\"createdAt\":\"2015-08-14T09:02:24.817Z\",\"notice\":\"\",\"prohibitedIn\":[],\"associatedTermsOfService\":[]\x7d", none)
  else if uri = "/markets" then
    ("[\x7b\"symbol\": \"4ART-BTC\",\"baseCurrencySymbol\": \"4ART\",\"quoteCurrencySymbol\": \"BTC\",\"minTradeSize\": \"10.00000000\",\"precision\": 8,\"status\": \"ONLINE\",\"createdAt\": \"2020-06-10T15:05:29.833Z\",\"notice\": \"\",\"prohibitedIn\": [\"US\"]\x7d,\x7b\"symbol\": \"4ART-USDT\",\"baseCurrencySymbol\": \"4ART\",\"quoteCurrencySymbol\": \"USDT\",\"minTradeSize\": \"10.00000000\",\"precision\": 5,\"status\": \"ONLINE\",\"createdAt\": \"2020-06-10T15:05:40.98Z\",\"notice\": \"\",\"prohibitedIn\": [\"US\"]\x7d]", none)
  else if uri = "/markets/fakesymbol/summary" then
    ("\x7b\"symbol\":\"ETH-BTC\",\"high\":\"0.03894964\",\"low\":\"0.03650000\",\"volume\":\"18494.04035144\",\"quoteVolume\":\"696.42899671\",\"percentChange\":\"-3.33\",\"updatedAt\":\"2020-09-04T04:37:45.107Z\"\x7d", none)
  else if uri = "/markets/summaries" then
    ("[\x7b\"symbol\": \"4ART-BTC\",\"high\": \"0.00000275\",\"low\": \"0.00000249\",\"volume\": \"54499.59344453\",\"quoteVolume\": \"0.13917073\",\"percentChange\": \"10.44\",\"updatedAt\": \"2020-09-04T04:58:55.447Z\"\x7d,\x7b\"symbol\": \"4ART-USDT\",\"high\": \"0.02880000\",\"low\": \"0.02667000\",\"volume\": \"48259.53706735\",\"quoteVolume\": \"1320.75839607\",\"percentChange\": \"-6.11\",\"updatedAt\": \"2020-09-04T04:33:20.01Z\"\x7d]", none)
  else if uri = "/markets/fakesymbol/ticker" then
    ("\x7b\"symbol\":\"ETH-BTC\",\"lastTradeRate\":\"0.03760069\",\"bidRate\":\"0.03760103\",\"askRate\":\"0.03762798\"\x7d", none)
  else if uri = "/markets/tickers" then
    ("[\x7b\"symbol\": \"ETH-BTC\",\"lastTradeRate\": \"0.03760069\",\"bidRate\": \"0.03760103\",\"askRate\": \"0.03762798\"\x7d,\x7b\"symbol\": \"ETH-FAKE\",\"lastTradeRate\": \"1.03760069\",\"bidRate\": \"1.03760103\",\"askRate\": \"1.03762798\"\x7d]", none)
  else if uri = "/orders/fakeOrder" then
    ("\x7b\"id\": \"55eb2c82-4184-4a24-8b6e-ee154b2f7eaf\",\"marketSymbol\": \"XRP-BTC\",\"direction\": \"BUY\",\"type\": \"LIMIT\",\"quantity\": \"77.53046131\",\"limit\": \"0.00003528\",\"timeInForce\": \"GOOD_TIL_CANCELLED\",\"fillQuantity\": \"77.53046131\",\"commission\": \"0.00000682\",\"proceeds\": \"0.00272829\",\"status\": \"CLOSED\",\"createdAt\": \"2017-10-20T18:27:20.747Z\",\"updatedAt\": \"2017-10-20T18:27:20.763Z\",\"closedAt\": \"2017-10-20T18:27:20.763Z\"\x7d", none)
  else if uri = "/orders/open" then
    ("[\x7b\"id\": \"55eb2c82-4184-4a24-8b6e-ee154b2f7eaf\",\"marketSymbol\": \"XRP-BTC\",\"direction\": \"BUY\",\"type\": \"LIMIT\",\"quantity\": \"77.53046131\",\"limit\": \"0.00003528\",\"timeInForce\": \"GOOD_TIL_CANCELLED\",\"fillQuantity\": \"77.53046131\",\"commission\": \"0.00000682\",\"proceeds\": \"0.00272829\",\"status\": \"OPEN\",\"createdAt\": \"2017-10-20T18:27:20.747Z\",\"updatedAt\": \"2017-10-20T18:27:20.763Z\",\"closedAt\": \"2017-10-20T18:27:20.763Z\"\x7d]", none)
  else if uri = "/orders/closed" then
    ("[\x7b\"id\": \"55eb2c82-4184-4a24-8b6e-ee154b2f7eaf\",\"marketSymbol\": \"XRP-BTC\",\"direction\": \"BUY\",\"type\": \"LIMIT\",\"quantity\": \"77.53046131\",\"limit\": \"0.00003528\",\"timeInForce\": \"GOOD_TIL_CANCELLED\",\"fillQuantity\": \"77.53046131\",\"commission\": \"0.00000682\",\"proceeds\": \"0.00272829\",\"status\": \"CLOSED\",\"createdAt\": \"2017-10-20T18:27:20.747Z\",\"updatedAt\": \"2017-10-20T18:27:20.763Z\",\"closedAt\": \"2017-10-20T18:27:20.763Z\"\x7d]", none)
  else if uri = "/orders" then
    if this.EnableErrors then
      ("\x7b\"code\": \"MIN_TRADE_REQUIREMENT_NOT_MET\"\x7d", none)
    else
      ("\x7b\"id\": \"fab677a0-510e-456e-b450-8a75cea69f5d\",\"marketSymbol\": \"ETH-BTC\",\"direction\": \"BUY\",\"type\": \"LIMIT\",\"quantity\": \"5\",\"limit\": \"0.00039561\",\"timeInForce\": \"GOOD_TIL_CANCELLED\",\"status\": \"OPEN\",\"createdAt\": \"2020-09-08T05:08:40.84Z\",\"updatedAt\": \"2020-09-08T05:08:40.84Z\"\x7d", none)
  else if uri = "/orders/fab677a0-510e-456e-b450-8a75cea69f5d" then
    if this.EnableErrors then
      ("\x7b\"code\": \"ORDER_NOT_OPEN\"\x7d", none)
    else
      ("\x7b\"id\": \"fab677a0-510e-456e-b450-8a75cea69f5d\",\"marketSymbol\": \"ETH-BTC\",\"direction\": \"BUY\",\"type\": \"LIMIT\",\"quantity\": \"5\",\"limit\": \"0.00039561\",\"timeInForce\": \"GOOD_TIL_CANCELLED\",\"status\": \"OPEN\",\"createdAt\": \"2020-09-08T05:08:40.84Z\",\"updatedAt\": \"2020-09-08T05:08:40.84Z\"\x7d", none)
  else ("", some (errors_New "test resource not found"))

/-- The fake as a `Client`: it keeps no state. -/
def fakeBittrexClient.client (this : fakeBittrexClient) : Client Unit :=
  { Do := fun method uri payload authenticate s => (this.Do method uri payload authenticate, s) }

/-- A world in which no call has been made yet. -/
def World.init {σ : Type} (s : σ) : World σ := { state := s, calls := [] }

/-- A transport that answers every call alike. -/
def stubClient (body : String) (err : Option GoError) : Client Unit :=
  { Do := fun _ _ _ _ s => ((body, err), s) }

/-- The calls the transport received between two worlds, oldest first. -/
def newCalls {σ : Type} (before after : World σ) : List Call :=
  after.calls.drop before.calls.length

/-! ## Vocabulary of the claims -/

/-- A plain decimal literal: a sign (none, `+` or `-`), digits, and when `frac`
is given a decimal point followed by the digits of the fraction. -/
def plainDecimal (sign whole : List Char) (frac : Option (List Char)) : String :=
  String.mk (sign ++ whole ++ (match frac with
    | none => []
    | some f => '.' :: f))

/-- The parts are those of a plain decimal literal: the sign is empty, `+` or
`-`, there is at least one digit before the point, and only digits around it. -/
def isPlainDecimal (sign whole : List Char) (frac : Option (List Char)) : Prop :=
  (sign = [] ∨ sign = ['+'] ∨ sign = ['-']) ∧ whole ≠ [] ∧
  (∀ c ∈ whole, isDigit c = true) ∧ (∀ c ∈ frac.getD [], isDigit c = true)

/-- The decimal a plain literal denotes: the coefficient is the integer formed
by all its digits, negated under a minus sign, the exponent is minus the number
of digits of the fraction. -/
def exactDecimal (sign whole : List Char) (frac : Option (List Char)) : Decimal :=
  { value :=
      if sign = ['-'] then - (digitsValue (whole ++ frac.getD []) : Int)
      else (digitsValue (whole ++ frac.getD []) : Int),
    exp := - ((frac.getD []).length : Int) }

/-- The key `key` of a JSON object names the field called `name` of a struct
with these fields. -/
def namesField {α : Type} (fields : List (Field α)) (key name : String) : Prop :=
  (findField fields key).map (·.name) = some name

instance {α : Type} (fields : List (Field α)) (key name : String) :
    Decidable (namesField fields key name) := by
  unfold namesField
  infer_instance

/-- The monetary fields of a `MarketSummary`: the JSON name and the field. -/
def MarketSummary.monetary : List (String × (MarketSummary → Option Decimal)) :=
  [("high", (·.High)), ("low", (·.Low)), ("volume", (·.Volume)),
   ("quoteVolume", (·.QuoteVolume)), ("percentChange", (·.PercentChange))]

/-- The monetary fields of a `MarketTicker`. -/
def MarketTicker.monetary : List (String × (MarketTicker → Option Decimal)) :=
  [("lastTradeRate", (·.LastTradeRate)), ("bidRate", (·.BidRate)), ("askRate", (·.AskRate))]

/-- The monetary fields of an `Order`. -/
def Order.monetary : List (String × (Order → Option Decimal)) :=
  [("quantity", (·.Quantity)), ("limit", (·.Limit)), ("ceiling", (·.Ceiling)),
   ("fillQuantity", (·.FillQuantity)), ("commission", (·.Commission)),
   ("proceeds", (·.Proceeds))]

/-- The members of a JSON object whose key names a field of the struct: what is
left of the object when every key that names no field is dropped. -/
def knownMembers {α : Type} (fields : List (Field α)) (members : List (String × Json)) :
    List (String × Json) :=
  members.filter (fun m => (findField fields m.1).isSome)

/-- The value `j2` is the value `j` without the members that name no field of
the struct: for an object, `j2` is an object (of whatever text) whose members
are the members of `j` that name a field; a value that is no object is left as
it is. -/
def withoutUnknown {α : Type} (fields : List (Field α)) : Json → Json → Prop
  | .obj _ members, .obj _ members2 => members2 = knownMembers fields members
  | .obj _ _, _ => False
  | j, j2 => j2 = j

/-- The value of a field of one of the records, whatever its Go type. -/
inductive FieldValue where
  | string (s : String)
  | int32 (n : Int)
  | bool (b : Bool)
  | decimal (d : Option Decimal)
  | strings (l : Option (List String))
  | orderCancel (c : Option OrderCancel)
  | stringPtr (s : Option String)
  deriving DecidableEq, Repr

/-- The zero values of the Go types of the fields: the empty string, 0, false
and nil. -/
def FieldValue.zeros : List FieldValue :=
  [.string "", .int32 0, .bool false, .decimal none, .strings none, .orderCancel none,
   .stringPtr none]

/-- The declared fields of a `Currency`: the JSON name and the value of the field. -/
def Currency.declared : List (String × (Currency → FieldValue)) :=
  [("symbol", fun v => .string v.Symbol), ("name", fun v => .string v.Name),
   ("coinType", fun v => .string v.CoinType), ("status", fun v => .string v.Status),
   ("minConfirmations", fun v => .string v.MinConfirmations),
   ("notice", fun v => .string v.Notice), ("txFee", fun v => .string v.TxFee),
   ("logoUrl", fun v => .string v.LogoUrl), ("prohibitedIn", fun v => .string v.ProhibitedIn),
   ("baseAddress", fun v => .string v.BaseAddress)]

/-- The declared fields of a `Balance`: the JSON name and the value of the field. -/
def Balance.declared : List (String × (Balance → FieldValue)) :=
  [("currencySymbol", fun v => .string v.CurrencySymbol), ("total", fun v => .string v.Total),
   ("available", fun v => .string v.Available), ("updatedAt", fun v => .string v.UpdatedAt)]

/-- The declared fields of a `Market`: the JSON name and the value of the field. -/
def Market.declared : List (String × (Market → FieldValue)) :=
  [("symbol", fun v => .string v.Symbol),
   ("baseCurrencySymbol", fun v => .string v.BaseCurrencySymbol),
   ("quoteCurrencySymbol", fun v => .string v.QuoteCurrencySymbol),
   ("minTradeSize", fun v => .string v.MinTradeSize), ("precision", fun v => .int32 v.Precision),
   ("status", fun v => .string v.Status), ("createdAt", fun v => .string v.CreatedAt),
   ("notice", fun v => .string v.Notice), ("prohibitedIn", fun v => .strings v.ProhibitedIn)]

/-- The declared fields of a `MarketSummary`: the JSON name and the value of the field. -/
def MarketSummary.declared : List (String × (MarketSummary → FieldValue)) :=
  [("symbol", fun v => .string v.Symbol), ("high", fun v => .decimal v.High),
   ("low", fun v => .decimal v.Low), ("volume", fun v => .decimal v.Volume),
   ("quoteVolume", fun v => .decimal v.QuoteVolume),
   ("percentChange", fun v => .decimal v.PercentChange),
   ("updatedAt", fun v => .string v.UpdatedAt)]

/-- The declared fields of a `MarketTicker`: the JSON name and the value of the field. -/
def MarketTicker.declared : List (String × (MarketTicker → FieldValue)) :=
  [("symbol", fun v => .string v.Symbol), ("lastTradeRate", fun v => .decimal v.LastTradeRate),
   ("bidRate", fun v => .decimal v.BidRate), ("askRate", fun v => .decimal v.AskRate)]

/-- The declared fields of an `Order`: the JSON name and the value of the field. -/
def Order.declared : List (String × (Order → FieldValue)) :=
  [("id", fun v => .string v.OrderID), ("marketSymbol", fun v => .string v.MarketSymbol),
   ("direction", fun v => .string v.Direction), ("type", fun v => .string v.OrderType),
   ("quantity", fun v => .decimal v.Quantity), ("limit", fun v => .decimal v.Limit),
   ("ceiling", fun v => .decimal v.Ceiling), ("timeInForce", fun v => .string v.TimeInForce),
   ("clientOrderId", fun v => .string v.ClientOrderId),
   ("fillQuantity", fun v => .decimal v.FillQuantity),
   ("commission", fun v => .decimal v.Commission), ("proceeds", fun v => .decimal v.Proceeds),
   ("status", fun v => .string v.Status), ("createdAt", fun v => .string v.CreatedAt),
   ("updatedAt", fun v => .string v.UpdatedAt), ("closedAt", fun v => .string v.ClosedAt),
   ("useAwards", fun v => .bool v.UseAwards),
   ("orderToCancel", fun v => .orderCancel v.OrderToCancel), ("code", fun v => .stringPtr v.Code)]

/-- A member of an object as it is written and as it is read back: its name,
the text of its value, and the JSON value that text is. -/
abbrev Entry := String × String × Json

/-- The text of a member: the name as a JSON string, a colon, the value. -/
def Entry.text (e : Entry) : String := encodeString e.1 ++ ":" ++ e.2.1

/-- The members a reader finds in an object written from these entries, those
left out dropped. -/
def readBack (entries : List (Option Entry)) : List (String × Json) :=
  (entries.filterMap id).map (fun e => (e.1, e.2.2))

/-- A string field: left out when it is empty under `omitempty`, else a JSON
string holding it. -/
def stringEntry (name : String) (omitempty : Bool) (s : String) : Option Entry :=
  if omitempty ∧ s = "" then none
  else some (name, encodeString s, .str (String.mk (s.data.flatMap encodeChar)) s)

/-- A `*decimal.Decimal` field under `omitempty`: left out when nil, else a JSON
string holding the text of the decimal. -/
def decimalEntry (name : String) (d : Option Decimal) : Option Entry :=
  d.map (fun x =>
    (name, "\"" ++ Decimal_String x ++ "\"", .str (Decimal_String x) (Decimal_String x)))

/-- A `bool` field under `omitempty`: left out when false. -/
def boolEntry (name : String) (b : Bool) : Option Entry :=
  if b then some (name, "true", .bool true) else none

/-- A `*string` field under `omitempty`: left out when nil. -/
def stringPtrEntry (name : String) (s : Option String) : Option Entry :=
  s.map (fun x => (name, encodeString x, .str (String.mk (x.data.flatMap encodeChar)) x))

/-- The entries of an `OrderCancel`. -/
def OrderCancel.entries (c : OrderCancel) : List (Option Entry) :=
  [stringEntry "type" true c.OrderType, stringEntry "id" true c.ID]

/-- A `*OrderCancel` field under `omitempty`: left out when nil, else the object
of its entries. -/
def orderCancelEntry (name : String) (c : Option OrderCancel) : Option Entry :=
  c.map (fun x =>
    (name, encodeObject (x.entries.map (Option.map Entry.text)),
      .obj (encodeObject (x.entries.map (Option.map Entry.text))) (readBack x.entries)))

/-- The entries of an `Order`, in the order of the fields. -/
def Order.entries (order : Order) : List (Option Entry) :=
  [ stringEntry "id" true order.OrderID,
    stringEntry "marketSymbol" false order.MarketSymbol,
    stringEntry "direction" false order.Direction,
    stringEntry "type" false order.OrderType,
    decimalEntry "quantity" order.Quantity,
    decimalEntry "limit" order.Limit,
    decimalEntry "ceiling" order.Ceiling,
    stringEntry "timeInForce" true order.TimeInForce,
    stringEntry "clientOrderId" true order.ClientOrderId,
    decimalEntry "fillQuantity" order.FillQuantity,
    decimalEntry "commission" order.Commission,
    decimalEntry "proceeds" order.Proceeds,
    stringEntry "status" true order.Status,
    stringEntry "createdAt" true order.CreatedAt,
    stringEntry "updatedAt" true order.UpdatedAt,
    stringEntry "closedAt" true order.ClosedAt,
    boolEntry "useAwards" order.UseAwards,
    orderCancelEntry "orderToCancel" order.OrderToCancel,
    stringPtrEntry "code" order.Code ]

/-! ## The facade, one call at a time

For every method: the world it leaves is the world after one call of the
transport, and its result is read off the answer to that call. -/

theorem newCalls_call {σ : Type} (client : Client σ) (method uri payload : String)
    (authenticate : Bool) (w : World σ) :
    newCalls w (client.call method uri payload authenticate w).2
      = [⟨method, uri, payload, authenticate⟩] := by
  simp [newCalls, Client.call]

theorem call_answer {σ : Type} (client : Client σ) (method uri payload : String)
    (authenticate : Bool) (w : World σ) :
    (client.call method uri payload authenticate w).1
      = (client.Do method uri payload authenticate w.state).1 := rfl

theorem call_calls {σ : Type} (client : Client σ) (method uri payload : String)
    (authenticate : Bool) (w : World σ) :
    (client.call method uri payload authenticate w).2.calls
      = w.calls ++ [⟨method, uri, payload, authenticate⟩] := rfl

theorem GetMarket_world {σ : Type} (this : BittrexAPI σ) (symbol : String) (w : World σ) :
    (this.GetMarket symbol w).2
      = (this.client.call "GET" (this.uri ++ "/markets/" ++ symbol) "" false w).2 := by
  unfold BittrexAPI.GetMarket
  simp only []
  split
  · rfl
  · split <;> rfl

theorem GetMarket_failure {σ : Type} (this : BittrexAPI σ) (symbol : String) (w : World σ)
    (e : GoError)
    (h : (this.client.Do "GET" (this.uri ++ "/markets/" ++ symbol) "" false w.state).1.2 = some e) :
    (this.GetMarket symbol w).1 = ({}, some e) := by
  unfold BittrexAPI.GetMarket
  simp only [call_answer, h]

theorem GetMarket_undecodable {σ : Type} (this : BittrexAPI σ) (symbol : String) (w : World σ)
    (body : String) (err : GoError)
    (h : (this.client.Do "GET" (this.uri ++ "/markets/" ++ symbol) "" false w.state).1 = (body, none))
    (hd : (json_Unmarshal decodeMarket body {}).2 = some err) :
    (this.GetMarket symbol w).1 = ({}, some err) := by
  unfold BittrexAPI.GetMarket
  simp only [call_answer, h, hd]

theorem GetMarket_decoded {σ : Type} (this : BittrexAPI σ) (symbol : String) (w : World σ)
    (body : String)
    (h : (this.client.Do "GET" (this.uri ++ "/markets/" ++ symbol) "" false w.state).1 = (body, none))
    (hd : (json_Unmarshal decodeMarket body {}).2 = none) :
    (this.GetMarket symbol w).1 = ((json_Unmarshal decodeMarket body {}).1, none) := by
  unfold BittrexAPI.GetMarket
  simp only [call_answer, h, hd]

theorem GetMarkets_world {σ : Type} (this : BittrexAPI σ) (w : World σ) :
    (this.GetMarkets w).2
      = (this.client.call "GET" (this.uri ++ "/markets") "" false w).2 := by
  unfold BittrexAPI.GetMarkets
  simp only []
  split
  · rfl
  · split <;> rfl

theorem GetMarkets_failure {σ : Type} (this : BittrexAPI σ) (w : World σ)
    (e : GoError)
    (h : (this.client.Do "GET" (this.uri ++ "/markets") "" false w.state).1.2 = some e) :
    (this.GetMarkets w).1 = (none, some e) := by
  unfold BittrexAPI.GetMarkets
  simp only [call_answer, h]

theorem GetMarkets_undecodable {σ : Type} (this : BittrexAPI σ) (w : World σ)
    (body : String) (err : GoError)
    (h : (this.client.Do "GET" (this.uri ++ "/markets") "" false w.state).1 = (body, none))
    (hd : (json_Unmarshal (decodeSlice "[]bittrex.Market" decodeMarket {}) body none).2 = some err) :
    (this.GetMarkets w).1 = (none, some err) := by
  unfold BittrexAPI.GetMarkets
  simp only [call_answer, h, hd]

theorem GetMarkets_decoded {σ : Type} (this : BittrexAPI σ) (w : World σ)
    (body : String)
    (h : (this.client.Do "GET" (this.uri ++ "/markets") "" false w.state).1 = (body, none))
    (hd : (json_Unmarshal (decodeSlice "[]bittrex.Market" decodeMarket {}) body none).2 = none) :
    (this.GetMarkets w).1 = ((json_Unmarshal (decodeSlice "[]bittrex.Market" decodeMarket {}) body none).1, none) := by
  unfold BittrexAPI.GetMarkets
  simp only [call_answer, h, hd]

theorem GetMarketSummary_world {σ : Type} (this : BittrexAPI σ) (symbol : String) (w : World σ) :
    (this.GetMarketSummary symbol w).2
      = (this.client.call "GET" (this.uri ++ "/markets/" ++ symbol ++ "/summary") "" false w).2 := by
  unfold BittrexAPI.GetMarketSummary
  simp only []
  split
  · rfl
  · split <;> rfl

theorem GetMarketSummary_failure {σ : Type} (this : BittrexAPI σ) (symbol : String) (w : World σ)
    (e : GoError)
    (h : (this.client.Do "GET" (this.uri ++ "/markets/" ++ symbol ++ "/summary") "" false w.state).1.2 = some e) :
    (this.GetMarketSummary symbol w).1 = ({}, some e) := by
  unfold BittrexAPI.GetMarketSummary
  simp only [call_answer, h]

theorem GetMarketSummary_undecodable {σ : Type} (this : BittrexAPI σ) (symbol : String) (w : World σ)
    (body : String) (err : GoError)
    (h : (this.client.Do "GET" (this.uri ++ "/markets/" ++ symbol ++ "/summary") "" false w.state).1 = (body, none))
    (hd : (json_Unmarshal decodeMarketSummary body {}).2 = some err) :
    (this.GetMarketSummary symbol w).1 = ({}, some err) := by
  unfold BittrexAPI.GetMarketSummary
  simp only [call_answer, h, hd]

theorem GetMarketSummary_decoded {σ : Type} (this : BittrexAPI σ) (symbol : String) (w : World σ)
    (body : String)
    (h : (this.client.Do "GET" (this.uri ++ "/markets/" ++ symbol ++ "/summary") "" false w.state).1 = (body, none))
    (hd : (json_Unmarshal decodeMarketSummary body {}).2 = none) :
    (this.GetMarketSummary symbol w).1 = ((json_Unmarshal decodeMarketSummary body {}).1, none) := by
  unfold BittrexAPI.GetMarketSummary
  simp only [call_answer, h, hd]

theorem GetMarketSummaries_world {σ : Type} (this : BittrexAPI σ) (w : World σ) :
    (this.GetMarketSummaries w).2
      = (this.client.call "GET" (this.uri ++ "/markets/summaries") "" false w).2 := by
  unfold BittrexAPI.GetMarketSummaries
  simp only []
  split
  · rfl
  · split <;> rfl

theorem GetMarketSummaries_failure {σ : Type} (this : BittrexAPI σ) (w : World σ)
    (e : GoError)
    (h : (this.client.Do "GET" (this.uri ++ "/markets/summaries") "" false w.state).1.2 = some e) :
    (this.GetMarketSummaries w).1 = (none, some e) := by
  unfold BittrexAPI.GetMarketSummaries
  simp only [call_answer, h]

theorem GetMarketSummaries_undecodable {σ : Type} (this : BittrexAPI σ) (w : World σ)
    (body : String) (err : GoError)
    (h : (this.client.Do "GET" (this.uri ++ "/markets/summaries") "" false w.state).1 = (body, none))
    (hd : (json_Unmarshal (decodeSlice "[]bittrex.MarketSummary" decodeMarketSummary {}) body none).2 = some err) :
    (this.GetMarketSummaries w).1 = (none, some err) := by
  unfold BittrexAPI.GetMarketSummaries
  simp only [call_answer, h, hd]

theorem GetMarketSummaries_decoded {σ : Type} (this : BittrexAPI σ) (w : World σ)
    (body : String)
    (h : (this.client.Do "GET" (this.uri ++ "/markets/summaries") "" false w.state).1 = (body, none))
    (hd : (json_Unmarshal (decodeSlice "[]bittrex.MarketSummary" decodeMarketSummary {}) body none).2 = none) :
    (this.GetMarketSummaries w).1 = ((json_Unmarshal (decodeSlice "[]bittrex.MarketSummary" decodeMarketSummary {}) body none).1, none) := by
  unfold BittrexAPI.GetMarketSummaries
  simp only [call_answer, h, hd]

theorem GetMarketTicker_world {σ : Type} (this : BittrexAPI σ) (symbol : String) (w : World σ) :
    (this.GetMarketTicker symbol w).2
      = (this.client.call "GET" (this.uri ++ "/markets/" ++ symbol ++ "/ticker") "" false w).2 := by
  unfold BittrexAPI.GetMarketTicker
  simp only []
  split
  · rfl
  · split <;> rfl

theorem GetMarketTicker_failure {σ : Type} (this : BittrexAPI σ) (symbol : String) (w : World σ)
    (e : GoError)
    (h : (this.client.Do "GET" (this.uri ++ "/markets/" ++ symbol ++ "/ticker") "" false w.state).1.2 = some e) :
    (this.GetMarketTicker symbol w).1 = ({}, some e) := by
  unfold BittrexAPI.GetMarketTicker
  simp only [call_answer, h]

theorem GetMarketTicker_undecodable {σ : Type} (this : BittrexAPI σ) (symbol : String) (w : World σ)
    (body : String) (err : GoError)
    (h : (this.client.Do "GET" (this.uri ++ "/markets/" ++ symbol ++ "/ticker") "" false w.state).1 = (body, none))
    (hd : (json_Unmarshal decodeMarketTicker body {}).2 = some err) :
    (this.GetMarketTicker symbol w).1 = ({}, some err) := by
  unfold BittrexAPI.GetMarketTicker
  simp only [call_answer, h, hd]

theorem GetMarketTicker_decoded {σ : Type} (this : BittrexAPI σ) (symbol : String) (w : World σ)
    (body : String)
    (h : (this.client.Do "GET" (this.uri ++ "/markets/" ++ symbol ++ "/ticker") "" false w.state).1 = (body, none))
    (hd : (json_Unmarshal decodeMarketTicker body {}).2 = none) :
    (this.GetMarketTicker symbol w).1 = ((json_Unmarshal decodeMarketTicker body {}).1, none) := by
  unfold BittrexAPI.GetMarketTicker
  simp only [call_answer, h, hd]

theorem GetMarketTickers_world {σ : Type} (this : BittrexAPI σ) (w : World σ) :
    (this.GetMarketTickers w).2
      = (this.client.call "GET" (this.uri ++ "/markets/tickers") "" false w).2 := by
  unfold BittrexAPI.GetMarketTickers
  simp only []
  split
  · rfl
  · split <;> rfl

theorem GetMarketTickers_failure {σ : Type} (this : BittrexAPI σ) (w : World σ)
    (e : GoError)
    (h : (this.client.Do "GET" (this.uri ++ "/markets/tickers") "" false w.state).1.2 = some e) :
    (this.GetMarketTickers w).1 = (none, some e) := by
  unfold BittrexAPI.GetMarketTickers
  simp only [call_answer, h]

theorem GetMarketTickers_undecodable {σ : Type} (this : BittrexAPI σ) (w : World σ)
    (body : String) (err : GoError)
    (h : (this.client.Do "GET" (this.uri ++ "/markets/tickers") "" false w.state).1 = (body, none))
    (hd : (json_Unmarshal (decodeSlice "[]bittrex.MarketTicker" decodeMarketTicker {}) body none).2 = some err) :
    (this.GetMarketTickers w).1 = (none, some err) := by
  unfold BittrexAPI.GetMarketTickers
  simp only [call_answer, h, hd]

theorem GetMarketTickers_decoded {σ : Type} (this : BittrexAPI σ) (w : World σ)
    (body : String)
    (h : (this.client.Do "GET" (this.uri ++ "/markets/tickers") "" false w.state).1 = (body, none))
    (hd : (json_Unmarshal (decodeSlice "[]bittrex.MarketTicker" decodeMarketTicker {}) body none).2 = none) :
    (this.GetMarketTickers w).1 = ((json_Unmarshal (decodeSlice "[]bittrex.MarketTicker" decodeMarketTicker {}) body none).1, none) := by
  unfold BittrexAPI.GetMarketTickers
  simp only [call_answer, h, hd]

theorem GetCurrency_world {σ : Type} (this : BittrexAPI σ) (symbol : String) (w : World σ) :
    (this.GetCurrency symbol w).2
      = (this.client.call "GET" (this.uri ++ "/currencies/" ++ symbol) "" false w).2 := by
  unfold BittrexAPI.GetCurrency
  simp only []
  split
  · rfl
  · split <;> rfl

theorem GetCurrency_failure {σ : Type} (this : BittrexAPI σ) (symbol : String) (w : World σ)
    (e : GoError)
    (h : (this.client.Do "GET" (this.uri ++ "/currencies/" ++ symbol) "" false w.state).1.2 = some e) :
    (this.GetCurrency symbol w).1 = ({}, some e) := by
  unfold BittrexAPI.GetCurrency
  simp only [call_answer, h]

theorem GetCurrency_undecodable {σ : Type} (this : BittrexAPI σ) (symbol : String) (w : World σ)
    (body : String) (err : GoError)
    (h : (this.client.Do "GET" (this.uri ++ "/currencies/" ++ symbol) "" false w.state).1 = (body, none))
    (hd : (json_Unmarshal decodeCurrency body {}).2 = some err) :
    (this.GetCurrency symbol w).1 = ({}, some err) := by
  unfold BittrexAPI.GetCurrency
  simp only [call_answer, h, hd]

theorem GetCurrency_decoded {σ : Type} (this : BittrexAPI σ) (symbol : String) (w : World σ)
    (body : String)
    (h : (this.client.Do "GET" (this.uri ++ "/currencies/" ++ symbol) "" false w.state).1 = (body, none))
    (hd : (json_Unmarshal decodeCurrency body {}).2 = none) :
    (this.GetCurrency symbol w).1 = ((json_Unmarshal decodeCurrency body {}).1, none) := by
  unfold BittrexAPI.GetCurrency
  simp only [call_answer, h, hd]

theorem GetBalances_world {σ : Type} (this : BittrexAPI σ) (w : World σ) :
    (this.GetBalances w).2
      = (this.client.call "GET" (this.uri ++ "/balances") "" true w).2 := by
  unfold BittrexAPI.GetBalances
  simp only []
  split
  · rfl
  · split <;> rfl

theorem GetBalances_failure {σ : Type} (this : BittrexAPI σ) (w : World σ)
    (e : GoError)
    (h : (this.client.Do "GET" (this.uri ++ "/balances") "" true w.state).1.2 = some e) :
    (this.GetBalances w).1 = (none, some e) := by
  unfold BittrexAPI.GetBalances
  simp only [call_answer, h]

theorem GetBalances_undecodable {σ : Type} (this : BittrexAPI σ) (w : World σ)
    (body : String) (err : GoError)
    (h : (this.client.Do "GET" (this.uri ++ "/balances") "" true w.state).1 = (body, none))
    (hd : (json_Unmarshal (decodeSlice "[]bittrex.Balance" decodeBalance {}) body none).2 = some err) :
    (this.GetBalances w).1 = (none, some err) := by
  unfold BittrexAPI.GetBalances
  simp only [call_answer, h, hd]

theorem GetBalances_decoded {σ : Type} (this : BittrexAPI σ) (w : World σ)
    (body : String)
    (h : (this.client.Do "GET" (this.uri ++ "/balances") "" true w.state).1 = (body, none))
    (hd : (json_Unmarshal (decodeSlice "[]bittrex.Balance" decodeBalance {}) body none).2 = none) :
    (this.GetBalances w).1 = ((json_Unmarshal (decodeSlice "[]bittrex.Balance" decodeBalance {}) body none).1, none) := by
  unfold BittrexAPI.GetBalances
  simp only [call_answer, h, hd]

theorem GetOrder_world {σ : Type} (this : BittrexAPI σ) (orderID : String) (w : World σ) :
    (this.GetOrder orderID w).2
      = (this.client.call "GET" (this.uri ++ "/orders/" ++ orderID) "" false w).2 := by
  unfold BittrexAPI.GetOrder
  simp only []
  split
  · rfl
  · split <;> rfl

theorem GetOrder_failure {σ : Type} (this : BittrexAPI σ) (orderID : String) (w : World σ)
    (e : GoError)
    (h : (this.client.Do "GET" (this.uri ++ "/orders/" ++ orderID) "" false w.state).1.2 = some e) :
    (this.GetOrder orderID w).1 = ({}, some e) := by
  unfold BittrexAPI.GetOrder
  simp only [call_answer, h]

theorem GetOrder_undecodable {σ : Type} (this : BittrexAPI σ) (orderID : String) (w : World σ)
    (body : String) (err : GoError)
    (h : (this.client.Do "GET" (this.uri ++ "/orders/" ++ orderID) "" false w.state).1 = (body, none))
    (hd : (json_Unmarshal decodeOrder body {}).2 = some err) :
    (this.GetOrder orderID w).1 = ({}, some err) := by
  unfold BittrexAPI.GetOrder
  simp only [call_answer, h, hd]

theorem GetOrder_decoded {σ : Type} (this : BittrexAPI σ) (orderID : String) (w : World σ)
    (body : String)
    (h : (this.client.Do "GET" (this.uri ++ "/orders/" ++ orderID) "" false w.state).1 = (body, none))
    (hd : (json_Unmarshal decodeOrder body {}).2 = none) :
    (this.GetOrder orderID w).1 = ((json_Unmarshal decodeOrder body {}).1, none) := by
  unfold BittrexAPI.GetOrder
  simp only [call_answer, h, hd]

theorem GetOrders_world {σ : Type} (this : BittrexAPI σ) (openOrClosed : String) (w : World σ) :
    (this.GetOrders openOrClosed w).2
      = (this.client.call "GET" (this.uri ++ "/orders/" ++ openOrClosed) "" true w).2 := by
  unfold BittrexAPI.GetOrders
  simp only []
  split
  · rfl
  · split <;> rfl

theorem GetOrders_failure {σ : Type} (this : BittrexAPI σ) (openOrClosed : String) (w : World σ)
    (e : GoError)
    (h : (this.client.Do "GET" (this.uri ++ "/orders/" ++ openOrClosed) "" true w.state).1.2 = some e) :
    (this.GetOrders openOrClosed w).1 = (none, some e) := by
  unfold BittrexAPI.GetOrders
  simp only [call_answer, h]

theorem GetOrders_undecodable {σ : Type} (this : BittrexAPI σ) (openOrClosed : String) (w : World σ)
    (body : String) (err : GoError)
    (h : (this.client.Do "GET" (this.uri ++ "/orders/" ++ openOrClosed) "" true w.state).1 = (body, none))
    (hd : (json_Unmarshal (decodeSlice "[]bittrex.Order" decodeOrder {}) body none).2 = some err) :
    (this.GetOrders openOrClosed w).1 = (none, some err) := by
  unfold BittrexAPI.GetOrders
  simp only [call_answer, h, hd]

theorem GetOrders_decoded {σ : Type} (this : BittrexAPI σ) (openOrClosed : String) (w : World σ)
    (body : String)
    (h : (this.client.Do "GET" (this.uri ++ "/orders/" ++ openOrClosed) "" true w.state).1 = (body, none))
    (hd : (json_Unmarshal (decodeSlice "[]bittrex.Order" decodeOrder {}) body none).2 = none) :
    (this.GetOrders openOrClosed w).1 = ((json_Unmarshal (decodeSlice "[]bittrex.Order" decodeOrder {}) body none).1, none) := by
  unfold BittrexAPI.GetOrders
  simp only [call_answer, h, hd]

theorem CancelOrder_world {σ : Type} (this : BittrexAPI σ) (orderId : String) (w : World σ) :
    (this.CancelOrder orderId w).2
      = (this.client.call "DELETE" (this.uri ++ "/orders/" ++ orderId) "" true w).2 := by
  unfold BittrexAPI.CancelOrder
  simp only []
  split
  · rfl
  · split <;> rfl

theorem CancelOrder_failure {σ : Type} (this : BittrexAPI σ) (orderId : String) (w : World σ)
    (e : GoError)
    (h : (this.client.Do "DELETE" (this.uri ++ "/orders/" ++ orderId) "" true w.state).1.2 = some e) :
    (this.CancelOrder orderId w).1 = (none, some e) := by
  unfold BittrexAPI.CancelOrder
  simp only [call_answer, h]

theorem CancelOrder_undecodable {σ : Type} (this : BittrexAPI σ) (orderId : String) (w : World σ)
    (body : String) (err : GoError)
    (h : (this.client.Do "DELETE" (this.uri ++ "/orders/" ++ orderId) "" true w.state).1 = (body, none))
    (hd : (json_Unmarshal (decodePtr decodeOrder {}) body (some {})).2 = some err) :
    (this.CancelOrder orderId w).1 = (none, some (errors_New (err.Error ++ body))) := by
  unfold BittrexAPI.CancelOrder
  simp only [call_answer, h, hd]

theorem CancelOrder_decoded {σ : Type} (this : BittrexAPI σ) (orderId : String) (w : World σ)
    (body : String)
    (h : (this.client.Do "DELETE" (this.uri ++ "/orders/" ++ orderId) "" true w.state).1 = (body, none))
    (hd : (json_Unmarshal (decodePtr decodeOrder {}) body (some {})).2 = none) :
    (this.CancelOrder orderId w).1 = ((json_Unmarshal (decodePtr decodeOrder {}) body (some {})).1, none) := by
  unfold BittrexAPI.CancelOrder
  simp only [call_answer, h, hd]

theorem decimalMember_ok (name : String) (d : Option Decimal) :
    decimalMember name d
      = .ok (d.map (fun x => (encodeString name ++ ":" ++ ("\"" ++ Decimal_String x ++ "\"")))) := by
  cases d <;> simp [decimalMember, encodeDecimal, Decimal_MarshalJSON, Except.map, member]

theorem stringMember_ok (name : String) (omitempty : Bool) (s : String) :
    stringMember name omitempty s
      = .ok (if omitempty ∧ s = "" then none else member name (encodeString s)) := by
  unfold stringMember
  split <;> rfl

theorem encodeOrderCancel_ok (c : OrderCancel) :
    encodeOrderCancel c = .ok (encodeObject
      [if c.OrderType = "" then none else member "type" (encodeString c.OrderType),
       if c.ID = "" then none else member "id" (encodeString c.ID)]) := by
  simp [encodeOrderCancel, stringMember_ok, collectMembers, Except.map]

/-- No field of an `Order` can fail to encode: `json.Marshal` returns a payload,
an object, and no error. -/
theorem json_Marshal_ok (order : Order) :
    ∃ members, json_Marshal order = (encodeObject members, none) := by
  unfold json_Marshal Order.members
  simp only [decimalMember_ok, stringMember_ok, encodeOrderCancel_ok]
  cases order.OrderToCancel
  · exact ⟨_, rfl⟩
  · exact ⟨_, rfl⟩

theorem json_Marshal_err (order : Order) : (json_Marshal order).2 = none := by
  obtain ⟨ms, h⟩ := json_Marshal_ok order
  rw [h]

theorem encodeObject_ne_empty (members : List (Option String)) : encodeObject members ≠ "" := by
  intro h
  have hlen := congrArg String.length h
  simp only [encodeObject, String.length_append] at hlen
  have h1 : ("\x7b" : String).length = 1 := by decide
  have h0 : ("" : String).length = 0 := by decide
  omega

theorem CreateOrder_world {σ : Type} (this : BittrexAPI σ) (order : Order) (w : World σ) :
    (this.CreateOrder order w).2
      = (this.client.call "POST" (this.uri ++ "/orders") (json_Marshal order).1 true w).2 := by
  unfold BittrexAPI.CreateOrder
  simp only [json_Marshal_err]
  split
  · rfl
  · split <;> rfl

theorem CreateOrder_failure {σ : Type} (this : BittrexAPI σ) (order : Order) (w : World σ)
    (e : GoError)
    (h : (this.client.Do "POST" (this.uri ++ "/orders") (json_Marshal order).1 true
      w.state).1.2 = some e) :
    (this.CreateOrder order w).1 = (none, some e) := by
  unfold BittrexAPI.CreateOrder
  simp only [json_Marshal_err, call_answer, h]

theorem CreateOrder_undecodable {σ : Type} (this : BittrexAPI σ) (order : Order) (w : World σ)
    (body : String) (err : GoError)
    (h : (this.client.Do "POST" (this.uri ++ "/orders") (json_Marshal order).1 true
      w.state).1 = (body, none))
    (hd : (json_Unmarshal (decodePtr decodeOrder {}) body none).2 = some err) :
    (this.CreateOrder order w).1 = (none, some (errors_New (err.Error ++ body))) := by
  unfold BittrexAPI.CreateOrder
  simp only [json_Marshal_err, call_answer, h, hd]

theorem CreateOrder_decoded {σ : Type} (this : BittrexAPI σ) (order : Order) (w : World σ)
    (body : String)
    (h : (this.client.Do "POST" (this.uri ++ "/orders") (json_Marshal order).1 true
      w.state).1 = (body, none))
    (hd : (json_Unmarshal (decodePtr decodeOrder {}) body none).2 = none) :
    (this.CreateOrder order w).1 = ((json_Unmarshal (decodePtr decodeOrder {}) body none).1, none) := by
  unfold BittrexAPI.CreateOrder
  simp only [json_Marshal_err, call_answer, h, hd]

/-! ## The fuel of the parser is enough -/

theorem skipSpace_length (cs : List Char) : (skipSpace cs).length ≤ cs.length := by
  induction cs with
  | nil => simp [skipSpace]
  | cons c cs ih =>
    simp only [skipSpace]
    split
    · simp only [List.length_cons]
      omega
    · exact le_refl _

theorem skipSpace_cons_length (cs : List Char) (c : Char) (rest : List Char)
    (h : skipSpace cs = c :: rest) : rest.length < cs.length := by
  have := skipSpace_length cs
  rw [h] at this
  simp only [List.length_cons] at this
  omega

theorem scanString_length (st : StrState) (cs raw rest : List Char)
    (h : scanString st cs = .ok (raw, rest)) : rest.length < cs.length := by
  induction cs generalizing st raw with
  | nil => cases st <;> simp [scanString] at h
  | cons c cs ih =>
    cases st <;> simp only [scanString] at h <;>
    (repeat' split at h) <;>
    first
      | (cases h; done)
      | (cases h; simp)
      | (simp only [Except.map] at h
         split at h
         · cases h
         · rename_i v hv
           cases h
           have := ih _ _ hv
           simp only [List.length_cons]
           omega)

theorem scanNumber_length (st : NumState) (cs lit rest : List Char)
    (h : scanNumber st cs = .ok (lit, rest)) : rest.length ≤ cs.length := by
  induction cs generalizing st lit with
  | nil => cases st <;> simp [scanNumber] at h <;> simp [h]
  | cons c cs ih =>
    cases st <;> simp only [scanNumber] at h <;>
    (repeat' split at h) <;>
    first
      | (cases h; done)
      | (cases h; simp)
      | (simp only [Except.map] at h
         split at h
         · cases h
         · rename_i v hv
           cases h
           have := ih _ _ hv
           simp only [List.length_cons]
           omega)

theorem scanLiteral_length (word : String) (es cs rest : List Char)
    (h : scanLiteral word es cs = .ok rest) : rest.length ≤ cs.length := by
  induction es generalizing cs with
  | nil =>
    simp only [scanLiteral] at h
    cases h
    exact le_refl _
  | cons e es ih =>
    cases cs with
    | nil => simp [scanLiteral] at h
    | cons c cs =>
      simp only [scanLiteral] at h
      split at h
      · have := ih _ h
        simp only [List.length_cons]
        omega
      · cases h

/-- Every value, run of elements and run of members the parser reads takes at
least one character. -/
theorem parse_length (fuel : Nat) :
    (∀ d cs v rest, parseValue fuel d cs = .ok (v, rest) → rest.length < cs.length) ∧
    (∀ d cs vs rest, parseElements fuel d cs = .ok (vs, rest) → rest.length < cs.length) ∧
    (∀ d cs ms rest, parseMembers fuel d cs = .ok (ms, rest) → rest.length < cs.length) := by
  induction fuel with
  | zero =>
    refine ⟨?_, ?_, ?_⟩ <;> intro d cs v rest h
    · simp [parseValue] at h
    · simp [parseElements] at h
    · simp [parseMembers] at h
  | succ f ih =>
    obtain ⟨ihV, ihE, ihM⟩ := ih
    refine ⟨?_, ?_, ?_⟩
    · intro d cs v rest h
      rw [parseValue] at h
      cases hs : skipSpace cs with
      | nil => simp [hs] at h
      | cons c r =>
        have hr := skipSpace_cons_length cs c r hs
        simp only [hs] at h
        split at h
        · split at h
          · cases h
          · cases hs2 : skipSpace r with
            | nil => simp [hs2] at h
            | cons c2 r2 =>
              have hr2 := skipSpace_cons_length r c2 r2 hs2
              simp only [hs2] at h
              split at h
              · cases h
                omega
              · cases hm : parseMembers f (d + 1) (c2 :: r2) with
                | error e => simp [hm] at h
                | ok p =>
                  obtain ⟨ms, r3⟩ := p
                  simp only [hm] at h
                  cases h
                  have := ihM _ _ _ _ hm
                  simp only [List.length_cons] at this
                  omega
        · split at h
          · split at h
            · cases h
            · cases hs2 : skipSpace r with
              | nil => simp [hs2] at h
              | cons c2 r2 =>
                have hr2 := skipSpace_cons_length r c2 r2 hs2
                simp only [hs2] at h
                split at h
                · cases h
                  omega
                · cases hm : parseElements f (d + 1) (c2 :: r2) with
                  | error e => simp [hm] at h
                  | ok p =>
                    obtain ⟨ms, r3⟩ := p
                    simp only [hm] at h
                    cases h
                    have := ihE _ _ _ _ hm
                    simp only [List.length_cons] at this
                    omega
          · split at h
            · cases hq : scanString .stateInString r with
              | error e => simp [hq] at h
              | ok p =>
                obtain ⟨raw, r2⟩ := p
                simp only [hq] at h
                cases h
                have := scanString_length _ _ _ _ hq
                omega
            · split at h
              · cases hq : scanNumber .stateNeg r with
                | error e => simp [hq] at h
                | ok p =>
                  obtain ⟨lit, r2⟩ := p
                  simp only [hq] at h
                  cases h
                  have := scanNumber_length _ _ _ _ hq
                  omega
              · split at h
                · cases hq : scanNumber .state0 r with
                  | error e => simp [hq] at h
                  | ok p =>
                    obtain ⟨lit, r2⟩ := p
                    simp only [hq] at h
                    cases h
                    have := scanNumber_length _ _ _ _ hq
                    omega
                · split at h
                  · cases hq : scanNumber .state1 r with
                    | error e => simp [hq] at h
                    | ok p =>
                      obtain ⟨lit, r2⟩ := p
                      simp only [hq] at h
                      cases h
                      have := scanNumber_length _ _ _ _ hq
                      omega
                  · split at h
                    · cases hq : scanLiteral "true" ['r', 'u', 'e'] r with
                      | error e => simp [hq, Except.map] at h
                      | ok r2 =>
                        simp only [hq, Except.map] at h
                        cases h
                        have := scanLiteral_length _ _ _ _ hq
                        omega
                    · split at h
                      · cases hq : scanLiteral "false" ['a', 'l', 's', 'e'] r with
                        | error e => simp [hq, Except.map] at h
                        | ok r2 =>
                          simp only [hq, Except.map] at h
                          cases h
                          have := scanLiteral_length _ _ _ _ hq
                          omega
                      · split at h
                        · cases hq : scanLiteral "null" ['u', 'l', 'l'] r with
                          | error e => simp [hq, Except.map] at h
                          | ok r2 =>
                            simp only [hq, Except.map] at h
                            cases h
                            have := scanLiteral_length _ _ _ _ hq
                            omega
                        · cases h
    · intro d cs vs rest h
      rw [parseElements] at h
      cases hv : parseValue f d cs with
      | error e => simp [hv] at h
      | ok p =>
        obtain ⟨v, r⟩ := p
        have hr := ihV _ _ _ _ hv
        simp only [hv] at h
        cases hs : skipSpace r with
        | nil => simp [hs] at h
        | cons c r2 =>
          have hr2 := skipSpace_cons_length r c r2 hs
          simp only [hs] at h
          split at h
          · cases h
            omega
          · split at h
            · cases he : parseElements f d r2 with
              | error e => simp [he] at h
              | ok q =>
                obtain ⟨ws, r3⟩ := q
                simp only [he] at h
                cases h
                have := ihE _ _ _ _ he
                omega
            · cases h
    · intro d cs ms rest h
      rw [parseMembers] at h
      cases hs : skipSpace cs with
      | nil => simp [hs] at h
      | cons q r =>
        have hr := skipSpace_cons_length cs q r hs
        simp only [hs] at h
        split at h
        · cases h
        · cases hq : scanString .stateInString r with
          | error e => simp [hq] at h
          | ok p =>
            obtain ⟨rawKey, r2⟩ := p
            have hr2 := scanString_length _ _ _ _ hq
            simp only [hq] at h
            cases hs3 : skipSpace r2 with
            | nil => simp [hs3] at h
            | cons c r3 =>
              have hr3 := skipSpace_cons_length r2 c r3 hs3
              simp only [hs3] at h
              split at h
              · cases h
              · cases hv : parseValue f d r3 with
                | error e => simp [hv] at h
                | ok p =>
                  obtain ⟨v, r4⟩ := p
                  have hr4 := ihV _ _ _ _ hv
                  simp only [hv] at h
                  cases hs5 : skipSpace r4 with
                  | nil => simp [hs5] at h
                  | cons c2 r5 =>
                    have hr5 := skipSpace_cons_length r4 c2 r5 hs5
                    simp only [hs5] at h
                    split at h
                    · cases h
                      omega
                    · split at h
                      · cases hm : parseMembers f d r5 with
                        | error e => simp [hm] at h
                        | ok q =>
                          obtain ⟨ms2, r6⟩ := q
                          simp only [hm] at h
                          cases h
                          have := ihM _ _ _ _ hm
                          omega
                      · cases h

/-- The result of the parser does not depend on the fuel, once the fuel is twice
the length of the input: no more fuel is ever asked for. -/
theorem parse_fuel (f : Nat) : ∀ g d cs,
    (2 * cs.length ≤ f → 2 * cs.length ≤ g → parseValue f d cs = parseValue g d cs) ∧
    (2 * cs.length + 1 ≤ f → 2 * cs.length + 1 ≤ g →
      parseElements f d cs = parseElements g d cs) ∧
    (2 * cs.length ≤ f → 2 * cs.length ≤ g → parseMembers f d cs = parseMembers g d cs) := by
  have hnil : ∀ n d, parseValue n d [] = .error unexpectedEnd := by
    intro n d
    cases n <;> simp [parseValue, skipSpace]
  have hnilM : ∀ n d, parseMembers n d [] = .error unexpectedEnd := by
    intro n d
    cases n <;> simp [parseMembers, skipSpace]
  induction f with
  | zero =>
    intro g d cs
    refine ⟨?_, ?_, ?_⟩
    · intro h _
      have : cs = [] := List.length_eq_zero.mp (by omega)
      subst this
      rw [hnil, hnil]
    · intro h
      omega
    · intro h _
      have : cs = [] := List.length_eq_zero.mp (by omega)
      subst this
      rw [hnilM, hnilM]
  | succ f ih =>
    intro g d cs
    cases g with
    | zero =>
      refine ⟨?_, ?_, ?_⟩
      · intro _ h
        have : cs = [] := List.length_eq_zero.mp (by omega)
        subst this
        rw [hnil, hnil]
      · intro _ h
        omega
      · intro _ h
        have : cs = [] := List.length_eq_zero.mp (by omega)
        subst this
        rw [hnilM, hnilM]
    | succ g =>
      refine ⟨?_, ?_, ?_⟩
      · intro hf hg
        rw [parseValue, parseValue]
        cases hs : skipSpace cs with
        | nil => rfl
        | cons c r =>
          have hr := skipSpace_cons_length cs c r hs
          simp only []
          by_cases hc : c = '\x7b'
          · simp only [hc, if_true]
            split
            · rfl
            · cases hs2 : skipSpace r with
              | nil => rfl
              | cons c2 r2 =>
                have hr2 := skipSpace_cons_length r c2 r2 hs2
                simp only []
                split
                · rfl
                · rw [(ih g (d + 1) (c2 :: r2)).2.2
                    (by simp only [List.length_cons]; omega)
                    (by simp only [List.length_cons]; omega)]
          · by_cases hc2 : c = '['
            · subst hc2
              simp only [show ¬ ('[' : Char) = '\x7b' by decide, if_false, if_true]
              split
              · rfl
              · cases hs2 : skipSpace r with
                | nil => rfl
                | cons c2 r2 =>
                  have hr2 := skipSpace_cons_length r c2 r2 hs2
                  simp only []
                  split
                  · rfl
                  · rw [(ih g (d + 1) (c2 :: r2)).2.1
                      (by simp only [List.length_cons]; omega)
                      (by simp only [List.length_cons]; omega)]
            · simp only [hc, hc2, if_false]
      · intro hf hg
        rw [parseElements, parseElements]
        rw [(ih g d cs).1 (by omega) (by omega)]
        cases hv : parseValue g d cs with
        | error e => rfl
        | ok p =>
          obtain ⟨v, r⟩ := p
          have hr := (parse_length g).1 _ _ _ _ hv
          simp only []
          cases hs : skipSpace r with
          | nil => rfl
          | cons c r2 =>
            have hr2 := skipSpace_cons_length r c r2 hs
            simp only []
            split
            · rfl
            · split
              · rw [(ih g d r2).2.1 (by omega) (by omega)]
              · rfl
      · intro hf hg
        rw [parseMembers, parseMembers]
        cases hs : skipSpace cs with
        | nil => rfl
        | cons q r =>
          have hr := skipSpace_cons_length cs q r hs
          simp only []
          split
          · rfl
          · cases hq : scanString .stateInString r with
            | error e => rfl
            | ok p =>
              obtain ⟨rawKey, r2⟩ := p
              have hr2 := scanString_length _ _ _ _ hq
              simp only []
              cases hs3 : skipSpace r2 with
              | nil => rfl
              | cons c r3 =>
                have hr3 := skipSpace_cons_length r2 c r3 hs3
                simp only []
                split
                · rfl
                · rw [(ih g d r3).1 (by omega) (by omega)]
                  cases hv : parseValue g d r3 with
                  | error e => rfl
                  | ok p =>
                    obtain ⟨v, r4⟩ := p
                    have hr4 := (parse_length g).1 _ _ _ _ hv
                    simp only []
                    cases hs5 : skipSpace r4 with
                    | nil => rfl
                    | cons c2 r5 =>
                      have hr5 := skipSpace_cons_length r4 c2 r5 hs5
                      simp only []
                      split
                      · rfl
                      · split
                        · rw [(ih g d r5).2.2 (by omega) (by omega)]
                        · rfl

/-- The fuel `parseJSON` gives its parser is enough: any fuel above it gives the
same result. -/
theorem parseJSON_fuel (data : String) (fuel : Nat) (h : 2 * data.length + 2 ≤ fuel) :
    parseValue fuel 0 data.toList = parseValue (2 * data.length + 2) 0 data.toList := by
  have hl : data.toList.length = data.length := rfl
  exact (parse_fuel fuel (2 * data.length + 2) 0 data.toList).1 (by omega) (by omega)

/-- The result of `unquote` does not depend on the fuel, once the fuel is the
length of the text. -/
theorem unquote_fuel (f : Nat) : ∀ g cs, cs.length ≤ f → cs.length ≤ g →
    unquote f cs = unquote g cs := by
  induction f using Nat.strong_induction_on with
  | _ f ih =>
    intro g cs hf hg
    cases cs with
    | nil => cases f <;> cases g <;> rfl
    | cons c cs =>
      cases f with
      | zero => simp at hf
      | succ f =>
        cases g with
        | zero => simp at hg
        | succ g =>
          simp only [unquote]
          split
          · split
            · rename_i h1 h2 h3 h4 rest
              simp only [List.length_cons] at hf hg
              split
              · split
                · rename_i k1 k2 k3 k4 rest2
                  simp only [List.length_cons] at hf hg
                  split
                  · rw [ih f (by omega) g rest2 (by omega) (by omega)]
                  · rw [ih f (by omega) g _ (by simp only [List.length_cons]; omega)
                      (by simp only [List.length_cons]; omega)]
                · rw [ih f (by omega) g rest (by omega) (by omega)]
              · rw [ih f (by omega) g rest (by omega) (by omega)]
            · rename_i e rest _
              simp only [List.length_cons] at hf hg
              rw [ih f (by omega) g rest (by omega) (by omega)]
            · rfl
          · simp only [List.length_cons] at hf hg
            rw [ih f (by omega) g cs (by omega) (by omega)]

/-! ## Decimal literals -/

theorem foldl_digits_ge (ds : List Char) (n : Nat) :
    n ≤ ds.foldl (fun n c => n * 10 + (c.toNat - 48)) n := by
  induction ds generalizing n with
  | nil => simp
  | cons c cs ih =>
    simp only [List.foldl_cons]
    exact le_trans (by omega) (ih _)

theorem parseUintLoop_digits (maxVal : Nat) (ds : List Char) (n : Nat)
    (hd : ∀ c ∈ ds, isDigit c = true)
    (hmax : ds.foldl (fun n c => n * 10 + (c.toNat - 48)) n ≤ maxVal) :
    parseUintLoop maxVal n ds = .ok (ds.foldl (fun n c => n * 10 + (c.toNat - 48)) n) := by
  induction ds generalizing n with
  | nil => simp [parseUintLoop]
  | cons c cs ih =>
    have hc : isDigit c = true := hd c (by simp)
    have hle := foldl_digits_ge cs (n * 10 + (c.toNat - 48))
    simp only [List.foldl_cons] at hmax ⊢
    have hnot : ¬ maxVal < n * 10 + (c.toNat - 48) := by omega
    simp only [parseUintLoop, hc, Bool.not_true, Bool.false_eq_true, if_false, hnot]
    exact ih _ (fun x hx => hd x (by simp [hx])) hmax

theorem foldl_digits_lt (ds : List Char) (n : Nat) (hd : ∀ c ∈ ds, isDigit c = true) :
    ds.foldl (fun n c => n * 10 + (c.toNat - 48)) n < (n + 1) * 10 ^ ds.length := by
  induction ds generalizing n with
  | nil => simp
  | cons c cs ih =>
    have hc : isDigit c = true := hd c (by simp)
    simp only [isDigit, Bool.and_eq_true, decide_eq_true_eq] at hc
    simp only [List.foldl_cons, List.length_cons]
    have h1 := ih (n * 10 + (c.toNat - 48)) (fun x hx => hd x (by simp [hx]))
    have h2 : (n * 10 + (c.toNat - 48) + 1) * 10 ^ cs.length ≤ (n + 1) * 10 ^ (cs.length + 1) := by
      rw [pow_succ]
      have : n * 10 + (c.toNat - 48) + 1 ≤ (n + 1) * 10 := by omega
      calc (n * 10 + (c.toNat - 48) + 1) * 10 ^ cs.length
          ≤ ((n + 1) * 10) * 10 ^ cs.length := Nat.mul_le_mul_right _ this
        _ = (n + 1) * (10 ^ cs.length * 10) := by ring
    exact lt_of_lt_of_le h1 h2

theorem digitsValue_lt (ds : List Char) (hd : ∀ c ∈ ds, isDigit c = true) :
    digitsValue ds < 10 ^ ds.length := by
  have := foldl_digits_lt ds 0 hd
  simpa [digitsValue] using this

theorem isDigit_ne {c : Char} (hc : isDigit c = true) :
    c ≠ '.' ∧ c ≠ 'e' ∧ c ≠ 'E' ∧ c ≠ '+' ∧ c ≠ '-' := by
  simp only [isDigit, Bool.and_eq_true, decide_eq_true_eq] at hc
  refine ⟨?_, ?_, ?_, ?_, ?_⟩ <;>
  · intro h
    subst h
    revert hc
    decide

/-- A run of at most eighteen digits under an optional sign is read by
`strconv.ParseInt` at 64 bits as the integer it denotes. -/
theorem strconv_ParseInt_signed (sign ds : List Char)
    (hsign : sign = [] ∨ sign = ['+'] ∨ sign = ['-']) (hne : ds ≠ [])
    (hd : ∀ c ∈ ds, isDigit c = true) (hlen : ds.length ≤ 18) :
    strconv_ParseInt (sign ++ ds) 64
      = .ok (if sign = ['-'] then - (digitsValue ds : Int) else (digitsValue ds : Int)) := by
  have hlt := digitsValue_lt ds hd
  have hpow : 10 ^ ds.length ≤ 10 ^ 18 := Nat.pow_le_pow_right (by norm_num) hlen
  have hloop : strconv_ParseUint ds 64 = .ok (digitsValue ds) := by
    unfold strconv_ParseUint
    rw [if_neg hne]
    exact parseUintLoop_digits _ ds 0 hd (by
      have : digitsValue ds = ds.foldl (fun n c => n * 10 + (c.toNat - 48)) 0 := rfl
      rw [← this]
      norm_num
      omega)
  have hcut1 : ¬ (2 ^ (64 - 1) ≤ digitsValue ds) := by norm_num; omega
  have hcut2 : ¬ (2 ^ (64 - 1) < digitsValue ds) := by norm_num; omega
  rcases hsign with h | h | h
  · subst h
    obtain ⟨c, cs, rfl⟩ := List.exists_cons_of_ne_nil hne
    have hc := isDigit_ne (hd c (by simp))
    simp only [List.nil_append, strconv_ParseInt, hc.2.2.2.1, hc.2.2.2.2, or_self, if_false,
      hloop, decide_False, Bool.false_eq_true, false_and, hcut1, not_true_eq_false,
      and_false, List.nil_eq, reduceCtorEq]
  · subst h
    have hb : digitsValue ds < 9223372036854775808 := by omega
    simp [strconv_ParseInt, hloop, hb]
  · subst h
    have hb : digitsValue ds ≤ 9223372036854775808 := by omega
    simp [strconv_ParseInt, hloop, hb]

/-- A run of digits under an optional sign is read by `big.Int.SetString` as
the integer it denotes. -/
theorem big_SetString_signed (sign ds : List Char)
    (hsign : sign = [] ∨ sign = ['+'] ∨ sign = ['-']) (hne : ds ≠ [])
    (hd : ∀ c ∈ ds, isDigit c = true) :
    big_SetString (sign ++ ds)
      = some (if sign = ['-'] then - (digitsValue ds : Int) else (digitsValue ds : Int)) := by
  have hall : ds.all isDigit = true := by
    rw [List.all_eq_true]
    exact hd
  rcases hsign with h | h | h
  · subst h
    obtain ⟨c, cs, rfl⟩ := List.exists_cons_of_ne_nil hne
    have hc := isDigit_ne (hd c (by simp))
    simp only [List.nil_append, big_SetString, hc.2.2.2.1, hc.2.2.2.2, or_self, if_false,
      hall, decide_False, Bool.false_eq_true, not_true_eq_false, or_false, List.nil_eq,
      reduceCtorEq]
  · subst h
    simp [big_SetString, hall, hne]
  · subst h
    simp [big_SetString, hall, hne]

theorem splitExponent_none (l : List Char) (h : ∀ c ∈ l, c ≠ 'E' ∧ c ≠ 'e') :
    splitExponent l = none := by
  induction l with
  | nil => rfl
  | cons c cs ih =>
    have hc := h c (by simp)
    simp [splitExponent, hc.1, hc.2, ih (fun x hx => h x (by simp [hx]))]

theorem splitPoint_none (l : List Char) (h : ∀ c ∈ l, c ≠ '.') : splitPoint l = none := by
  induction l with
  | nil => rfl
  | cons c cs ih =>
    simp [splitPoint, h c (by simp), ih (fun x hx => h x (by simp [hx]))]

theorem splitPoint_append (a b : List Char) (h : ∀ c ∈ a, c ≠ '.') :
    splitPoint (a ++ '.' :: b) = some (a, b) := by
  induction a with
  | nil => simp [splitPoint]
  | cons c cs ih =>
    simp [splitPoint, h c (by simp), ih (fun x hx => h x (by simp [hx]))]

theorem count_point_zero (l : List Char) (h : ∀ c ∈ l, c ≠ '.') : l.count '.' = 0 := by
  rw [List.count_eq_zero]
  intro hmem
  exact h _ hmem rfl

theorem sign_no_point (sign : List Char) (hsign : sign = [] ∨ sign = ['+'] ∨ sign = ['-']) :
    ∀ c ∈ sign, c ≠ '.' ∧ c ≠ 'E' ∧ c ≠ 'e' := by
  rcases hsign with h | h | h <;> subst h <;> simp

/-- What `decimal.NewFromString` makes of a plain decimal literal: the exact
decimal it denotes when the fraction has at most 2^31 digits, and the error
"fractional part too long" when it has more. -/
theorem NewFromString_plain (sign whole : List Char) (frac : Option (List Char))
    (h : isPlainDecimal sign whole frac) :
    NewFromString (plainDecimal sign whole frac)
      = if (frac.getD []).length ≤ 2147483648 then .ok (exactDecimal sign whole frac)
        else .error (fmt_Errorf ("can't convert " ++ plainDecimal sign whole frac
          ++ " to decimal: fractional part too long")) := by
  obtain ⟨hsign, hne, hw, hf⟩ := h
  have hs := sign_no_point sign hsign
  have hsw : ∀ c ∈ sign ++ whole, c ≠ '.' := by
    intro c hc
    rcases List.mem_append.mp hc with h1 | h1
    · exact (hs c h1).1
    · exact (isDigit_ne (hw c h1)).1
  have hnoexp : ∀ c ∈ (plainDecimal sign whole frac).toList, c ≠ 'E' ∧ c ≠ 'e' := by
    intro c hc
    have hc' : c ∈ sign ∨ c ∈ whole ∨ c = '.' ∨ c ∈ frac.getD [] := by
      cases frac with
      | none =>
        have h0 : c ∈ sign ∨ c ∈ whole := by simpa [plainDecimal] using hc
        rcases h0 with h0 | h0
        · exact Or.inl h0
        · exact Or.inr (Or.inl h0)
      | some f => simpa [plainDecimal, or_assoc] using hc
    rcases hc' with h1 | h1 | h1 | h1
    · exact (hs c h1).2
    · exact ⟨(isDigit_ne (hw c h1)).2.2.1, (isDigit_ne (hw c h1)).2.1⟩
    · subst h1
      decide
    · exact ⟨(isDigit_ne (hf c h1)).2.2.1, (isDigit_ne (hf c h1)).2.1⟩
  have hdig : ∀ c ∈ whole ++ frac.getD [], isDigit c = true := by
    intro c hc
    rcases List.mem_append.mp hc with h1 | h1
    · exact hw c h1
    · exact hf c h1
  have hne2 : whole ++ frac.getD [] ≠ [] := by simp [hne]
  have hval : (if (sign ++ (whole ++ frac.getD [])).length ≤ 18 then
        match strconv_ParseInt (sign ++ (whole ++ frac.getD [])) 64 with
        | .error _ => none
        | .ok parsed64 => some parsed64
      else big_SetString (sign ++ (whole ++ frac.getD [])))
      = some (exactDecimal sign whole frac).value := by
    split
    · rename_i hlen
      have hl : (whole ++ frac.getD []).length ≤ 18 := by
        simp only [List.length_append] at hlen ⊢
        omega
      rw [strconv_ParseInt_signed sign _ hsign hne2 hdig hl]
      rfl
    · rw [big_SetString_signed sign _ hsign hne2 hdig]
      rfl
  unfold NewFromString
  simp only [splitExponent_none _ hnoexp]
  cases frac with
  | none =>
    have hcnt : ¬ 1 < (plainDecimal sign whole none).toList.count '.' := by
      simp [plainDecimal, count_point_zero _ hsw]
    have hsp : splitPoint (plainDecimal sign whole none).toList = none := by
      simpa [plainDecimal] using splitPoint_none _ hsw
    simp only [hcnt, if_false, hsp]
    have hv := hval
    simp only [Option.getD_none, List.append_nil] at hv
    have htl : (plainDecimal sign whole none).toList = sign ++ whole := by
      simp [plainDecimal]
    rw [htl, hv]
    simp [exactDecimal]
  | some f =>
    have hfp : ∀ c ∈ f, c ≠ '.' := fun c hc => (isDigit_ne (hf c hc)).1
    have htl : (plainDecimal sign whole (some f)).toList = (sign ++ whole) ++ '.' :: f := by
      simp [plainDecimal]
    have hcnt : ¬ 1 < (plainDecimal sign whole (some f)).toList.count '.' := by
      have hcs : sign.count '.' = 0 :=
        count_point_zero _ (fun c hc => hsw c (List.mem_append_left _ hc))
      have hcw : whole.count '.' = 0 :=
        count_point_zero _ (fun c hc => hsw c (List.mem_append_right _ hc))
      rw [htl]
      simp [List.count_append, List.count_cons, count_point_zero _ hfp, hcs, hcw]
    have hsp : splitPoint (plainDecimal sign whole (some f)).toList = some (sign ++ whole, f) := by
      rw [htl]
      exact splitPoint_append _ _ hsw
    simp only [hcnt, if_false, hsp]
    have hv := hval
    simp only [Option.getD_some, ← List.append_assoc] at hv
    rw [hv]
    simp only [Option.getD_some, exactDecimal]
    by_cases hlen : f.length ≤ 2147483648
    · have h1 : ¬ ((0 : Int) + -(f.length : Int) < -2147483648 ∨ 2147483647 < (0 : Int) + -(f.length : Int)) := by
        omega
      have h2 : -(f.length : Int) ≤ 2147483647 := by omega
      simp [h1, hlen, h2]
    · have h1 : ((0 : Int) + -(f.length : Int) < -2147483648 ∨ 2147483647 < (0 : Int) + -(f.length : Int)) := by
        omega
      simp [h1, hlen]

/-! ## The scanner on plain text -/

theorem skipSpace_cons_of_not_space (c : Char) (cs : List Char) (h : isSpace c = false) :
    skipSpace (c :: cs) = c :: cs := by
  simp [skipSpace, h]

theorem skipSpace_spaces (sp rest : List Char) (h : ∀ c ∈ sp, c = ' ') :
    skipSpace (sp ++ rest) = skipSpace rest := by
  induction sp with
  | nil => rfl
  | cons c cs ih =>
    have hc : c = ' ' := h c (by simp)
    subst hc
    simp only [List.cons_append, skipSpace]
    rw [if_pos (by decide)]
    exact ih (fun x hx => h x (by simp [hx]))

theorem scanString_plain (cs rest : List Char)
    (h : ∀ c ∈ cs, c ≠ '"' ∧ c ≠ '\\' ∧ 32 ≤ c.toNat) :
    scanString .stateInString (cs ++ '"' :: rest) = .ok (cs, rest) := by
  induction cs with
  | nil => simp [scanString]
  | cons c cs ih =>
    obtain ⟨h1, h2, h3⟩ := h c (by simp)
    have h4 : ¬ c.toNat < 32 := by omega
    simp only [List.cons_append, scanString, h1, h2, h4, if_false, List.append_eq,
      ih (fun x hx => h x (by simp [hx])), Except.map]

theorem unquote_plain (cs : List Char) (fuel : Nat) (hfuel : cs.length ≤ fuel)
    (h : ∀ c ∈ cs, c ≠ '\\') : unquote fuel cs = cs := by
  induction cs generalizing fuel with
  | nil => cases fuel <;> rfl
  | cons c cs ih =>
    cases fuel with
    | zero => simp at hfuel
    | succ n =>
      have hc := h c (by simp)
      simp only [unquote, hc, if_false]
      rw [ih n (by simpa using hfuel) (fun x hx => h x (by simp [hx]))]

/-- A plain string value, white space allowed before it. -/
theorem parseValue_string (fuel depth : Nat) (sp v rest : List Char)
    (hv : ∀ c ∈ v, c ≠ '"' ∧ c ≠ '\\' ∧ 32 ≤ c.toNat) (hsp : ∀ c ∈ sp, c = ' ') :
    parseValue (fuel + 1) depth (sp ++ '"' :: (v ++ '"' :: rest))
      = .ok (.str (String.mk v) (String.mk v), rest) := by
  have hs : skipSpace (sp ++ '"' :: (v ++ '"' :: rest)) = '"' :: (v ++ '"' :: rest) := by
    rw [skipSpace_spaces _ _ hsp]
    rfl
  rw [parseValue, hs]
  simp only [show ('"' : Char) ≠ '\x7b' by decide, show ('"' : Char) ≠ '[' by decide, if_false,
    if_true, scanString_plain v rest hv,
    unquote_plain v v.length (le_refl _) (fun c hc => (hv c hc).2.1)]

/-- One member with a plain key and a plain string value, up to the closing
brace. -/
theorem parseMembers_single (fuel depth : Nat) (k sp v rest : List Char)
    (hk : ∀ c ∈ k, c ≠ '"' ∧ c ≠ '\\' ∧ 32 ≤ c.toNat)
    (hv : ∀ c ∈ v, c ≠ '"' ∧ c ≠ '\\' ∧ 32 ≤ c.toNat) (hsp : ∀ c ∈ sp, c = ' ') :
    parseMembers (fuel + 2) depth ('"' :: (k ++ '"' :: ':' :: (sp ++ '"' :: (v ++ '"' :: '\x7d' :: rest))))
      = .ok ([(String.mk k, .str (String.mk v) (String.mk v))], rest) := by
  have hs : skipSpace ('"' :: (k ++ '"' :: ':' :: (sp ++ '"' :: (v ++ '"' :: '\x7d' :: rest))))
      = '"' :: (k ++ '"' :: ':' :: (sp ++ '"' :: (v ++ '"' :: '\x7d' :: rest))) := rfl
  have hs2 : ∀ l : List Char, skipSpace (':' :: l) = ':' :: l := fun _ => rfl
  have hs3 : ∀ l : List Char, skipSpace ('\x7d' :: l) = '\x7d' :: l := fun _ => rfl
  rw [parseMembers, hs]
  simp only [ne_eq, not_true_eq_false, if_false, scanString_plain k _ hk, hs2,
    parseValue_string fuel depth sp v ('\x7d' :: rest) hv hsp, hs3, if_true,
    unquote_plain k k.length (le_refl _) (fun c hc => (hk c hc).2.1)]

/-- The text of an object with one member, a plain key and a plain string value,
white space allowed after the colon. -/
theorem parseJSON_member (k v sp : List Char)
    (hk : ∀ c ∈ k, c ≠ '"' ∧ c ≠ '\\' ∧ 32 ≤ c.toNat)
    (hv : ∀ c ∈ v, c ≠ '"' ∧ c ≠ '\\' ∧ 32 ≤ c.toNat)
    (hsp : ∀ c ∈ sp, c = ' ') :
    parseJSON (String.mk ('\x7b' :: '"' :: (k ++ '"' :: ':' :: (sp ++ '"' :: (v ++ ['"', '\x7d'])))))
      = .ok (.obj (String.mk ('\x7b' :: '"' :: (k ++ '"' :: ':' :: (sp ++ '"' :: (v ++ ['"', '\x7d'])))))
          [(String.mk k, .str (String.mk v) (String.mk v))]) := by
  have hfuel : ∃ n, 2 * (String.mk ('\x7b' :: '"' :: (k ++ '"' :: ':' :: (sp ++ '"' :: (v ++ ['"', '\x7d']))))).length + 2 = n + 3 :=
    ⟨2 * (String.mk ('\x7b' :: '"' :: (k ++ '"' :: ':' :: (sp ++ '"' :: (v ++ ['"', '\x7d']))))).length - 1, by
      simp only [String.length]
      simp only [List.length_cons, List.length_append]
      omega⟩
  obtain ⟨n, hn⟩ := hfuel
  unfold parseJSON
  rw [hn]
  have hs : ∀ l : List Char, skipSpace ('\x7b' :: l) = '\x7b' :: l := fun _ => rfl
  have hs1 : ∀ l : List Char, skipSpace ('"' :: l) = '"' :: l := fun _ => rfl
  have hm := parseMembers_single n 1 k sp v [] hk hv hsp
  simp only [String.toList]
  rw [parseValue, hs]
  simp only [if_true, hs1, show ¬ (maxNestingDepth < 0 + 1) by decide, if_false, Nat.zero_add,
    show ('"' : Char) ≠ '\x7d' by decide, hm, show skipSpace ([] : List Char) = [] from rfl,
    consumed, List.length_nil, Nat.sub_zero, List.take_length]

/-! ## Strings the encoder writes, read back -/

theorem hexVal_hexDigit (k : Nat) (h : k < 16) : hexVal (hexDigit k) = k := by
  interval_cases k <;> rfl

theorem isHex_hexDigit (k : Nat) (h : k < 16) : isHex (hexDigit k) = true := by
  interval_cases k <;> rfl

theorem Except_map_map {ε α β γ : Type} (x : Except ε α) (f : α → β) (g : β → γ) :
    (x.map f).map g = x.map (fun a => g (f a)) := by
  cases x <;> rfl

theorem scanString_step (c : Char) (tl : List Char)
    (h1 : c ≠ '"') (h2 : c ≠ '\\') (h3 : ¬ c.toNat < 32) :
    scanString .stateInString (c :: tl)
      = (scanString .stateInString tl).map (fun r => (c :: r.1, r.2)) := by
  rw [scanString]
  simp only [h1, h2, h3, if_false]

theorem scanString_backslash (tl : List Char) :
    scanString .stateInString ('\\' :: tl)
      = (scanString .stateInStringEsc tl).map (fun r => ('\\' :: r.1, r.2)) := by
  rw [scanString]
  simp only [show ('\\' : Char) ≠ '"' by decide, if_false, if_true]

theorem scanString_escape (c : Char) (tl : List Char)
    (h : c = 'b' ∨ c = 'f' ∨ c = 'n' ∨ c = 'r' ∨ c = 't' ∨ c = '\\' ∨ c = '/' ∨ c = '"') :
    scanString .stateInStringEsc (c :: tl)
      = (scanString .stateInString tl).map (fun r => (c :: r.1, r.2)) := by
  rw [scanString]
  simp only [h, if_true]

theorem scanString_escape_u (a b c d : Char) (tl : List Char)
    (ha : isHex a = true) (hb : isHex b = true) (hc : isHex c = true) (hd : isHex d = true) :
    scanString .stateInStringEsc ('u' :: a :: b :: c :: d :: tl)
      = (scanString .stateInString tl).map (fun r => ('u' :: a :: b :: c :: d :: r.1, r.2)) := by
  rw [scanString]
  simp only [show ¬ (('u' : Char) = 'b' ∨ ('u' : Char) = 'f' ∨ ('u' : Char) = 'n'
    ∨ ('u' : Char) = 'r' ∨ ('u' : Char) = 't' ∨ ('u' : Char) = '\\' ∨ ('u' : Char) = '/'
    ∨ ('u' : Char) = '"') by decide, if_false, if_true]
  rw [scanString, if_pos ha, scanString, if_pos hb, scanString, if_pos hc, scanString, if_pos hd]
  simp only [Except_map_map]

/-- The scanner accepts what the encoder writes for a character, and is back in
the state it was in. -/
theorem scanString_encodeChar (c : Char) (tl : List Char) :
    scanString .stateInString (encodeChar c ++ tl)
      = (scanString .stateInString tl).map (fun r => (encodeChar c ++ r.1, r.2)) := by
  unfold encodeChar
  split
  · rename_i h
    simp only [List.cons_append, List.nil_append]
    rw [scanString_backslash, scanString_escape c tl (by tauto), Except_map_map]
  · split
    · simp only [List.cons_append, List.nil_append]
      rw [scanString_backslash, scanString_escape _ tl (by decide), Except_map_map]
    · split
      · simp only [List.cons_append, List.nil_append]
        rw [scanString_backslash, scanString_escape _ tl (by decide), Except_map_map]
      · split
        · simp only [List.cons_append, List.nil_append]
          rw [scanString_backslash, scanString_escape _ tl (by decide), Except_map_map]
        · split
          · rename_i h
            have hlt : c.toNat < 128 := by
              rcases h with h | h | h | h
              · omega
              · subst h; decide
              · subst h; decide
              · subst h; decide
            simp only [List.cons_append, List.nil_append]
            rw [scanString_backslash, scanString_escape_u _ _ _ _ tl (by decide) (by decide)
              (isHex_hexDigit _ (by omega)) (isHex_hexDigit _ (by omega)), Except_map_map]
          · split
            · simp only [List.cons_append, List.nil_append]
              rw [scanString_backslash, scanString_escape_u _ _ _ _ tl (by decide) (by decide)
                (by decide) (isHex_hexDigit _ (by omega)), Except_map_map]
            · rename_i h1 h2 h3 h4 h5 h6
              simp only [List.cons_append, List.nil_append]
              exact scanString_step c tl (fun h => h1 (Or.inl h)) (fun h => h1 (Or.inr h))
                (fun h => h5 (Or.inl h))

/-- The scanner accepts the string literal the encoder writes. -/
theorem scanString_encoded (s tl : List Char) :
    scanString .stateInString (s.flatMap encodeChar ++ '"' :: tl)
      = .ok (s.flatMap encodeChar, tl) := by
  induction s with
  | nil =>
    simp only [List.flatMap_nil, List.nil_append]
    rw [scanString]
    simp
  | cons c s ih =>
    simp only [List.flatMap_cons, List.append_assoc]
    rw [scanString_encodeChar, ih]
    rfl

theorem unquote_step (f : Nat) (c : Char) (tl : List Char) (h : c ≠ '\\') :
    unquote (f + 1) (c :: tl) = c :: unquote f tl := by
  simp only [unquote, h, if_false]

theorem unquote_escape (f : Nat) (e : Char) (tl : List Char) (h : e ≠ 'u') :
    unquote (f + 1) ('\\' :: e :: tl) = unescape e :: unquote f tl := by
  simp only [unquote, if_true]
  split
  · rename_i heq
    simp only [List.cons.injEq] at heq
    exact absurd heq.1 h
  · rename_i heq
    simp only [List.cons.injEq] at heq
    obtain ⟨h1, h2⟩ := heq
    subst h1 h2
    rfl
  · rename_i heq
    simp at heq

theorem unquote_escape_u (f : Nat) (a b c d : Char) (tl : List Char)
    (h : isSurrogate (getu4 a b c d) = false) :
    unquote (f + 1) ('\\' :: 'u' :: a :: b :: c :: d :: tl)
      = Char.ofNat (getu4 a b c d) :: unquote f tl := by
  simp only [unquote, if_true, h, Bool.false_eq_true, if_false]

/-- What the encoder writes for a character is read back as that character. -/
theorem unquote_encodeChar (f : Nat) (c : Char) (tl : List Char) :
    unquote (f + 1) (encodeChar c ++ tl) = c :: unquote f tl := by
  unfold encodeChar
  split
  · rename_i h
    simp only [List.cons_append, List.nil_append]
    rcases h with h | h <;> subst h <;> rw [unquote_escape _ _ _ (by decide)] <;> rfl
  · split
    · rename_i h
      subst h
      simp only [List.cons_append, List.nil_append]
      rw [unquote_escape _ _ _ (by decide)]
      rfl
    · split
      · rename_i h
        subst h
        simp only [List.cons_append, List.nil_append]
        rw [unquote_escape _ _ _ (by decide)]
        rfl
      · split
        · rename_i h
          subst h
          simp only [List.cons_append, List.nil_append]
          rw [unquote_escape _ _ _ (by decide)]
          rfl
        · split
          · rename_i h
            have hlt : c.toNat < 128 := by
              rcases h with h | h | h | h
              · omega
              · subst h; decide
              · subst h; decide
              · subst h; decide
            have hv : getu4 '0' '0' (hexDigit (c.toNat / 16)) (hexDigit (c.toNat % 16))
                = c.toNat := by
              simp only [getu4, hexVal_hexDigit _ (show c.toNat / 16 < 16 by omega),
                hexVal_hexDigit _ (show c.toNat % 16 < 16 by omega),
                show hexVal '0' = 0 by rfl]
              omega
            simp only [List.cons_append, List.nil_append]
            rw [unquote_escape_u _ _ _ _ _ _ (by rw [hv]; simp [isSurrogate]; omega), hv,
              Char.ofNat_toNat]
          · split
            · rename_i h
              have hv : getu4 '2' '0' '2' (hexDigit (c.toNat % 16)) = c.toNat := by
                simp only [getu4, hexVal_hexDigit _ (show c.toNat % 16 < 16 by omega),
                  show hexVal '0' = 0 by rfl, show hexVal '2' = 2 by rfl]
                omega
              simp only [List.cons_append, List.nil_append]
              rw [unquote_escape_u _ _ _ _ _ _ (by rw [hv]; simp [isSurrogate]; omega), hv,
                Char.ofNat_toNat]
            · rename_i h1 h2 h3 h4 h5 h6
              simp only [List.cons_append, List.nil_append]
              exact unquote_step f c tl (fun h => h1 (Or.inr h))

theorem encodeChar_length (c : Char) : 1 ≤ (encodeChar c).length := by
  unfold encodeChar
  repeat' split
  all_goals simp

theorem flatMap_encodeChar_length (s : List Char) :
    s.length ≤ (s.flatMap encodeChar).length := by
  induction s with
  | nil => simp
  | cons c s ih =>
    have := encodeChar_length c
    simp only [List.flatMap_cons, List.length_append, List.length_cons]
    omega

/-- The string literal the encoder writes is read back as the string: `unquote`
undoes `encodeString`. -/
theorem unquote_encoded (s : List Char) (f : Nat) (h : s.length ≤ f) :
    unquote f (s.flatMap encodeChar) = s := by
  induction s generalizing f with
  | nil => cases f <;> rfl
  | cons c s ih =>
    cases f with
    | zero => simp at h
    | succ f =>
      simp only [List.flatMap_cons]
      rw [unquote_encodeChar, ih f (by simpa using h)]

/-- A string value as the encoder writes it, white space allowed before it, is
parsed to that string. -/
theorem parseValue_encoded (fuel depth : Nat) (sp rest : List Char) (s : String)
    (hsp : ∀ c ∈ sp, c = ' ') :
    parseValue (fuel + 1) depth (sp ++ ((encodeString s).data ++ rest))
      = .ok (.str (String.mk (s.data.flatMap encodeChar)) s, rest) := by
  have hd : (encodeString s).data ++ rest
      = '"' :: (s.data.flatMap encodeChar ++ '"' :: rest) := by
    simp [encodeString]
  have hs : skipSpace (sp ++ ((encodeString s).data ++ rest))
      = '"' :: (s.data.flatMap encodeChar ++ '"' :: rest) := by
    rw [skipSpace_spaces _ _ hsp, hd]
    rfl
  rw [parseValue, hs]
  simp only [show ('"' : Char) ≠ '\x7b' by decide, show ('"' : Char) ≠ '[' by decide, if_false,
    if_true, scanString_encoded,
    unquote_encoded s.data _ (flatMap_encodeChar_length s.data)]

/-- One member with a plain key and a string value as the encoder writes it, up
to the closing brace. -/
theorem parseMembers_encoded (fuel depth : Nat) (k sp rest : List Char) (s : String)
    (hk : ∀ c ∈ k, c ≠ '"' ∧ c ≠ '\\' ∧ 32 ≤ c.toNat) (hsp : ∀ c ∈ sp, c = ' ') :
    parseMembers (fuel + 2) depth
        ('"' :: (k ++ '"' :: ':' :: (sp ++ ((encodeString s).data ++ '\x7d' :: rest))))
      = .ok ([(String.mk k, .str (String.mk (s.data.flatMap encodeChar)) s)], rest) := by
  have hs : skipSpace ('"' :: (k ++ '"' :: ':' :: (sp ++ ((encodeString s).data ++ '\x7d' :: rest))))
      = '"' :: (k ++ '"' :: ':' :: (sp ++ ((encodeString s).data ++ '\x7d' :: rest))) := rfl
  have hs2 : ∀ l : List Char, skipSpace (':' :: l) = ':' :: l := fun _ => rfl
  have hs3 : ∀ l : List Char, skipSpace ('\x7d' :: l) = '\x7d' :: l := fun _ => rfl
  rw [parseMembers, hs]
  simp only [ne_eq, not_true_eq_false, if_false, scanString_plain k _ hk, hs2,
    parseValue_encoded fuel depth sp ('\x7d' :: rest) s hsp, hs3, if_true,
    unquote_plain k k.length (le_refl _) (fun c hc => (hk c hc).2.1)]

/-- The text of an object with one member, a plain key and any string for
value, written as the encoder writes strings, white space allowed after the
colon. -/
theorem parseJSON_member_encoded (k sp : List Char) (s : String)
    (hk : ∀ c ∈ k, c ≠ '"' ∧ c ≠ '\\' ∧ 32 ≤ c.toNat) (hsp : ∀ c ∈ sp, c = ' ') :
    parseJSON (String.mk ('\x7b' :: '"' :: (k ++ '"' :: ':' :: (sp ++ ((encodeString s).data ++ ['\x7d'])))))
      = .ok (.obj (String.mk ('\x7b' :: '"' :: (k ++ '"' :: ':' :: (sp ++ ((encodeString s).data ++ ['\x7d'])))))
          [(String.mk k, .str (String.mk (s.data.flatMap encodeChar)) s)]) := by
  have hfuel : ∃ n, 2 * (String.mk ('\x7b' :: '"' :: (k ++ '"' :: ':' :: (sp ++ ((encodeString s).data ++ ['\x7d']))))).length + 2 = n + 3 :=
    ⟨2 * (String.mk ('\x7b' :: '"' :: (k ++ '"' :: ':' :: (sp ++ ((encodeString s).data ++ ['\x7d']))))).length - 1, by
      simp only [String.length]
      simp only [List.length_cons, List.length_append]
      omega⟩
  obtain ⟨n, hn⟩ := hfuel
  unfold parseJSON
  rw [hn]
  have hs : ∀ l : List Char, skipSpace ('\x7b' :: l) = '\x7b' :: l := fun _ => rfl
  have hs1 : ∀ l : List Char, skipSpace ('"' :: l) = '"' :: l := fun _ => rfl
  have hm := parseMembers_encoded n 1 k sp [] s hk hsp
  simp only [String.toList]
  rw [parseValue, hs]
  simp only [if_true, hs1, show ¬ (maxNestingDepth < 0 + 1) by decide, if_false, Nat.zero_add,
    show ('"' : Char) ≠ '\x7d' by decide, hm, show skipSpace ([] : List Char) = [] from rfl,
    consumed, List.length_nil, Nat.sub_zero, List.take_length]

/-- The body `{"code": c}` for any string `c`, as JSON text: the object whose one
member is `code` with the value `c`. -/
theorem parseJSON_code (c : String) :
    parseJSON ("\x7b\"code\": " ++ encodeString c ++ "\x7d")
      = .ok (.obj ("\x7b\"code\": " ++ encodeString c ++ "\x7d")
          [("code", .str (String.mk (c.data.flatMap encodeChar)) c)]) := by
  have htext : "\x7b\"code\": " ++ encodeString c ++ "\x7d"
      = String.mk ('\x7b' :: '"' :: (['c', 'o', 'd', 'e'] ++ '"' :: ':' :: ([' ']
          ++ ((encodeString c).data ++ ['\x7d'])))) := by
    apply String.ext
    simp [String.data_append]
  rw [htext]
  exact parseJSON_member_encoded ['c', 'o', 'd', 'e'] [' '] c (by decide) (by simp)

/-! ## The decoder on objects -/

theorem findField_mem {α : Type} (fields : List (Field α)) (key : String) (f : Field α)
    (h : findField fields key = some f) : f ∈ fields := by
  unfold findField at h
  split at h
  · rename_i g hg
    cases h
    exact List.mem_of_find?_eq_some hg
  · exact List.mem_of_find?_eq_some h

theorem findField_Order_code :
    findField Order.fields "code"
      = some (field "code" (·.Code) (fun v x => { v with Code := x })
          (decodePtr (decodeString "string") "")) := by
  rfl

/-- What `json.Unmarshal` into an order pointer makes of an object whose one
member is `code`, a string. -/
theorem json_Unmarshal_code (body raw rawc c : String) (init : Option Order)
    (hinit : init.getD {} = {})
    (hparse : parseJSON body = .ok (.obj raw [("code", .str rawc c)])) :
    json_Unmarshal (decodePtr decodeOrder {}) body init = (some { Code := some c }, none) := by
  unfold json_Unmarshal
  rw [hparse]
  simp only [decodePtr, decodeOrder, decodeStruct, decodeMembers, findField_Order_code, field,
    decodeString, hinit, Option.getD_none]

theorem quoted_data (s : String) : ("\"" ++ s ++ "\"").data = '"' :: (s.data ++ ['"']) := by
  simp [String.data_append]

theorem unquoteIfQuoted_quoted (s : String) (h : s.data ≠ []) :
    unquoteIfQuoted ("\"" ++ s ++ "\"") = s := by
  have hlen : 2 < ('"' :: (s.data ++ ['"'])).length := by
    have : 0 < s.data.length := List.length_pos.mpr h
    simp only [List.length_cons, List.length_append, List.length_nil]
    omega
  have hlast : ('"' :: (s.data ++ ['"'])).getLast? = some '"' := by
    rw [← List.cons_append, List.getLast?_append]
    simp
  have hdrop : (s.data ++ ['"']).dropLast = s.data := by
    simp [List.dropLast_append_of_ne_nil]
  unfold unquoteIfQuoted
  simp only [String.toList, quoted_data, hlen, hlast, List.head?_cons, and_self, if_true,
    List.tail_cons, hdrop]

theorem quoted_ne_null (s : String) : "\"" ++ s ++ "\"" ≠ "null" := by
  intro h
  have hd := congrArg String.data h
  rw [quoted_data] at hd
  have h0 := congrArg List.head? hd
  simp at h0

theorem plainDecimal_data_ne (sign whole : List Char) (frac : Option (List Char))
    (h : isPlainDecimal sign whole frac) : (plainDecimal sign whole frac).data ≠ [] := by
  obtain ⟨_, hne, _, _⟩ := h
  simp [plainDecimal, hne]

/-- A plain decimal literal carried as a JSON string, decoded into a
`*decimal.Decimal`: the exact decimal when the fraction has at most 2^31
digits, a failure of the decoding when it has more. -/
theorem decodeDecimal_plain (sign whole : List Char) (frac : Option (List Char))
    (h : isPlainDecimal sign whole frac) (ctx : ErrorContext) (saved : Option GoError)
    (p : Option Decimal) :
    decodeDecimal (.str (plainDecimal sign whole frac) (plainDecimal sign whole frac)) ctx saved p
      = if (frac.getD []).length ≤ 2147483648 then
          ⟨some (exactDecimal sign whole frac), saved, none⟩
        else
          ⟨some {}, saved, some (fmt_Errorf ("error decoding string '"
            ++ plainDecimal sign whole frac ++ "': " ++ ("can't convert "
            ++ plainDecimal sign whole frac ++ " to decimal: fractional part too long")))⟩ := by
  by_cases hlen : (frac.getD []).length ≤ 2147483648
  · simp only [decodeDecimal, Json.text, Decimal_UnmarshalJSON, quoted_ne_null, if_false,
      unquoteIfQuoted_quoted _ (plainDecimal_data_ne sign whole frac h),
      NewFromString_plain _ _ _ h, hlen, if_true]
  · simp only [decodeDecimal, Json.text, Decimal_UnmarshalJSON, quoted_ne_null, if_false,
      unquoteIfQuoted_quoted _ (plainDecimal_data_ne sign whole frac h),
      NewFromString_plain _ _ _ h, hlen, GoError.Error, fmt_Errorf]

/-- Members none of which names the field read by `get` leave it as it was,
whether or not the decoding ends in an error. -/
theorem decodeMembers_frame {α β : Type} (structName : String) (fields : List (Field α))
    (get : α → β) (name : String)
    (hframe : ∀ f ∈ fields, f.name ≠ name →
      ∀ j ctx saved v, get (f.store j ctx saved v).val = get v)
    (ctx : ErrorContext) (members : List (String × Json))
    (hm : ∀ m ∈ members, ¬ namesField fields m.1 name) (saved : Option GoError) (v : α) :
    get (decodeMembers structName fields ctx members saved v).val = get v := by
  induction members generalizing saved v with
  | nil => rfl
  | cons m rest ih =>
    obtain ⟨key, j⟩ := m
    have hrest : ∀ m ∈ rest, ¬ namesField fields m.1 name := fun x hx => hm x (by simp [hx])
    have hkey : ¬ namesField fields key name := hm (key, j) (by simp)
    unfold decodeMembers
    cases hf : findField fields key with
    | none => exact ih hrest saved v
    | some f =>
      have hne : f.name ≠ name := by
        intro heq
        apply hkey
        simp [namesField, hf, heq]
      have hstep := hframe f (findField_mem fields key f hf) hne j
        ⟨structName, ctx.FieldStack ++ [f.name]⟩ saved v
      simp only []
      split
      · exact hstep
      · rw [ih hrest]
        exact hstep

/-- The last member that names a field decides the field: when a member sets the
field read by `get` to `b`, no later member names that field, and the decoding
ends without an error, the field is `b`. -/
theorem decodeMembers_last {α β : Type} (structName : String) (fields : List (Field α))
    (get : α → β) (name : String) (j : Json) (b : β)
    (hframe : ∀ f ∈ fields, f.name ≠ name →
      ∀ j ctx saved v, get (f.store j ctx saved v).val = get v)
    (hset : ∀ f ∈ fields, f.name = name →
      ∀ ctx saved v, (f.store j ctx saved v).err = none → get (f.store j ctx saved v).val = b)
    (ctx : ErrorContext) (pre post : List (String × Json)) (key : String)
    (hkey : namesField fields key name)
    (hpost : ∀ m ∈ post, ¬ namesField fields m.1 name) (saved : Option GoError) (v : α)
    (hok : (decodeMembers structName fields ctx (pre ++ (key, j) :: post) saved v).err = none) :
    get (decodeMembers structName fields ctx (pre ++ (key, j) :: post) saved v).val = b := by
  induction pre generalizing saved v with
  | nil =>
    simp only [List.nil_append] at hok ⊢
    unfold decodeMembers at hok ⊢
    cases hf : findField fields key with
    | none => simp [namesField, hf] at hkey
    | some f =>
      have hname : f.name = name := by simpa [namesField, hf] using hkey
      simp only [hf] at hok ⊢
      cases he : (f.store j ⟨structName, ctx.FieldStack ++ [f.name]⟩ saved v).err with
      | some e => simp [he] at hok
      | none =>
        simp only [he] at hok ⊢
        rw [decodeMembers_frame structName fields get name hframe ctx post hpost]
        exact hset f (findField_mem fields key f hf) hname _ saved v he
  | cons m pre ih =>
    obtain ⟨key1, j1⟩ := m
    simp only [List.cons_append] at hok ⊢
    unfold decodeMembers at hok ⊢
    cases hf : findField fields key1 with
    | none =>
      simp only [hf] at hok ⊢
      exact ih saved v hok
    | some f =>
      simp only [hf] at hok ⊢
      cases he : (f.store j1 ⟨structName, ctx.FieldStack ++ [f.name]⟩ saved v).err with
      | some e => simp [he] at hok
      | none =>
        simp only [he] at hok ⊢
        exact ih _ _ hok

theorem json_Unmarshal_ok {α : Type} (dec : Decoder α) (body : String) (j : Json) (v : α)
    (hparse : parseJSON body = .ok j) (hok : (json_Unmarshal dec body v).2 = none) :
    (dec j {} none v).err = none ∧ (json_Unmarshal dec body v).1 = (dec j {} none v).val := by
  unfold json_Unmarshal at hok ⊢
  rw [hparse] at hok ⊢
  simp only [] at hok ⊢
  cases he : (dec j {} none v).err with
  | some e => simp [he] at hok
  | none => simp [he]

/-! ## The monetary fields -/

theorem plainDecimal_plain (sign whole : List Char) (frac : Option (List Char))
    (h : isPlainDecimal sign whole frac) :
    ∀ c ∈ (plainDecimal sign whole frac).data, c ≠ '"' ∧ c ≠ '\\' ∧ 32 ≤ c.toNat := by
  obtain ⟨hsign, _, hw, hf⟩ := h
  have hdigit : ∀ c : Char, isDigit c = true → c ≠ '"' ∧ c ≠ '\\' ∧ 32 ≤ c.toNat := by
    intro c hc
    simp only [isDigit, Bool.and_eq_true, decide_eq_true_eq] at hc
    refine ⟨?_, ?_, by omega⟩ <;>
    · intro heq
      subst heq
      revert hc
      decide
  intro c hc
  have hc' : c ∈ sign ∨ c ∈ whole ∨ c = '.' ∨ c ∈ frac.getD [] := by
    cases frac with
    | none =>
      have h0 : c ∈ sign ∨ c ∈ whole := by simpa [plainDecimal] using hc
      rcases h0 with h0 | h0
      · exact Or.inl h0
      · exact Or.inr (Or.inl h0)
    | some f => simpa [plainDecimal, or_assoc] using hc
  rcases hc' with h1 | h1 | h1 | h1
  · rcases hsign with hs | hs | hs <;> subst hs <;> simp at h1 <;> subst h1 <;> decide
  · exact hdigit c (hw c h1)
  · subst h1
    decide
  · exact hdigit c (hf c h1)

theorem member_text (k v : String) :
    "\x7b\"" ++ k ++ "\":\"" ++ v ++ "\"\x7d"
      = String.mk ('\x7b' :: '"' :: (k.data ++ '"' :: ':' :: ([] ++ '"' :: (v.data ++ ['"', '\x7d'])))) := by
  apply String.ext
  simp [String.data_append]

/-- The decoding of an object with one member. -/
theorem decodeMembers_single {α : Type} (structName : String) (fields : List (Field α))
    (ctx : ErrorContext) (key : String) (j : Json) (saved : Option GoError) (v : α)
    (f : Field α) (hf : findField fields key = some f)
    (he : (f.store j ⟨structName, ctx.FieldStack ++ [f.name]⟩ saved v).err = none) :
    decodeMembers structName fields ctx [(key, j)] saved v
      = ⟨(f.store j ⟨structName, ctx.FieldStack ++ [f.name]⟩ saved v).val,
         (f.store j ⟨structName, ctx.FieldStack ++ [f.name]⟩ saved v).savedError, none⟩ := by
  simp only [decodeMembers, hf, he]

theorem MarketSummary_monetary_frame (kg : String × (MarketSummary → Option Decimal))
    (hkg : kg ∈ MarketSummary.monetary) (f : Field MarketSummary) (hf : f ∈ MarketSummary.fields)
    (hne : f.name ≠ kg.1) (j : Json) (ctx : ErrorContext) (saved : Option GoError) (v : MarketSummary) :
    kg.2 (f.store j ctx saved v).val = kg.2 v := by
  simp only [MarketSummary.monetary, List.mem_cons, List.mem_singleton, List.not_mem_nil,
    or_false] at hkg
  simp only [MarketSummary.fields, List.mem_cons, List.mem_singleton, List.not_mem_nil,
    or_false] at hf
  rcases hkg with rfl | rfl | rfl | rfl | rfl <;>
  rcases hf with rfl | rfl | rfl | rfl | rfl | rfl | rfl <;>
  first
    | rfl
    | exact absurd rfl hne

/-- A plain decimal literal in a JSON string, stored into a monetary field of a
`MarketSummary`: no error is returned or saved, and the field is the exact decimal. -/
theorem MarketSummary_monetary_set (sign whole : List Char) (frac : Option (List Char))
    (h : isPlainDecimal sign whole frac) (hlen : (frac.getD []).length ≤ 2147483648)
    (kg : String × (MarketSummary → Option Decimal)) (hkg : kg ∈ MarketSummary.monetary)
    (f : Field MarketSummary) (hf : f ∈ MarketSummary.fields) (hname : f.name = kg.1)
    (ctx : ErrorContext) (saved : Option GoError) (v : MarketSummary) :
    (f.store (.str (plainDecimal sign whole frac) (plainDecimal sign whole frac))
      ctx saved v).err = none ∧
    (f.store (.str (plainDecimal sign whole frac) (plainDecimal sign whole frac))
      ctx saved v).savedError = saved ∧
    kg.2 (f.store (.str (plainDecimal sign whole frac) (plainDecimal sign whole frac))
      ctx saved v).val = some (exactDecimal sign whole frac) := by
  simp only [MarketSummary.monetary, List.mem_cons, List.mem_singleton, List.not_mem_nil,
    or_false] at hkg
  simp only [MarketSummary.fields, List.mem_cons, List.mem_singleton, List.not_mem_nil,
    or_false] at hf
  rcases hkg with rfl | rfl | rfl | rfl | rfl <;>
  rcases hf with rfl | rfl | rfl | rfl | rfl | rfl | rfl <;>
  first
    | exact absurd hname (by decide)
    | (simp only [field, decodeDecimal_plain sign whole frac h, hlen, if_true, and_self])

theorem MarketSummary_monetary_names (kg : String × (MarketSummary → Option Decimal))
    (hkg : kg ∈ MarketSummary.monetary) :
    namesField MarketSummary.fields kg.1 kg.1 ∧
    ∀ c ∈ kg.1.data, c ≠ '"' ∧ c ≠ '\\' ∧ 32 ≤ c.toNat := by
  simp only [MarketSummary.monetary, List.mem_cons, List.mem_singleton, List.not_mem_nil,
    or_false] at hkg
  rcases hkg with rfl | rfl | rfl | rfl | rfl <;> exact ⟨by decide, by decide⟩

/-- A monetary field of a `MarketSummary` given as a plain decimal literal in a
JSON string by the last member that names it: when the decoding of the object
ends without an error, the field is the exact decimal. -/
theorem MarketSummary_monetary_decoded (sign whole : List Char) (frac : Option (List Char))
    (h : isPlainDecimal sign whole frac) (hlen : (frac.getD []).length ≤ 2147483648)
    (kg : String × (MarketSummary → Option Decimal)) (hkg : kg ∈ MarketSummary.monetary)
    (raw key : String) (pre post : List (String × Json))
    (hkey : namesField MarketSummary.fields key kg.1)
    (hpost : ∀ m ∈ post, ¬ namesField MarketSummary.fields m.1 kg.1)
    (ctx : ErrorContext) (saved : Option GoError) (v : MarketSummary)
    (hok : (decodeMarketSummary (.obj raw (pre ++ (key, .str (plainDecimal sign whole frac)
      (plainDecimal sign whole frac)) :: post)) ctx saved v).err = none) :
    kg.2 (decodeMarketSummary (.obj raw (pre ++ (key, .str (plainDecimal sign whole frac)
      (plainDecimal sign whole frac)) :: post)) ctx saved v).val
      = some (exactDecimal sign whole frac) :=
  decodeMembers_last "MarketSummary" MarketSummary.fields kg.2 kg.1 _ _
    (MarketSummary_monetary_frame kg hkg)
    (fun f hf hname ctx saved v _ =>
      (MarketSummary_monetary_set sign whole frac h hlen kg hkg f hf hname ctx saved v).2.2)
    ctx pre post key hkey hpost saved v hok

/-- The text of an object whose one member is a monetary field of a `MarketSummary`
with a plain decimal literal in a string: `json.Unmarshal` returns no error, and
the field is the exact decimal. -/
theorem MarketSummary_monetary_text (sign whole : List Char) (frac : Option (List Char))
    (h : isPlainDecimal sign whole frac) (hlen : (frac.getD []).length ≤ 2147483648)
    (kg : String × (MarketSummary → Option Decimal)) (hkg : kg ∈ MarketSummary.monetary) :
    (json_Unmarshal decodeMarketSummary
      ("\x7b\"" ++ kg.1 ++ "\":\"" ++ plainDecimal sign whole frac ++ "\"\x7d") {}).2 = none ∧
    kg.2 (json_Unmarshal decodeMarketSummary
      ("\x7b\"" ++ kg.1 ++ "\":\"" ++ plainDecimal sign whole frac ++ "\"\x7d") {}).1
      = some (exactDecimal sign whole frac) := by
  obtain ⟨hnames, hplain⟩ := MarketSummary_monetary_names kg hkg
  have hparse := parseJSON_member kg.1.data (plainDecimal sign whole frac).data [] hplain
    (plainDecimal_plain sign whole frac h) (by simp)
  rw [← member_text] at hparse
  cases hf : findField MarketSummary.fields kg.1 with
  | none => simp [namesField, hf] at hnames
  | some f =>
    have hname : f.name = kg.1 := by simpa [namesField, hf] using hnames
    have hset := MarketSummary_monetary_set sign whole frac h hlen kg hkg f
      (findField_mem _ _ _ hf) hname ⟨"MarketSummary", ([] : List String) ++ [f.name]⟩ none {}
    have hm := decodeMembers_single "MarketSummary" MarketSummary.fields {} kg.1
      (.str (plainDecimal sign whole frac) (plainDecimal sign whole frac)) none {} f hf hset.1
    unfold json_Unmarshal
    rw [hparse]
    simp only [decodeMarketSummary, decodeStruct, hm, hset.2.1, hset.2.2, and_self]

theorem GetMarketSummary_monetary {σ : Type} (sign whole : List Char) (frac : Option (List Char))
    (h : isPlainDecimal sign whole frac) (hlen : (frac.getD []).length ≤ 2147483648)
    (kg : String × (MarketSummary → Option Decimal)) (hkg : kg ∈ MarketSummary.monetary)
    (this : BittrexAPI σ) (w : World σ) (symbol body raw key : String)
    (pre post : List (String × Json))
    (hdo : (this.client.Do "GET" (this.uri ++ "/markets/" ++ symbol ++ "/summary") "" false w.state).1 = (body, none))
    (hparse : parseJSON body = .ok (.obj raw (pre ++ (key, .str (plainDecimal sign whole frac)
      (plainDecimal sign whole frac)) :: post)))
    (hkey : namesField MarketSummary.fields key kg.1)
    (hpost : ∀ m ∈ post, ¬ namesField MarketSummary.fields m.1 kg.1)
    (hok : (this.GetMarketSummary symbol w).1.2 = none) :
    kg.2 (this.GetMarketSummary symbol w).1.1 = some (exactDecimal sign whole frac) := by
  cases hd : (json_Unmarshal decodeMarketSummary body {}).2 with
  | some err =>
    rw [GetMarketSummary_undecodable this symbol w body err hdo hd] at hok
    cases hok
  | none =>
    obtain ⟨he, hv⟩ := json_Unmarshal_ok decodeMarketSummary body _ {} hparse hd
    rw [GetMarketSummary_decoded this symbol w body hdo hd]
    simp only []
    rw [hv]
    exact MarketSummary_monetary_decoded sign whole frac h hlen kg hkg raw key pre post hkey hpost
      {} none {} he

theorem GetMarketSummary_monetary_text {σ : Type} (sign whole : List Char) (frac : Option (List Char))
    (h : isPlainDecimal sign whole frac) (hlen : (frac.getD []).length ≤ 2147483648)
    (kg : String × (MarketSummary → Option Decimal)) (hkg : kg ∈ MarketSummary.monetary)
    (this : BittrexAPI σ) (w : World σ) (symbol : String)
    (hdo : (this.client.Do "GET" (this.uri ++ "/markets/" ++ symbol ++ "/summary") "" false w.state).1
      = ("\x7b\"" ++ kg.1 ++ "\":\"" ++ plainDecimal sign whole frac ++ "\"\x7d", none)) :
    (this.GetMarketSummary symbol w).1.2 = none ∧
    kg.2 (this.GetMarketSummary symbol w).1.1 = some (exactDecimal sign whole frac) := by
  obtain ⟨h1, h2⟩ := MarketSummary_monetary_text sign whole frac h hlen kg hkg
  rw [GetMarketSummary_decoded this symbol w _ hdo h1]
  exact ⟨rfl, h2⟩

theorem MarketTicker_monetary_frame (kg : String × (MarketTicker → Option Decimal))
    (hkg : kg ∈ MarketTicker.monetary) (f : Field MarketTicker) (hf : f ∈ MarketTicker.fields)
    (hne : f.name ≠ kg.1) (j : Json) (ctx : ErrorContext) (saved : Option GoError) (v : MarketTicker) :
    kg.2 (f.store j ctx saved v).val = kg.2 v := by
  simp only [MarketTicker.monetary, List.mem_cons, List.mem_singleton, List.not_mem_nil,
    or_false] at hkg
  simp only [MarketTicker.fields, List.mem_cons, List.mem_singleton, List.not_mem_nil,
    or_false] at hf
  rcases hkg with rfl | rfl | rfl <;>
  rcases hf with rfl | rfl | rfl | rfl <;>
  first
    | rfl
    | exact absurd rfl hne

/-- A plain decimal literal in a JSON string, stored into a monetary field of a
`MarketTicker`: no error is returned or saved, and the field is the exact decimal. -/
theorem MarketTicker_monetary_set (sign whole : List Char) (frac : Option (List Char))
    (h : isPlainDecimal sign whole frac) (hlen : (frac.getD []).length ≤ 2147483648)
    (kg : String × (MarketTicker → Option Decimal)) (hkg : kg ∈ MarketTicker.monetary)
    (f : Field MarketTicker) (hf : f ∈ MarketTicker.fields) (hname : f.name = kg.1)
    (ctx : ErrorContext) (saved : Option GoError) (v : MarketTicker) :
    (f.store (.str (plainDecimal sign whole frac) (plainDecimal sign whole frac))
      ctx saved v).err = none ∧
    (f.store (.str (plainDecimal sign whole frac) (plainDecimal sign whole frac))
      ctx saved v).savedError = saved ∧
    kg.2 (f.store (.str (plainDecimal sign whole frac) (plainDecimal sign whole frac))
      ctx saved v).val = some (exactDecimal sign whole frac) := by
  simp only [MarketTicker.monetary, List.mem_cons, List.mem_singleton, List.not_mem_nil,
    or_false] at hkg
  simp only [MarketTicker.fields, List.mem_cons, List.mem_singleton, List.not_mem_nil,
    or_false] at hf
  rcases hkg with rfl | rfl | rfl <;>
  rcases hf with rfl | rfl | rfl | rfl <;>
  first
    | exact absurd hname (by decide)
    | (simp only [field, decodeDecimal_plain sign whole frac h, hlen, if_true, and_self])

theorem MarketTicker_monetary_names (kg : String × (MarketTicker → Option Decimal))
    (hkg : kg ∈ MarketTicker.monetary) :
    namesField MarketTicker.fields kg.1 kg.1 ∧
    ∀ c ∈ kg.1.data, c ≠ '"' ∧ c ≠ '\\' ∧ 32 ≤ c.toNat := by
  simp only [MarketTicker.monetary, List.mem_cons, List.mem_singleton, List.not_mem_nil,
    or_false] at hkg
  rcases hkg with rfl | rfl | rfl <;> exact ⟨by decide, by decide⟩

/-- A monetary field of a `MarketTicker` given as a plain decimal literal in a
JSON string by the last member that names it: when the decoding of the object
ends without an error, the field is the exact decimal. -/
theorem MarketTicker_monetary_decoded (sign whole : List Char) (frac : Option (List Char))
    (h : isPlainDecimal sign whole frac) (hlen : (frac.getD []).length ≤ 2147483648)
    (kg : String × (MarketTicker → Option Decimal)) (hkg : kg ∈ MarketTicker.monetary)
    (raw key : String) (pre post : List (String × Json))
    (hkey : namesField MarketTicker.fields key kg.1)
    (hpost : ∀ m ∈ post, ¬ namesField MarketTicker.fields m.1 kg.1)
    (ctx : ErrorContext) (saved : Option GoError) (v : MarketTicker)
    (hok : (decodeMarketTicker (.obj raw (pre ++ (key, .str (plainDecimal sign whole frac)
      (plainDecimal sign whole frac)) :: post)) ctx saved v).err = none) :
    kg.2 (decodeMarketTicker (.obj raw (pre ++ (key, .str (plainDecimal sign whole frac)
      (plainDecimal sign whole frac)) :: post)) ctx saved v).val
      = some (exactDecimal sign whole frac) :=
  decodeMembers_last "MarketTicker" MarketTicker.fields kg.2 kg.1 _ _
    (MarketTicker_monetary_frame kg hkg)
    (fun f hf hname ctx saved v _ =>
      (MarketTicker_monetary_set sign whole frac h hlen kg hkg f hf hname ctx saved v).2.2)
    ctx pre post key hkey hpost saved v hok

/-- The text of an object whose one member is a monetary field of a `MarketTicker`
with a plain decimal literal in a string: `json.Unmarshal` returns no error, and
the field is the exact decimal. -/
theorem MarketTicker_monetary_text (sign whole : List Char) (frac : Option (List Char))
    (h : isPlainDecimal sign whole frac) (hlen : (frac.getD []).length ≤ 2147483648)
    (kg : String × (MarketTicker → Option Decimal)) (hkg : kg ∈ MarketTicker.monetary) :
    (json_Unmarshal decodeMarketTicker
      ("\x7b\"" ++ kg.1 ++ "\":\"" ++ plainDecimal sign whole frac ++ "\"\x7d") {}).2 = none ∧
    kg.2 (json_Unmarshal decodeMarketTicker
      ("\x7b\"" ++ kg.1 ++ "\":\"" ++ plainDecimal sign whole frac ++ "\"\x7d") {}).1
      = some (exactDecimal sign whole frac) := by
  obtain ⟨hnames, hplain⟩ := MarketTicker_monetary_names kg hkg
  have hparse := parseJSON_member kg.1.data (plainDecimal sign whole frac).data [] hplain
    (plainDecimal_plain sign whole frac h) (by simp)
  rw [← member_text] at hparse
  cases hf : findField MarketTicker.fields kg.1 with
  | none => simp [namesField, hf] at hnames
  | some f =>
    have hname : f.name = kg.1 := by simpa [namesField, hf] using hnames
    have hset := MarketTicker_monetary_set sign whole frac h hlen kg hkg f
      (findField_mem _ _ _ hf) hname ⟨"MarketTicker", ([] : List String) ++ [f.name]⟩ none {}
    have hm := decodeMembers_single "MarketTicker" MarketTicker.fields {} kg.1
      (.str (plainDecimal sign whole frac) (plainDecimal sign whole frac)) none {} f hf hset.1
    unfold json_Unmarshal
    rw [hparse]
    simp only [decodeMarketTicker, decodeStruct, hm, hset.2.1, hset.2.2, and_self]

theorem GetMarketTicker_monetary {σ : Type} (sign whole : List Char) (frac : Option (List Char))
    (h : isPlainDecimal sign whole frac) (hlen : (frac.getD []).length ≤ 2147483648)
    (kg : String × (MarketTicker → Option Decimal)) (hkg : kg ∈ MarketTicker.monetary)
    (this : BittrexAPI σ) (w : World σ) (symbol body raw key : String)
    (pre post : List (String × Json))
    (hdo : (this.client.Do "GET" (this.uri ++ "/markets/" ++ symbol ++ "/ticker") "" false w.state).1 = (body, none))
    (hparse : parseJSON body = .ok (.obj raw (pre ++ (key, .str (plainDecimal sign whole frac)
      (plainDecimal sign whole frac)) :: post)))
    (hkey : namesField MarketTicker.fields key kg.1)
    (hpost : ∀ m ∈ post, ¬ namesField MarketTicker.fields m.1 kg.1)
    (hok : (this.GetMarketTicker symbol w).1.2 = none) :
    kg.2 (this.GetMarketTicker symbol w).1.1 = some (exactDecimal sign whole frac) := by
  cases hd : (json_Unmarshal decodeMarketTicker body {}).2 with
  | some err =>
    rw [GetMarketTicker_undecodable this symbol w body err hdo hd] at hok
    cases hok
  | none =>
    obtain ⟨he, hv⟩ := json_Unmarshal_ok decodeMarketTicker body _ {} hparse hd
    rw [GetMarketTicker_decoded this symbol w body hdo hd]
    simp only []
    rw [hv]
    exact MarketTicker_monetary_decoded sign whole frac h hlen kg hkg raw key pre post hkey hpost
      {} none {} he

theorem GetMarketTicker_monetary_text {σ : Type} (sign whole : List Char) (frac : Option (List Char))
    (h : isPlainDecimal sign whole frac) (hlen : (frac.getD []).length ≤ 2147483648)
    (kg : String × (MarketTicker → Option Decimal)) (hkg : kg ∈ MarketTicker.monetary)
    (this : BittrexAPI σ) (w : World σ) (symbol : String)
    (hdo : (this.client.Do "GET" (this.uri ++ "/markets/" ++ symbol ++ "/ticker") "" false w.state).1
      = ("\x7b\"" ++ kg.1 ++ "\":\"" ++ plainDecimal sign whole frac ++ "\"\x7d", none)) :
    (this.GetMarketTicker symbol w).1.2 = none ∧
    kg.2 (this.GetMarketTicker symbol w).1.1 = some (exactDecimal sign whole frac) := by
  obtain ⟨h1, h2⟩ := MarketTicker_monetary_text sign whole frac h hlen kg hkg
  rw [GetMarketTicker_decoded this symbol w _ hdo h1]
  exact ⟨rfl, h2⟩

theorem Order_monetary_frame (kg : String × (Order → Option Decimal))
    (hkg : kg ∈ Order.monetary) (f : Field Order) (hf : f ∈ Order.fields)
    (hne : f.name ≠ kg.1) (j : Json) (ctx : ErrorContext) (saved : Option GoError) (v : Order) :
    kg.2 (f.store j ctx saved v).val = kg.2 v := by
  simp only [Order.monetary, List.mem_cons, List.mem_singleton, List.not_mem_nil,
    or_false] at hkg
  simp only [Order.fields, List.mem_cons, List.mem_singleton, List.not_mem_nil,
    or_false] at hf
  rcases hkg with rfl | rfl | rfl | rfl | rfl | rfl <;>
  rcases hf with rfl | rfl | rfl | rfl | rfl | rfl | rfl | rfl | rfl | rfl | rfl | rfl | rfl | rfl | rfl | rfl | rfl | rfl | rfl <;>
  first
    | rfl
    | exact absurd rfl hne

/-- A plain decimal literal in a JSON string, stored into a monetary field of a
`Order`: no error is returned or saved, and the field is the exact decimal. -/
theorem Order_monetary_set (sign whole : List Char) (frac : Option (List Char))
    (h : isPlainDecimal sign whole frac) (hlen : (frac.getD []).length ≤ 2147483648)
    (kg : String × (Order → Option Decimal)) (hkg : kg ∈ Order.monetary)
    (f : Field Order) (hf : f ∈ Order.fields) (hname : f.name = kg.1)
    (ctx : ErrorContext) (saved : Option GoError) (v : Order) :
    (f.store (.str (plainDecimal sign whole frac) (plainDecimal sign whole frac))
      ctx saved v).err = none ∧
    (f.store (.str (plainDecimal sign whole frac) (plainDecimal sign whole frac))
      ctx saved v).savedError = saved ∧
    kg.2 (f.store (.str (plainDecimal sign whole frac) (plainDecimal sign whole frac))
      ctx saved v).val = some (exactDecimal sign whole frac) := by
  simp only [Order.monetary, List.mem_cons, List.mem_singleton, List.not_mem_nil,
    or_false] at hkg
  simp only [Order.fields, List.mem_cons, List.mem_singleton, List.not_mem_nil,
    or_false] at hf
  rcases hkg with rfl | rfl | rfl | rfl | rfl | rfl <;>
  rcases hf with rfl | rfl | rfl | rfl | rfl | rfl | rfl | rfl | rfl | rfl | rfl | rfl | rfl | rfl | rfl | rfl | rfl | rfl | rfl <;>
  first
    | exact absurd hname (by decide)
    | (simp only [field, decodeDecimal_plain sign whole frac h, hlen, if_true, and_self])

theorem Order_monetary_names (kg : String × (Order → Option Decimal))
    (hkg : kg ∈ Order.monetary) :
    namesField Order.fields kg.1 kg.1 ∧
    ∀ c ∈ kg.1.data, c ≠ '"' ∧ c ≠ '\\' ∧ 32 ≤ c.toNat := by
  simp only [Order.monetary, List.mem_cons, List.mem_singleton, List.not_mem_nil,
    or_false] at hkg
  rcases hkg with rfl | rfl | rfl | rfl | rfl | rfl <;> exact ⟨by decide, by decide⟩

/-- A monetary field of a `Order` given as a plain decimal literal in a
JSON string by the last member that names it: when the decoding of the object
ends without an error, the field is the exact decimal. -/
theorem Order_monetary_decoded (sign whole : List Char) (frac : Option (List Char))
    (h : isPlainDecimal sign whole frac) (hlen : (frac.getD []).length ≤ 2147483648)
    (kg : String × (Order → Option Decimal)) (hkg : kg ∈ Order.monetary)
    (raw key : String) (pre post : List (String × Json))
    (hkey : namesField Order.fields key kg.1)
    (hpost : ∀ m ∈ post, ¬ namesField Order.fields m.1 kg.1)
    (ctx : ErrorContext) (saved : Option GoError) (v : Order)
    (hok : (decodeOrder (.obj raw (pre ++ (key, .str (plainDecimal sign whole frac)
      (plainDecimal sign whole frac)) :: post)) ctx saved v).err = none) :
    kg.2 (decodeOrder (.obj raw (pre ++ (key, .str (plainDecimal sign whole frac)
      (plainDecimal sign whole frac)) :: post)) ctx saved v).val
      = some (exactDecimal sign whole frac) :=
  decodeMembers_last "Order" Order.fields kg.2 kg.1 _ _
    (Order_monetary_frame kg hkg)
    (fun f hf hname ctx saved v _ =>
      (Order_monetary_set sign whole frac h hlen kg hkg f hf hname ctx saved v).2.2)
    ctx pre post key hkey hpost saved v hok

/-- The text of an object whose one member is a monetary field of a `Order`
with a plain decimal literal in a string: `json.Unmarshal` returns no error, and
the field is the exact decimal. -/
theorem Order_monetary_text (sign whole : List Char) (frac : Option (List Char))
    (h : isPlainDecimal sign whole frac) (hlen : (frac.getD []).length ≤ 2147483648)
    (kg : String × (Order → Option Decimal)) (hkg : kg ∈ Order.monetary) :
    (json_Unmarshal decodeOrder
      ("\x7b\"" ++ kg.1 ++ "\":\"" ++ plainDecimal sign whole frac ++ "\"\x7d") {}).2 = none ∧
    kg.2 (json_Unmarshal decodeOrder
      ("\x7b\"" ++ kg.1 ++ "\":\"" ++ plainDecimal sign whole frac ++ "\"\x7d") {}).1
      = some (exactDecimal sign whole frac) := by
  obtain ⟨hnames, hplain⟩ := Order_monetary_names kg hkg
  have hparse := parseJSON_member kg.1.data (plainDecimal sign whole frac).data [] hplain
    (plainDecimal_plain sign whole frac h) (by simp)
  rw [← member_text] at hparse
  cases hf : findField Order.fields kg.1 with
  | none => simp [namesField, hf] at hnames
  | some f =>
    have hname : f.name = kg.1 := by simpa [namesField, hf] using hnames
    have hset := Order_monetary_set sign whole frac h hlen kg hkg f
      (findField_mem _ _ _ hf) hname ⟨"Order", ([] : List String) ++ [f.name]⟩ none {}
    have hm := decodeMembers_single "Order" Order.fields {} kg.1
      (.str (plainDecimal sign whole frac) (plainDecimal sign whole frac)) none {} f hf hset.1
    unfold json_Unmarshal
    rw [hparse]
    simp only [decodeOrder, decodeStruct, hm, hset.2.1, hset.2.2, and_self]

theorem GetOrder_monetary {σ : Type} (sign whole : List Char) (frac : Option (List Char))
    (h : isPlainDecimal sign whole frac) (hlen : (frac.getD []).length ≤ 2147483648)
    (kg : String × (Order → Option Decimal)) (hkg : kg ∈ Order.monetary)
    (this : BittrexAPI σ) (w : World σ) (orderID body raw key : String)
    (pre post : List (String × Json))
    (hdo : (this.client.Do "GET" (this.uri ++ "/orders/" ++ orderID) "" false w.state).1 = (body, none))
    (hparse : parseJSON body = .ok (.obj raw (pre ++ (key, .str (plainDecimal sign whole frac)
      (plainDecimal sign whole frac)) :: post)))
    (hkey : namesField Order.fields key kg.1)
    (hpost : ∀ m ∈ post, ¬ namesField Order.fields m.1 kg.1)
    (hok : (this.GetOrder orderID w).1.2 = none) :
    kg.2 (this.GetOrder orderID w).1.1 = some (exactDecimal sign whole frac) := by
  cases hd : (json_Unmarshal decodeOrder body {}).2 with
  | some err =>
    rw [GetOrder_undecodable this orderID w body err hdo hd] at hok
    cases hok
  | none =>
    obtain ⟨he, hv⟩ := json_Unmarshal_ok decodeOrder body _ {} hparse hd
    rw [GetOrder_decoded this orderID w body hdo hd]
    simp only []
    rw [hv]
    exact Order_monetary_decoded sign whole frac h hlen kg hkg raw key pre post hkey hpost
      {} none {} he

theorem GetOrder_monetary_text {σ : Type} (sign whole : List Char) (frac : Option (List Char))
    (h : isPlainDecimal sign whole frac) (hlen : (frac.getD []).length ≤ 2147483648)
    (kg : String × (Order → Option Decimal)) (hkg : kg ∈ Order.monetary)
    (this : BittrexAPI σ) (w : World σ) (orderID : String)
    (hdo : (this.client.Do "GET" (this.uri ++ "/orders/" ++ orderID) "" false w.state).1
      = ("\x7b\"" ++ kg.1 ++ "\":\"" ++ plainDecimal sign whole frac ++ "\"\x7d", none)) :
    (this.GetOrder orderID w).1.2 = none ∧
    kg.2 (this.GetOrder orderID w).1.1 = some (exactDecimal sign whole frac) := by
  obtain ⟨h1, h2⟩ := Order_monetary_text sign whole frac h hlen kg hkg
  rw [GetOrder_decoded this orderID w _ hdo h1]
  exact ⟨rfl, h2⟩

/-! ## The text of a decimal -/

theorem digitChar_isDigit (n : Nat) (h : n < 10) : isDigit (Nat.digitChar n) = true := by
  interval_cases n <;> rfl

theorem toDigitsCore_digits (fuel : Nat) : ∀ (n : Nat) (ds : List Char),
    (∀ c ∈ ds, isDigit c = true) → ∀ c ∈ Nat.toDigitsCore 10 fuel n ds, isDigit c = true := by
  induction fuel with
  | zero =>
    intro n ds hds c hc
    exact hds c (by simpa [Nat.toDigitsCore] using hc)
  | succ fuel ih =>
    intro n ds hds c hc
    have hd : ∀ x ∈ Nat.digitChar (n % 10) :: ds, isDigit x = true := by
      intro x hx
      rcases List.mem_cons.mp hx with rfl | hx
      · exact digitChar_isDigit _ (Nat.mod_lt _ (by decide))
      · exact hds x hx
    simp only [Nat.toDigitsCore] at hc
    split at hc
    · exact hd c hc
    · exact ih _ _ hd c hc

theorem natString_digits (n : Nat) : ∀ c ∈ (natString n).data, isDigit c = true := by
  intro c hc
  have h : (natString n).data = Nat.toDigits 10 n := rfl
  rw [h] at hc
  exact toDigitsCore_digits _ _ [] (by simp) c hc

theorem intString_chars (i : Int) :
    ∀ c ∈ (toString i).data, isDigit c = true ∨ c = '.' ∨ c = '-' := by
  intro c hc
  cases i with
  | ofNat m => exact Or.inl (natString_digits m c hc)
  | negSucc m =>
    have h : (toString (Int.negSucc m)).data = '-' :: (natString (m + 1)).data := rfl
    rw [h] at hc
    rcases List.mem_cons.mp hc with rfl | hc
    · exact Or.inr (Or.inr rfl)
    · exact Or.inl (natString_digits _ c hc)

theorem trimTrailingZeros_subset (ds : List Char) : ∀ c ∈ trimTrailingZeros ds, c ∈ ds := by
  intro c hc
  unfold trimTrailingZeros at hc
  have h1 := List.mem_reverse.mp hc
  have h2 := (List.dropWhile_sublist _).subset h1
  exact List.mem_reverse.mp h2

theorem number_chars (intPart frac : List Char)
    (hint : ∀ x ∈ intPart, isDigit x = true) (hfrac : ∀ x ∈ frac, isDigit x = true) :
    ∀ x ∈ (if 0 < frac.length then intPart ++ '.' :: frac else intPart),
      isDigit x = true ∨ x = '.' ∨ x = '-' := by
  intro x hx
  by_cases h0 : 0 < frac.length
  · rw [if_pos h0] at hx
    rcases List.mem_append.mp hx with h | h
    · exact Or.inl (hint x h)
    · rcases List.mem_cons.mp h with rfl | h
      · exact Or.inr (Or.inl rfl)
      · exact Or.inl (hfrac x h)
  · rw [if_neg h0] at hx
    exact Or.inl (hint x hx)

/-- The text of a decimal holds digits, at most with a point and a minus sign. -/
theorem Decimal_String_chars (d : Decimal) :
    ∀ c ∈ (Decimal_String d).data, isDigit c = true ∨ c = '.' ∨ c = '-' := by
  intro c hc
  unfold Decimal_String at hc
  split at hc
  · exact intString_chars _ c hc
  · have hstr := natString_digits d.value.natAbs
    have hint : ∀ x ∈ (if (-d.exp).toNat < (natString d.value.natAbs).toList.length
        then (natString d.value.natAbs).toList.take
          ((natString d.value.natAbs).toList.length - (-d.exp).toNat)
        else ['0']), isDigit x = true := by
      intro x hx
      split at hx
      · exact hstr x (List.mem_of_mem_take hx)
      · rcases List.mem_singleton.mp hx with rfl
        rfl
    have hfrac : ∀ x ∈ trimTrailingZeros
        (if (-d.exp).toNat < (natString d.value.natAbs).toList.length
          then (natString d.value.natAbs).toList.drop
            ((natString d.value.natAbs).toList.length - (-d.exp).toNat)
          else List.replicate ((-d.exp).toNat - (natString d.value.natAbs).toList.length) '0'
            ++ (natString d.value.natAbs).toList), isDigit x = true := by
      intro x hx
      have hx := trimTrailingZeros_subset _ x hx
      split at hx
      · exact hstr x (List.mem_of_mem_drop hx)
      · rcases List.mem_append.mp hx with h | h
        · rw [(List.mem_replicate.mp h).2]
          rfl
        · exact hstr x h
    have hnum := number_chars _ _ hint hfrac
    simp only [] at hc
    by_cases hneg : d.value < 0
    · rw [if_pos hneg] at hc
      rcases List.mem_cons.mp hc with rfl | hc
      · exact Or.inr (Or.inr rfl)
      · exact hnum c hc
    · rw [if_neg hneg] at hc
      exact hnum c hc

theorem Decimal_String_plain (d : Decimal) :
    ∀ c ∈ (Decimal_String d).data, c ≠ '"' ∧ c ≠ '\\' ∧ 32 ≤ c.toNat := by
  intro c hc
  rcases Decimal_String_chars d c hc with h | rfl | rfl
  · simp only [isDigit, Bool.and_eq_true, decide_eq_true_eq] at h
    refine ⟨?_, ?_, by omega⟩ <;>
    · intro heq
      subst heq
      revert h
      decide
  · decide
  · decide

theorem intercalate_go_data (acc s : String) (l : List String) :
    (String.intercalate.go acc s l).data = acc.data ++ l.flatMap (fun x => s.data ++ x.data) := by
  induction l generalizing acc with
  | nil => simp [String.intercalate.go]
  | cons a l ih =>
    simp only [String.intercalate.go, ih, String.data_append, List.flatMap_cons,
      List.append_assoc]

theorem intercalate_cons_data (s a : String) (l : List String) :
    (s.intercalate (a :: l)).data = a.data ++ l.flatMap (fun x => s.data ++ x.data) := by
  simp only [String.intercalate, intercalate_go_data]

theorem encodeObject_data (members : List (Option String)) :
    (encodeObject members).data
      = '\x7b' :: ((",".intercalate (members.filterMap id)).data ++ ['\x7d']) := by
  simp [encodeObject, String.data_append]

theorem collectMembers_ok (l : List (Option String)) :
    collectMembers (l.map .ok) = .ok l := by
  induction l with
  | nil => rfl
  | cons a l ih => simp only [List.map_cons, collectMembers, ih]

theorem stringMember_entry (name : String) (omitempty : Bool) (s : String) :
    stringMember name omitempty s = .ok ((stringEntry name omitempty s).map Entry.text) := by
  unfold stringMember stringEntry
  split <;> rfl

theorem decimalMember_entry (name : String) (d : Option Decimal) :
    decimalMember name d = .ok ((decimalEntry name d).map Entry.text) := by
  cases d <;> rfl

theorem encodeOrderCancel_entries (c : OrderCancel) :
    encodeOrderCancel c = .ok (encodeObject (c.entries.map (Option.map Entry.text))) := by
  simp only [encodeOrderCancel, stringMember_entry, OrderCancel.entries, List.map_cons,
    List.map_nil]
  rw [show [Except.ok (Option.map Entry.text (stringEntry "type" true c.OrderType)),
        Except.ok (Option.map Entry.text (stringEntry "id" true c.ID))]
      = ([Option.map Entry.text (stringEntry "type" true c.OrderType),
          Option.map Entry.text (stringEntry "id" true c.ID)].map
            (Except.ok : Option String → Except GoError (Option String))) from rfl,
    collectMembers_ok]
  rfl

/-- The members `json.Marshal` writes for an order are the texts of its entries. -/
theorem Order_members_entries (order : Order) :
    order.members = (order.entries.map (Option.map Entry.text)).map .ok := by
  unfold Order.members Order.entries
  simp only [stringMember_entry, decimalMember_entry, List.map_cons, List.map_nil]
  have h1 : (Except.ok (if order.UseAwards = true then member "useAwards" "true" else none)
        : Except GoError (Option String))
      = .ok ((boolEntry "useAwards" order.UseAwards).map Entry.text) := by
    cases order.UseAwards <;> rfl
  have h2 : (match order.OrderToCancel with
        | none => (.ok none : Except GoError (Option String))
        | some c => (encodeOrderCancel c).map (member "orderToCancel"))
      = .ok ((orderCancelEntry "orderToCancel" order.OrderToCancel).map Entry.text) := by
    cases order.OrderToCancel with
    | none => rfl
    | some c =>
      simp only [encodeOrderCancel_entries]
      rfl
  have h3 : (Except.ok (match order.Code with
        | none => none
        | some code => member "code" (encodeString code)) : Except GoError (Option String))
      = .ok ((stringPtrEntry "code" order.Code).map Entry.text) := by
    cases order.Code <;> rfl
  rw [h1, h2, h3]

theorem json_Marshal_entries (order : Order) :
    json_Marshal order = (encodeObject (order.entries.map (Option.map Entry.text)), none) := by
  unfold json_Marshal
  rw [Order_members_entries, collectMembers_ok]

theorem Entry_text_data (e : Entry) (tl : List Char) :
    e.text.data ++ tl
      = '"' :: (e.1.data.flatMap encodeChar ++ '"' :: ':' :: (e.2.1.data ++ tl)) := by
  simp [Entry.text, encodeString, String.data_append]

/-- The last member of an object: a key as the encoder writes it, a value that
reads as `j`, the closing brace. -/
theorem parseMembers_last_entry (fuel depth : Nat) (k : String) (vt rest : List Char) (j : Json)
    (hv : parseValue fuel depth (vt ++ '\x7d' :: rest) = .ok (j, '\x7d' :: rest)) :
    parseMembers (fuel + 1) depth
        ('"' :: (k.data.flatMap encodeChar ++ '"' :: ':' :: (vt ++ '\x7d' :: rest)))
      = .ok ([(k, j)], rest) := by
  have hs : ∀ l : List Char, skipSpace ('"' :: l) = '"' :: l := fun _ => rfl
  have hs2 : ∀ l : List Char, skipSpace (':' :: l) = ':' :: l := fun _ => rfl
  have hs3 : ∀ l : List Char, skipSpace ('\x7d' :: l) = '\x7d' :: l := fun _ => rfl
  rw [parseMembers, hs]
  simp only [ne_eq, not_true_eq_false, if_false, scanString_encoded, hs2, hv, hs3, if_true,
    unquote_encoded k.data _ (flatMap_encodeChar_length k.data)]

/-- A member followed by a comma: the members after it are read next. -/
theorem parseMembers_more_entries (fuel depth : Nat) (k : String) (vt more : List Char)
    (j : Json) (hv : parseValue fuel depth (vt ++ ',' :: more) = .ok (j, ',' :: more)) :
    parseMembers (fuel + 1) depth
        ('"' :: (k.data.flatMap encodeChar ++ '"' :: ':' :: (vt ++ ',' :: more)))
      = match parseMembers fuel depth more with
        | .error e => .error e
        | .ok (ms, rest6) => .ok ((k, j) :: ms, rest6) := by
  have hs : ∀ l : List Char, skipSpace ('"' :: l) = '"' :: l := fun _ => rfl
  have hs2 : ∀ l : List Char, skipSpace (':' :: l) = ':' :: l := fun _ => rfl
  have hs3 : ∀ l : List Char, skipSpace (',' :: l) = ',' :: l := fun _ => rfl
  rw [parseMembers, hs]
  simp only [ne_eq, not_true_eq_false, if_false, scanString_encoded, hs2, hv, hs3, if_true,
    show ¬ ((',' : Char) = '\x7d') by decide,
    unquote_encoded k.data _ (flatMap_encodeChar_length k.data)]

/-- The members of an object written from entries whose values read back, up to
the closing brace. -/
theorem parseMembers_entries (F depth : Nat) (es : List Entry) :
    ∀ e : Entry,
    (∀ x ∈ e :: es, ∀ fuel rest, F ≤ fuel →
      parseValue fuel depth (x.2.1.data ++ rest) = .ok (x.2.2, rest)) →
    ∀ fuel rest, F + (es.length + 1) ≤ fuel →
      parseMembers fuel depth
          (e.text.data ++ (es.flatMap (fun x => ",".data ++ x.text.data) ++ '\x7d' :: rest))
        = .ok ((e :: es).map (fun x => (x.1, x.2.2)), rest) := by
  induction es with
  | nil =>
    intro e hread fuel rest hfuel
    obtain ⟨f, rfl⟩ : ∃ f, fuel = f + 1 := ⟨fuel - 1, by simp at hfuel; omega⟩
    simp only [List.flatMap_nil, List.nil_append, Entry_text_data, List.map_cons, List.map_nil]
    exact parseMembers_last_entry f depth e.1 e.2.1.data rest e.2.2
      (hread e (List.mem_cons_self _ _) f _ (by simp at hfuel; omega))
  | cons e2 es ih =>
    intro e hread fuel rest hfuel
    obtain ⟨f, rfl⟩ : ∃ f, fuel = f + 1 := ⟨fuel - 1, by simp at hfuel; omega⟩
    have hfuel2 : F + (es.length + 1) ≤ f := by simp at hfuel; omega
    have hnext := ih e2 (fun x hx => hread x (List.mem_cons_of_mem _ hx)) f rest hfuel2
    have htext : e.text.data ++ ((e2 :: es).flatMap (fun x => ",".data ++ x.text.data)
          ++ '\x7d' :: rest)
        = '"' :: (e.1.data.flatMap encodeChar ++ '"' :: ':' :: (e.2.1.data ++ ',' ::
            (e2.text.data ++ (es.flatMap (fun x => ",".data ++ x.text.data)
              ++ '\x7d' :: rest)))) := by
      rw [Entry_text_data]
      simp only [List.flatMap_cons, List.append_assoc]
      rfl
    rw [htext, parseMembers_more_entries f depth e.1 e.2.1.data _ e.2.2
      (hread e (List.mem_cons_self _ _) f _ (by omega)), hnext]
    rfl

theorem consumed_append (a rest : List Char) : consumed (a ++ rest) rest = String.mk a := by
  simp [consumed]

/-- An object written from entries whose values read back is read as the object
of those members. -/
theorem parseValue_entries (F depth : Nat) (entries : List (Option Entry))
    (hdepth : depth + 1 ≤ maxNestingDepth)
    (hread : ∀ x, some x ∈ entries → ∀ fuel rest, F ≤ fuel →
      parseValue fuel (depth + 1) (x.2.1.data ++ rest) = .ok (x.2.2, rest)) :
    ∀ fuel rest, F + entries.length + 2 ≤ fuel →
      parseValue fuel depth ((encodeObject (entries.map (Option.map Entry.text))).data ++ rest)
        = .ok (.obj (encodeObject (entries.map (Option.map Entry.text))) (readBack entries),
            rest) := by
  intro fuel rest hfuel
  obtain ⟨f, rfl⟩ : ∃ f, fuel = f + 1 := ⟨fuel - 1, by omega⟩
  have hs : ∀ l : List Char, skipSpace ('\x7b' :: l) = '\x7b' :: l := fun _ => rfl
  have hd : ¬ (maxNestingDepth < depth + 1) := by omega
  have hfm : (entries.map (Option.map Entry.text)).filterMap id
      = (entries.filterMap id).map Entry.text := by
    induction entries with
    | nil => rfl
    | cons o os ih =>
      cases o with
      | none => simpa using ih (fun x hx => hread x (List.mem_cons_of_mem _ hx)) (by simp at hfuel ⊢; omega)
      | some e => simpa using ih (fun x hx => hread x (List.mem_cons_of_mem _ hx)) (by simp at hfuel ⊢; omega)
  have hlen : (entries.filterMap id).length ≤ entries.length := List.length_filterMap_le _ _
  have hmem : ∀ x ∈ entries.filterMap id, some x ∈ entries := by
    intro x hx
    simpa using hx
  have hs1 : ∀ l : List Char, skipSpace ('"' :: l) = '"' :: l := fun _ => rfl
  rw [encodeObject_data, hfm]
  cases hes : entries.filterMap id with
  | nil =>
    have htext : ('\x7b' :: ((",".intercalate (([] : List Entry).map Entry.text)).data
        ++ ['\x7d'])) ++ rest = '\x7b' :: '\x7d' :: rest := rfl
    have hs2 : ∀ l : List Char, skipSpace ('\x7d' :: l) = '\x7d' :: l := fun _ => rfl
    have hobj : encodeObject (entries.map (Option.map Entry.text)) = String.mk ['\x7b', '\x7d'] := by
      apply String.ext
      rw [encodeObject_data, hfm, hes]
      rfl
    have hc : consumed ('\x7b' :: '\x7d' :: rest) rest = String.mk ['\x7b', '\x7d'] :=
      consumed_append ['\x7b', '\x7d'] rest
    rw [htext, parseValue, hs]
    simp only [if_true, hd, if_false, hs2, readBack, hes, List.map_nil, hobj, hc]
  | cons e es =>
    rw [hes] at hlen hmem
    have htext : ('\x7b' :: ((",".intercalate ((e :: es).map Entry.text)).data ++ ['\x7d']))
          ++ rest
        = '\x7b' :: (e.text.data ++ (es.flatMap (fun x => ",".data ++ x.text.data)
            ++ '\x7d' :: rest)) := by
      simp only [List.map_cons, intercalate_cons_data, List.flatMap_map, List.cons_append,
        List.append_assoc, List.singleton_append]
      rfl
    have hm := parseMembers_entries F (depth + 1) es e
      (fun x hx => hread x (hmem x hx)) f rest (by simp at hlen; omega)
    have hobj : encodeObject (entries.map (Option.map Entry.text))
        = String.mk ('\x7b' :: (e.text.data ++ (es.flatMap (fun x => ",".data ++ x.text.data)
            ++ ['\x7d']))) := by
      apply String.ext
      rw [encodeObject_data, hfm, hes]
      simp only [List.map_cons, intercalate_cons_data, List.flatMap_map, List.append_assoc]
    have hc : consumed ('\x7b' :: (e.text.data ++ (es.flatMap (fun x => ",".data ++ x.text.data)
          ++ '\x7d' :: rest))) rest
        = String.mk ('\x7b' :: (e.text.data ++ (es.flatMap (fun x => ",".data ++ x.text.data)
            ++ ['\x7d']))) := by
      have h0 := consumed_append ('\x7b' :: (e.text.data
        ++ (es.flatMap (fun x => ",".data ++ x.text.data) ++ ['\x7d']))) rest
      simpa using h0
    have hX := Entry_text_data e (es.flatMap (fun x => ",".data ++ x.text.data) ++ '\x7d' :: rest)
    rw [htext, hobj, ← hc]
    rw [hX] at hm ⊢
    rw [parseValue, hs]
    simp only [if_true, hd, if_false, hs1, show ¬ (('"' : Char) = '\x7d') by decide, hm,
      readBack, hes]

theorem stringEntry_reads (name : String) (omitempty : Bool) (s : String) (x : Entry)
    (hx : stringEntry name omitempty s = some x) (fuel depth : Nat) (rest : List Char)
    (hfuel : 1 ≤ fuel) :
    parseValue fuel depth (x.2.1.data ++ rest) = .ok (x.2.2, rest) := by
  obtain ⟨f, rfl⟩ : ∃ f, fuel = f + 1 := ⟨fuel - 1, by omega⟩
  unfold stringEntry at hx
  split at hx
  · simp at hx
  · cases hx
    exact parseValue_encoded f depth [] rest s (by simp)

theorem stringPtrEntry_reads (name : String) (s : Option String) (x : Entry)
    (hx : stringPtrEntry name s = some x) (fuel depth : Nat) (rest : List Char)
    (hfuel : 1 ≤ fuel) :
    parseValue fuel depth (x.2.1.data ++ rest) = .ok (x.2.2, rest) := by
  obtain ⟨f, rfl⟩ : ∃ f, fuel = f + 1 := ⟨fuel - 1, by omega⟩
  cases s with
  | none => simp [stringPtrEntry] at hx
  | some v =>
    cases hx
    exact parseValue_encoded f depth [] rest v (by simp)

theorem decimalEntry_reads (name : String) (d : Option Decimal) (x : Entry)
    (hx : decimalEntry name d = some x) (fuel depth : Nat) (rest : List Char)
    (hfuel : 1 ≤ fuel) :
    parseValue fuel depth (x.2.1.data ++ rest) = .ok (x.2.2, rest) := by
  obtain ⟨f, rfl⟩ : ∃ f, fuel = f + 1 := ⟨fuel - 1, by omega⟩
  cases d with
  | none => simp [decimalEntry] at hx
  | some v =>
    cases hx
    have h := parseValue_string f depth [] (Decimal_String v).data rest
      (Decimal_String_plain v) (by simp)
    have ht : ("\"" ++ Decimal_String v ++ "\"").data ++ rest
        = [] ++ '"' :: ((Decimal_String v).data ++ '"' :: rest) := by
      simp [String.data_append]
    show parseValue (f + 1) depth (("\"" ++ Decimal_String v ++ "\"").data ++ rest) = _
    rw [ht, h]

theorem boolEntry_reads (name : String) (b : Bool) (x : Entry)
    (hx : boolEntry name b = some x) (fuel depth : Nat) (rest : List Char)
    (hfuel : 1 ≤ fuel) :
    parseValue fuel depth (x.2.1.data ++ rest) = .ok (x.2.2, rest) := by
  obtain ⟨f, rfl⟩ : ∃ f, fuel = f + 1 := ⟨fuel - 1, by omega⟩
  cases b with
  | false => simp [boolEntry] at hx
  | true =>
    cases hx
    rfl

theorem OrderCancel_entries_read (c : OrderCancel) (x : Entry) (hx : some x ∈ c.entries)
    (fuel depth : Nat) (rest : List Char) (hfuel : 1 ≤ fuel) :
    parseValue fuel depth (x.2.1.data ++ rest) = .ok (x.2.2, rest) := by
  simp only [OrderCancel.entries, List.mem_cons, List.mem_singleton, List.not_mem_nil,
    or_false] at hx
  rcases hx with hx | hx
  · exact stringEntry_reads _ _ _ x hx.symm fuel depth rest hfuel
  · exact stringEntry_reads _ _ _ x hx.symm fuel depth rest hfuel

theorem orderCancelEntry_reads (name : String) (c : Option OrderCancel) (x : Entry)
    (hx : orderCancelEntry name c = some x) (fuel depth : Nat) (rest : List Char)
    (hdepth : depth + 1 ≤ maxNestingDepth) (hfuel : 5 ≤ fuel) :
    parseValue fuel depth (x.2.1.data ++ rest) = .ok (x.2.2, rest) := by
  cases c with
  | none => simp [orderCancelEntry] at hx
  | some v =>
    cases hx
    exact parseValue_entries 1 depth v.entries hdepth
      (fun y hy fuel rest hf => OrderCancel_entries_read v y hy fuel (depth + 1) rest hf)
      fuel rest (by simpa [OrderCancel.entries] using hfuel)

theorem Order_entries_read (order : Order) (x : Entry) (hx : some x ∈ order.entries)
    (fuel depth : Nat) (rest : List Char) (hdepth : depth + 1 ≤ maxNestingDepth)
    (hfuel : 5 ≤ fuel) :
    parseValue fuel depth (x.2.1.data ++ rest) = .ok (x.2.2, rest) := by
  have h1 : 1 ≤ fuel := by omega
  simp only [Order.entries, List.mem_cons, List.mem_singleton, List.not_mem_nil,
    or_false] at hx
  rcases hx with hx | hx | hx | hx | hx | hx | hx | hx | hx | hx | hx | hx | hx | hx | hx | hx
    | hx | hx | hx
  all_goals first
    | exact stringEntry_reads _ _ _ x hx.symm fuel depth rest h1
    | exact decimalEntry_reads _ _ x hx.symm fuel depth rest h1
    | exact boolEntry_reads _ _ x hx.symm fuel depth rest h1
    | exact stringPtrEntry_reads _ _ x hx.symm fuel depth rest h1
    | exact orderCancelEntry_reads _ _ x hx.symm fuel depth rest hdepth hfuel

/-- The payload `json.Marshal` writes for an order is read back by the syntax
pass as the object of the entries of the order. -/
theorem json_Marshal_parse (order : Order) :
    parseJSON (json_Marshal order).1
      = .ok (.obj (json_Marshal order).1 (readBack order.entries)) := by
  rw [json_Marshal_entries]
  simp only []
  unfold parseJSON
  have hlen : order.entries.length = 19 := rfl
  have hbig := parseValue_entries 5 0 order.entries (by decide)
    (fun x hx fuel rest hf => Order_entries_read order x hx fuel 1 rest (by decide) hf)
    (max (2 * (encodeObject (order.entries.map (Option.map Entry.text))).length + 2) 26) []
    (by rw [hlen]; omega)
  rw [List.append_nil] at hbig
  generalize encodeObject (order.entries.map (Option.map Entry.text)) = text at hbig ⊢
  have hl : text.toList.length = text.length := rfl
  have hfuel := (parse_fuel (2 * text.length + 2) (max (2 * text.length + 2) 26) 0
    text.toList).1 (by omega) (by omega)
  rw [hfuel]
  simp only [String.toList]
  rw [hbig]
  rfl

/-! ## The members of the payload, one field at a time -/

theorem entries_required (m d t f : String) (hf : f ≠ "") :
    ({ MarketSymbol := m, Direction := d, OrderType := t, TimeInForce := f } : Order).entries
      = [none,
         some ("marketSymbol", encodeString m, .str (String.mk (m.data.flatMap encodeChar)) m),
         some ("direction", encodeString d, .str (String.mk (d.data.flatMap encodeChar)) d),
         some ("type", encodeString t, .str (String.mk (t.data.flatMap encodeChar)) t),
         none, none, none,
         some ("timeInForce", encodeString f, .str (String.mk (f.data.flatMap encodeChar)) f),
         none, none, none, none, none, none, none, none, none, none, none] := by
  simp [Order.entries, stringEntry, decimalEntry, boolEntry, orderCancelEntry, stringPtrEntry, hf]

theorem json_Marshal_required (m d t f : String) (hf : f ≠ "") :
    json_Marshal { MarketSymbol := m, Direction := d, OrderType := t, TimeInForce := f }
      = ("\x7b\"marketSymbol\":" ++ encodeString m ++ ",\"direction\":" ++ encodeString d
          ++ ",\"type\":" ++ encodeString t ++ ",\"timeInForce\":" ++ encodeString f ++ "\x7d",
         none) := by
  rw [json_Marshal_entries, entries_required m d t f hf]
  have h1 : encodeString "marketSymbol" = "\"marketSymbol\"" := by decide
  have h2 : encodeString "direction" = "\"direction\"" := by decide
  have h3 : encodeString "type" = "\"type\"" := by decide
  have h4 : encodeString "timeInForce" = "\"timeInForce\"" := by decide
  congr 1
  apply String.ext
  simp [encodeObject, Entry.text, String.intercalate, String.intercalate.go, String.data_append,
    h1, h2, h3, h4]

theorem readBack_required (m d t f : String) (hf : f ≠ "") :
    readBack ({ MarketSymbol := m, Direction := d, OrderType := t, TimeInForce := f }
        : Order).entries
      = [("marketSymbol", .str (String.mk (m.data.flatMap encodeChar)) m),
         ("direction", .str (String.mk (d.data.flatMap encodeChar)) d),
         ("type", .str (String.mk (t.data.flatMap encodeChar)) t),
         ("timeInForce", .str (String.mk (f.data.flatMap encodeChar)) f)] := by
  rw [entries_required m d t f hf]
  rfl

/-! ## Keys that name no field, and fields that no key names -/

/-- The decoding of an object skips the members whose key names no field. -/
theorem decodeMembers_known {α : Type} (structName : String) (fields : List (Field α))
    (ctx : ErrorContext) (members : List (String × Json)) :
    ∀ (saved : Option GoError) (v : α),
      decodeMembers structName fields ctx members saved v
        = decodeMembers structName fields ctx (knownMembers fields members) saved v := by
  induction members with
  | nil =>
    intro saved v
    rfl
  | cons m rest ih =>
    intro saved v
    obtain ⟨key, j⟩ := m
    cases hf : findField fields key with
    | none =>
      have hk : knownMembers fields ((key, j) :: rest) = knownMembers fields rest := by
        simp [knownMembers, hf]
      rw [hk, decodeMembers]
      simp only [hf]
      exact ih saved v
    | some f =>
      have hk : knownMembers fields ((key, j) :: rest)
          = (key, j) :: knownMembers fields rest := by
        simp [knownMembers, hf]
      rw [hk, decodeMembers, decodeMembers]
      simp only [hf]
      split
      · rfl
      · exact ih _ _

/-- An object all of whose keys name no field leaves the struct as it was, and
no error. -/
theorem decodeMembers_unknown {α : Type} (structName : String) (fields : List (Field α))
    (ctx : ErrorContext) (members : List (String × Json))
    (h : ∀ m ∈ members, findField fields m.1 = none) (saved : Option GoError) (v : α) :
    decodeMembers structName fields ctx members saved v = ⟨v, saved, none⟩ := by
  have hk : knownMembers fields members = [] := by
    rw [knownMembers, List.filter_eq_nil_iff]
    intro m hm
    simp [h m hm]
  rw [decodeMembers_known, hk]
  rfl

theorem decodeStruct_withoutUnknown {α : Type} (typ structName : String)
    (fields : List (Field α)) (j j2 : Json) (h : withoutUnknown fields j j2)
    (ctx : ErrorContext) (saved : Option GoError) (v : α) :
    decodeStruct typ structName fields j ctx saved v
      = decodeStruct typ structName fields j2 ctx saved v := by
  cases j with
  | obj raw members =>
    cases j2 with
    | obj raw2 members2 =>
      have hm : members2 = knownMembers fields members := h
      rw [hm]
      exact decodeMembers_known structName fields ctx members saved v
    | null => exact absurd h id
    | bool b => exact absurd h id
    | num lit => exact absurd h id
    | str raw2 s => exact absurd h id
    | arr raw2 items => exact absurd h id
  | null =>
    have hj : j2 = .null := h
    rw [hj]
  | bool b =>
    have hj : j2 = .bool b := h
    rw [hj]
  | num lit =>
    have hj : j2 = .num lit := h
    rw [hj]
  | str raw s =>
    have hj : j2 = .str raw s := h
    rw [hj]
  | arr raw items =>
    have hj : j2 = .arr raw items := h
    rw [hj]

theorem decodeElements_rel {α : Type} (elem : Decoder α) (zero : α) (R : Json → Json → Prop)
    (hR : ∀ j j2, R j j2 → ∀ ctx saved v, elem j ctx saved v = elem j2 ctx saved v)
    (ctx : ErrorContext) (items items2 : List Json) (h : List.Forall₂ R items items2) :
    ∀ saved, decodeElements elem zero ctx items saved
      = decodeElements elem zero ctx items2 saved := by
  induction h with
  | nil =>
    intro saved
    rfl
  | cons hj _ ih =>
    intro saved
    simp only [decodeElements, hR _ _ hj ctx saved zero, ih]

/-- The elements of an array each of which leaves the zero value and no error
make a slice of zero values, and no error. -/
theorem decodeElements_zero {α : Type} (elem : Decoder α) (zero : α) (ctx : ErrorContext)
    (items : List Json)
    (h : ∀ j ∈ items, ∀ saved, elem j ctx saved zero = ⟨zero, saved, none⟩) :
    ∀ saved, decodeElements elem zero ctx items saved
      = ⟨items.map (fun _ => zero), saved, none⟩ := by
  induction items with
  | nil =>
    intro saved
    rfl
  | cons j js ih =>
    intro saved
    simp only [decodeElements, h j (List.mem_cons_self _ _) saved,
      ih (fun j hj => h j (List.mem_cons_of_mem _ hj)), List.map_cons]

/-- What holds of every element decoded alone holds of every element of the
slice decoded. -/
theorem decodeElements_all {α : Type} (elem : Decoder α) (zero : α) (Q : α → Prop)
    (ctx : ErrorContext) (items : List Json)
    (h : ∀ j ∈ items, ∀ saved, Q (elem j ctx saved zero).val) :
    ∀ saved, ∀ x ∈ (decodeElements elem zero ctx items saved).val, Q x := by
  induction items with
  | nil =>
    intro saved x hx
    simp [decodeElements] at hx
  | cons j js ih =>
    intro saved x hx
    have hj := h j (List.mem_cons_self _ _) saved
    simp only [decodeElements] at hx
    split at hx
    · rcases List.mem_singleton.mp hx with rfl
      exact hj
    · rcases List.mem_cons.mp hx with rfl | hx
      · exact hj
      · exact ih (fun j hj => h j (List.mem_cons_of_mem _ hj)) _ x hx

theorem json_Unmarshal_parsed {α : Type} (dec : Decoder α) (body : String) (j : Json) (v : α)
    (h : parseJSON body = .ok j) :
    json_Unmarshal dec body v
      = (match (dec j {} none v).err with
        | some e => ((dec j {} none v).val, some e)
        | none => ((dec j {} none v).val, (dec j {} none v).savedError)) := by
  simp only [json_Unmarshal, h]

theorem json_Unmarshal_congr {α : Type} (dec : Decoder α) (body body2 : String) (j j2 : Json)
    (v : α) (h : parseJSON body = .ok j) (h2 : parseJSON body2 = .ok j2)
    (hd : dec j {} none v = dec j2 {} none v) :
    json_Unmarshal dec body v = json_Unmarshal dec body2 v := by
  rw [json_Unmarshal_parsed dec body j v h, json_Unmarshal_parsed dec body2 j2 v h2, hd]

/-- A struct read from an object without its unknown keys is the struct read
from the object. -/
theorem json_Unmarshal_known {α : Type} (typ structName : String) (fields : List (Field α))
    (body body2 raw raw2 : String) (members : List (String × Json)) (v : α)
    (h : parseJSON body = .ok (.obj raw members))
    (h2 : parseJSON body2 = .ok (.obj raw2 (knownMembers fields members))) :
    json_Unmarshal (decodeStruct typ structName fields) body v
      = json_Unmarshal (decodeStruct typ structName fields) body2 v :=
  json_Unmarshal_congr _ body body2 _ _ v h h2
    (decodeMembers_known structName fields {} members none v)

/-- A slice of structs read from an array is the slice read from the array of
its elements without their unknown keys. -/
theorem json_Unmarshal_known_slice {α : Type} (styp typ structName : String)
    (fields : List (Field α)) (zero : α) (body body2 raw raw2 : String)
    (items items2 : List Json) (v : Option (List α))
    (h : parseJSON body = .ok (.arr raw items))
    (h2 : parseJSON body2 = .ok (.arr raw2 items2))
    (hrel : List.Forall₂ (withoutUnknown fields) items items2) :
    json_Unmarshal (decodeSlice styp (decodeStruct typ structName fields) zero) body v
      = json_Unmarshal (decodeSlice styp (decodeStruct typ structName fields) zero) body2 v := by
  refine json_Unmarshal_congr _ body body2 _ _ v h h2 ?_
  simp only [decodeSlice]
  rw [decodeElements_rel (decodeStruct typ structName fields) zero (withoutUnknown fields)
    (decodeStruct_withoutUnknown typ structName fields) {} items items2 hrel none]

/-- A slice read from an array of objects none of whose keys names a field is a
slice of zero values, one for each object, and the read returns no error. -/
theorem json_Unmarshal_unknown_slice {α : Type} (styp typ structName : String)
    (fields : List (Field α)) (zero : α) (body raw : String) (items : List Json)
    (v : Option (List α)) (h : parseJSON body = .ok (.arr raw items))
    (hu : ∀ j ∈ items, ∃ r ms, j = .obj r ms ∧ ∀ m ∈ ms, findField fields m.1 = none) :
    json_Unmarshal (decodeSlice styp (decodeStruct typ structName fields) zero) body v
      = (some (items.map (fun _ => zero)), none) := by
  rw [json_Unmarshal_parsed _ body _ v h]
  have hz := decodeElements_zero (decodeStruct typ structName fields) zero {} items
    (by
      intro j hj saved
      obtain ⟨r, ms, rfl, hms⟩ := hu j hj
      exact decodeMembers_unknown structName fields {} ms hms saved zero)
    none
  simp only [decodeSlice, hz]

/-- A JSON object cannot be read into a slice: the read leaves the slice as it
was and returns the type error of the decoder. -/
theorem json_Unmarshal_object_slice {α : Type} (styp : String) (elem : Decoder α) (zero : α)
    (body raw : String) (members : List (String × Json)) (v : Option (List α))
    (h : parseJSON body = .ok (.obj raw members)) :
    json_Unmarshal (decodeSlice styp elem zero) body v
      = (v, some (.UnmarshalTypeError "object" styp "" "")) := by
  rw [json_Unmarshal_parsed _ body _ v h]
  rfl

/-- A struct read from an object all of whose keys name no field is left as it
was, and the read returns no error. -/
theorem json_Unmarshal_unknown {α : Type} (typ structName : String) (fields : List (Field α))
    (body raw : String) (members : List (String × Json)) (v : α)
    (h : parseJSON body = .ok (.obj raw members))
    (hu : ∀ m ∈ members, findField fields m.1 = none) :
    json_Unmarshal (decodeStruct typ structName fields) body v = (v, none) := by
  rw [json_Unmarshal_parsed _ body _ v h]
  simp only [decodeStruct, decodeMembers_unknown structName fields {} members hu none v]

/-- A field that no key of the object names keeps the value it had. -/
theorem json_Unmarshal_absent {α β : Type} (typ structName : String) (fields : List (Field α))
    (get : α → β) (name : String)
    (hframe : ∀ f ∈ fields, f.name ≠ name →
      ∀ j ctx saved v, get (f.store j ctx saved v).val = get v)
    (body raw : String) (members : List (String × Json)) (v : α)
    (h : parseJSON body = .ok (.obj raw members))
    (hm : ∀ m ∈ members, ¬ namesField fields m.1 name) :
    get (json_Unmarshal (decodeStruct typ structName fields) body v).1 = get v := by
  rw [json_Unmarshal_parsed _ body _ v h]
  have hg := decodeMembers_frame structName fields get name hframe {} members hm none v
  simp only [decodeStruct]
  split <;> exact hg

/-- In a slice read from an array of objects none of which has a key naming the
field, the field of every element is the one of the zero value. -/
theorem json_Unmarshal_absent_slice {α β : Type} (styp typ structName : String)
    (fields : List (Field α)) (zero : α) (get : α → β) (name : String)
    (hframe : ∀ f ∈ fields, f.name ≠ name →
      ∀ j ctx saved v, get (f.store j ctx saved v).val = get v)
    (body raw : String) (items : List Json) (v : Option (List α))
    (h : parseJSON body = .ok (.arr raw items))
    (hm : ∀ j ∈ items, ∃ r ms, j = .obj r ms ∧ ∀ m ∈ ms, ¬ namesField fields m.1 name)
    (l : List α)
    (hl : (json_Unmarshal (decodeSlice styp (decodeStruct typ structName fields) zero)
      body v).1 = some l) :
    ∀ x ∈ l, get x = get zero := by
  rw [json_Unmarshal_parsed _ body _ v h] at hl
  have hall := decodeElements_all (decodeStruct typ structName fields) zero
    (fun x => get x = get zero) {} items
    (by
      intro j hj saved
      obtain ⟨r, ms, rfl, hms⟩ := hm j hj
      exact decodeMembers_frame structName fields get name hframe {} ms hms saved zero)
    none
  simp only [decodeSlice] at hl
  split at hl
  · simp only [Option.some.injEq] at hl
    rw [← hl]
    exact hall
  · simp only [Option.some.injEq] at hl
    rw [← hl]
    exact hall

theorem Currency_declared_frame (kg : String × (Currency → FieldValue))
    (hkg : kg ∈ Currency.declared) (f : Field Currency) (hf : f ∈ Currency.fields)
    (hne : f.name ≠ kg.1) (j : Json) (ctx : ErrorContext) (saved : Option GoError) (v : Currency) :
    kg.2 (f.store j ctx saved v).val = kg.2 v := by
  simp only [Currency.declared, List.mem_cons, List.mem_singleton, List.not_mem_nil,
    or_false] at hkg
  simp only [Currency.fields, List.mem_cons, List.mem_singleton, List.not_mem_nil,
    or_false] at hf
  rcases hkg with rfl | rfl | rfl | rfl | rfl | rfl | rfl | rfl | rfl | rfl <;>
  rcases hf with rfl | rfl | rfl | rfl | rfl | rfl | rfl | rfl | rfl | rfl <;>
  first
    | rfl
    | exact absurd rfl hne

theorem Balance_declared_frame (kg : String × (Balance → FieldValue))
    (hkg : kg ∈ Balance.declared) (f : Field Balance) (hf : f ∈ Balance.fields)
    (hne : f.name ≠ kg.1) (j : Json) (ctx : ErrorContext) (saved : Option GoError) (v : Balance) :
    kg.2 (f.store j ctx saved v).val = kg.2 v := by
  simp only [Balance.declared, List.mem_cons, List.mem_singleton, List.not_mem_nil,
    or_false] at hkg
  simp only [Balance.fields, List.mem_cons, List.mem_singleton, List.not_mem_nil,
    or_false] at hf
  rcases hkg with rfl | rfl | rfl | rfl <;>
  rcases hf with rfl | rfl | rfl | rfl <;>
  first
    | rfl
    | exact absurd rfl hne

theorem Market_declared_frame (kg : String × (Market → FieldValue))
    (hkg : kg ∈ Market.declared) (f : Field Market) (hf : f ∈ Market.fields)
    (hne : f.name ≠ kg.1) (j : Json) (ctx : ErrorContext) (saved : Option GoError) (v : Market) :
    kg.2 (f.store j ctx saved v).val = kg.2 v := by
  simp only [Market.declared, List.mem_cons, List.mem_singleton, List.not_mem_nil,
    or_false] at hkg
  simp only [Market.fields, List.mem_cons, List.mem_singleton, List.not_mem_nil,
    or_false] at hf
  rcases hkg with rfl | rfl | rfl | rfl | rfl | rfl | rfl | rfl | rfl <;>
  rcases hf with rfl | rfl | rfl | rfl | rfl | rfl | rfl | rfl | rfl <;>
  first
    | rfl
    | exact absurd rfl hne

theorem MarketSummary_declared_frame (kg : String × (MarketSummary → FieldValue))
    (hkg : kg ∈ MarketSummary.declared) (f : Field MarketSummary) (hf : f ∈ MarketSummary.fields)
    (hne : f.name ≠ kg.1) (j : Json) (ctx : ErrorContext) (saved : Option GoError) (v : MarketSummary) :
    kg.2 (f.store j ctx saved v).val = kg.2 v := by
  simp only [MarketSummary.declared, List.mem_cons, List.mem_singleton, List.not_mem_nil,
    or_false] at hkg
  simp only [MarketSummary.fields, List.mem_cons, List.mem_singleton, List.not_mem_nil,
    or_false] at hf
  rcases hkg with rfl | rfl | rfl | rfl | rfl | rfl | rfl <;>
  rcases hf with rfl | rfl | rfl | rfl | rfl | rfl | rfl <;>
  first
    | rfl
    | exact absurd rfl hne

theorem MarketTicker_declared_frame (kg : String × (MarketTicker → FieldValue))
    (hkg : kg ∈ MarketTicker.declared) (f : Field MarketTicker) (hf : f ∈ MarketTicker.fields)
    (hne : f.name ≠ kg.1) (j : Json) (ctx : ErrorContext) (saved : Option GoError) (v : MarketTicker) :
    kg.2 (f.store j ctx saved v).val = kg.2 v := by
  simp only [MarketTicker.declared, List.mem_cons, List.mem_singleton, List.not_mem_nil,
    or_false] at hkg
  simp only [MarketTicker.fields, List.mem_cons, List.mem_singleton, List.not_mem_nil,
    or_false] at hf
  rcases hkg with rfl | rfl | rfl | rfl <;>
  rcases hf with rfl | rfl | rfl | rfl <;>
  first
    | rfl
    | exact absurd rfl hne

theorem Order_declared_frame (kg : String × (Order → FieldValue))
    (hkg : kg ∈ Order.declared) (f : Field Order) (hf : f ∈ Order.fields)
    (hne : f.name ≠ kg.1) (j : Json) (ctx : ErrorContext) (saved : Option GoError) (v : Order) :
    kg.2 (f.store j ctx saved v).val = kg.2 v := by
  simp only [Order.declared, List.mem_cons, List.mem_singleton, List.not_mem_nil,
    or_false] at hkg
  simp only [Order.fields, List.mem_cons, List.mem_singleton, List.not_mem_nil,
    or_false] at hf
  rcases hkg with rfl | rfl | rfl | rfl | rfl | rfl | rfl | rfl | rfl | rfl | rfl | rfl | rfl | rfl | rfl | rfl | rfl | rfl | rfl <;>
  rcases hf with rfl | rfl | rfl | rfl | rfl | rfl | rfl | rfl | rfl | rfl | rfl | rfl | rfl | rfl | rfl | rfl | rfl | rfl | rfl <;>
  first
    | rfl
    | exact absurd rfl hne

theorem GetMarket_known {σ τ : Type} (this : BittrexAPI σ) (w : World σ) (that : BittrexAPI τ)
    (w2 : World τ) (symbol symbol2 body body2 raw raw2 : String) (members : List (String × Json))
    (h : (this.client.Do "GET" (this.uri ++ "/markets/" ++ symbol) "" false w.state).1 = (body, none))
    (h2 : (that.client.Do "GET" (that.uri ++ "/markets/" ++ symbol2) "" false w2.state).1 = (body2, none))
    (hp : parseJSON body = .ok (.obj raw members))
    (hp2 : parseJSON body2 = .ok (.obj raw2 (knownMembers Market.fields members))) :
    (this.GetMarket symbol w).1 = (that.GetMarket symbol2 w2).1 := by
  have hu : json_Unmarshal decodeMarket body {} = json_Unmarshal decodeMarket body2 {} :=
    json_Unmarshal_known "bittrex.Market" "Market" Market.fields body body2 raw raw2 members {} hp hp2
  cases he : (json_Unmarshal decodeMarket body {}).2 with
  | some err =>
    rw [GetMarket_undecodable this symbol w body err h he,
      GetMarket_undecodable that symbol2 w2 body2 err h2 (hu ▸ he)]
  | none =>
    rw [GetMarket_decoded this symbol w body h he, GetMarket_decoded that symbol2 w2 body2 h2 (hu ▸ he), hu]

theorem GetMarket_absent (kg : String × (Market → FieldValue)) (hkg : kg ∈ Market.declared)
    {σ : Type} (this : BittrexAPI σ) (w : World σ) (symbol body raw : String)
    (members : List (String × Json))
    (h : (this.client.Do "GET" (this.uri ++ "/markets/" ++ symbol) "" false w.state).1 = (body, none))
    (hp : parseJSON body = .ok (.obj raw members))
    (hm : ∀ m ∈ members, ¬ namesField Market.fields m.1 kg.1) :
    kg.2 (this.GetMarket symbol w).1.1 = kg.2 {} := by
  cases he : (json_Unmarshal decodeMarket body {}).2 with
  | some err => rw [GetMarket_undecodable this symbol w body err h he]
  | none =>
    rw [GetMarket_decoded this symbol w body h he]
    exact json_Unmarshal_absent "bittrex.Market" "Market" Market.fields kg.2 kg.1
      (Market_declared_frame kg hkg) body raw members {} hp hm

theorem GetMarket_unknown {σ : Type} (this : BittrexAPI σ) (w : World σ) (symbol body raw : String)
    (members : List (String × Json))
    (h : (this.client.Do "GET" (this.uri ++ "/markets/" ++ symbol) "" false w.state).1 = (body, none))
    (hp : parseJSON body = .ok (.obj raw members))
    (hu : ∀ m ∈ members, findField Market.fields m.1 = none) :
    (this.GetMarket symbol w).1 = ({}, none) := by
  have hj := json_Unmarshal_unknown "bittrex.Market" "Market" Market.fields body raw members {} hp hu
  rw [GetMarket_decoded this symbol w body h (by rw [show json_Unmarshal decodeMarket body {} = _ from hj]),
    show json_Unmarshal decodeMarket body {} = _ from hj]

theorem GetMarkets_known {σ τ : Type} (this : BittrexAPI σ) (w : World σ) (that : BittrexAPI τ)
    (w2 : World τ) (body body2 raw raw2 : String) (items items2 : List Json)
    (h : (this.client.Do "GET" (this.uri ++ "/markets") "" false w.state).1 = (body, none))
    (h2 : (that.client.Do "GET" (that.uri ++ "/markets") "" false w2.state).1 = (body2, none))
    (hp : parseJSON body = .ok (.arr raw items))
    (hp2 : parseJSON body2 = .ok (.arr raw2 items2))
    (hrel : List.Forall₂ (withoutUnknown Market.fields) items items2) :
    (this.GetMarkets w).1 = (that.GetMarkets w2).1 := by
  have hu : json_Unmarshal (decodeSlice "[]bittrex.Market" decodeMarket {}) body none = json_Unmarshal (decodeSlice "[]bittrex.Market" decodeMarket {}) body2 none :=
    json_Unmarshal_known_slice "[]bittrex.Market" "bittrex.Market" "Market" Market.fields {} body body2
      raw raw2 items items2 none hp hp2 hrel
  cases he : (json_Unmarshal (decodeSlice "[]bittrex.Market" decodeMarket {}) body none).2 with
  | some err =>
    rw [GetMarkets_undecodable this w body err h he,
      GetMarkets_undecodable that w2 body2 err h2 (hu ▸ he)]
  | none =>
    rw [GetMarkets_decoded this w body h he, GetMarkets_decoded that w2 body2 h2 (hu ▸ he), hu]

theorem GetMarkets_absent (kg : String × (Market → FieldValue)) (hkg : kg ∈ Market.declared)
    {σ : Type} (this : BittrexAPI σ) (w : World σ) (body raw : String)
    (items : List Json)
    (h : (this.client.Do "GET" (this.uri ++ "/markets") "" false w.state).1 = (body, none))
    (hp : parseJSON body = .ok (.arr raw items))
    (hm : ∀ j ∈ items, ∃ r ms, j = .obj r ms ∧ ∀ m ∈ ms, ¬ namesField Market.fields m.1 kg.1)
    (l : List Market) (hl : (this.GetMarkets w).1.1 = some l) :
    ∀ x ∈ l, kg.2 x = kg.2 {} := by
  cases he : (json_Unmarshal (decodeSlice "[]bittrex.Market" decodeMarket {}) body none).2 with
  | some err =>
    rw [GetMarkets_undecodable this w body err h he] at hl
    simp at hl
  | none =>
    rw [GetMarkets_decoded this w body h he] at hl
    exact json_Unmarshal_absent_slice "[]bittrex.Market" "bittrex.Market" "Market" Market.fields {} kg.2
      kg.1 (Market_declared_frame kg hkg) body raw items none hp hm l hl

theorem GetMarkets_unknown {σ : Type} (this : BittrexAPI σ) (w : World σ) (body raw : String)
    (items : List Json)
    (h : (this.client.Do "GET" (this.uri ++ "/markets") "" false w.state).1 = (body, none))
    (hp : parseJSON body = .ok (.arr raw items))
    (hu : ∀ j ∈ items, ∃ r ms, j = .obj r ms ∧ ∀ m ∈ ms, findField Market.fields m.1 = none) :
    (this.GetMarkets w).1 = (some (items.map (fun _ => {})), none) := by
  have hj := json_Unmarshal_unknown_slice "[]bittrex.Market" "bittrex.Market" "Market" Market.fields {}
    body raw items none hp hu
  rw [GetMarkets_decoded this w body h (by rw [show json_Unmarshal (decodeSlice "[]bittrex.Market" decodeMarket {}) body none = _ from hj]),
    show json_Unmarshal (decodeSlice "[]bittrex.Market" decodeMarket {}) body none = _ from hj]

theorem GetMarkets_object {σ : Type} (this : BittrexAPI σ) (w : World σ) (body raw : String)
    (members : List (String × Json))
    (h : (this.client.Do "GET" (this.uri ++ "/markets") "" false w.state).1 = (body, none))
    (hp : parseJSON body = .ok (.obj raw members)) :
    (this.GetMarkets w).1
      = (none, some (.UnmarshalTypeError "object" "[]bittrex.Market" "" "")) := by
  have hj := json_Unmarshal_object_slice "[]bittrex.Market" decodeMarket {} body raw members none hp
  exact GetMarkets_undecodable this w body _ h
    (by rw [show json_Unmarshal (decodeSlice "[]bittrex.Market" decodeMarket {}) body none = _ from hj])

theorem GetMarketSummary_known {σ τ : Type} (this : BittrexAPI σ) (w : World σ) (that : BittrexAPI τ)
    (w2 : World τ) (symbol symbol2 body body2 raw raw2 : String) (members : List (String × Json))
    (h : (this.client.Do "GET" (this.uri ++ "/markets/" ++ symbol ++ "/summary") "" false w.state).1 = (body, none))
    (h2 : (that.client.Do "GET" (that.uri ++ "/markets/" ++ symbol2 ++ "/summary") "" false w2.state).1 = (body2, none))
    (hp : parseJSON body = .ok (.obj raw members))
    (hp2 : parseJSON body2 = .ok (.obj raw2 (knownMembers MarketSummary.fields members))) :
    (this.GetMarketSummary symbol w).1 = (that.GetMarketSummary symbol2 w2).1 := by
  have hu : json_Unmarshal decodeMarketSummary body {} = json_Unmarshal decodeMarketSummary body2 {} :=
    json_Unmarshal_known "bittrex.MarketSummary" "MarketSummary" MarketSummary.fields body body2 raw raw2 members {} hp hp2
  cases he : (json_Unmarshal decodeMarketSummary body {}).2 with
  | some err =>
    rw [GetMarketSummary_undecodable this symbol w body err h he,
      GetMarketSummary_undecodable that symbol2 w2 body2 err h2 (hu ▸ he)]
  | none =>
    rw [GetMarketSummary_decoded this symbol w body h he, GetMarketSummary_decoded that symbol2 w2 body2 h2 (hu ▸ he), hu]

theorem GetMarketSummary_absent (kg : String × (MarketSummary → FieldValue)) (hkg : kg ∈ MarketSummary.declared)
    {σ : Type} (this : BittrexAPI σ) (w : World σ) (symbol body raw : String)
    (members : List (String × Json))
    (h : (this.client.Do "GET" (this.uri ++ "/markets/" ++ symbol ++ "/summary") "" false w.state).1 = (body, none))
    (hp : parseJSON body = .ok (.obj raw members))
    (hm : ∀ m ∈ members, ¬ namesField MarketSummary.fields m.1 kg.1) :
    kg.2 (this.GetMarketSummary symbol w).1.1 = kg.2 {} := by
  cases he : (json_Unmarshal decodeMarketSummary body {}).2 with
  | some err => rw [GetMarketSummary_undecodable this symbol w body err h he]
  | none =>
    rw [GetMarketSummary_decoded this symbol w body h he]
    exact json_Unmarshal_absent "bittrex.MarketSummary" "MarketSummary" MarketSummary.fields kg.2 kg.1
      (MarketSummary_declared_frame kg hkg) body raw members {} hp hm

theorem GetMarketSummary_unknown {σ : Type} (this : BittrexAPI σ) (w : World σ) (symbol body raw : String)
    (members : List (String × Json))
    (h : (this.client.Do "GET" (this.uri ++ "/markets/" ++ symbol ++ "/summary") "" false w.state).1 = (body, none))
    (hp : parseJSON body = .ok (.obj raw members))
    (hu : ∀ m ∈ members, findField MarketSummary.fields m.1 = none) :
    (this.GetMarketSummary symbol w).1 = ({}, none) := by
  have hj := json_Unmarshal_unknown "bittrex.MarketSummary" "MarketSummary" MarketSummary.fields body raw members {} hp hu
  rw [GetMarketSummary_decoded this symbol w body h (by rw [show json_Unmarshal decodeMarketSummary body {} = _ from hj]),
    show json_Unmarshal decodeMarketSummary body {} = _ from hj]

theorem GetMarketSummaries_known {σ τ : Type} (this : BittrexAPI σ) (w : World σ) (that : BittrexAPI τ)
    (w2 : World τ) (body body2 raw raw2 : String) (items items2 : List Json)
    (h : (this.client.Do "GET" (this.uri ++ "/markets/summaries") "" false w.state).1 = (body, none))
    (h2 : (that.client.Do "GET" (that.uri ++ "/markets/summaries") "" false w2.state).1 = (body2, none))
    (hp : parseJSON body = .ok (.arr raw items))
    (hp2 : parseJSON body2 = .ok (.arr raw2 items2))
    (hrel : List.Forall₂ (withoutUnknown MarketSummary.fields) items items2) :
    (this.GetMarketSummaries w).1 = (that.GetMarketSummaries w2).1 := by
  have hu : json_Unmarshal (decodeSlice "[]bittrex.MarketSummary" decodeMarketSummary {}) body none = json_Unmarshal (decodeSlice "[]bittrex.MarketSummary" decodeMarketSummary {}) body2 none :=
    json_Unmarshal_known_slice "[]bittrex.MarketSummary" "bittrex.MarketSummary" "MarketSummary" MarketSummary.fields {} body body2
      raw raw2 items items2 none hp hp2 hrel
  cases he : (json_Unmarshal (decodeSlice "[]bittrex.MarketSummary" decodeMarketSummary {}) body none).2 with
  | some err =>
    rw [GetMarketSummaries_undecodable this w body err h he,
      GetMarketSummaries_undecodable that w2 body2 err h2 (hu ▸ he)]
  | none =>
    rw [GetMarketSummaries_decoded this w body h he, GetMarketSummaries_decoded that w2 body2 h2 (hu ▸ he), hu]

theorem GetMarketSummaries_absent (kg : String × (MarketSummary → FieldValue)) (hkg : kg ∈ MarketSummary.declared)
    {σ : Type} (this : BittrexAPI σ) (w : World σ) (body raw : String)
    (items : List Json)
    (h : (this.client.Do "GET" (this.uri ++ "/markets/summaries") "" false w.state).1 = (body, none))
    (hp : parseJSON body = .ok (.arr raw items))
    (hm : ∀ j ∈ items, ∃ r ms, j = .obj r ms ∧ ∀ m ∈ ms, ¬ namesField MarketSummary.fields m.1 kg.1)
    (l : List MarketSummary) (hl : (this.GetMarketSummaries w).1.1 = some l) :
    ∀ x ∈ l, kg.2 x = kg.2 {} := by
  cases he : (json_Unmarshal (decodeSlice "[]bittrex.MarketSummary" decodeMarketSummary {}) body none).2 with
  | some err =>
    rw [GetMarketSummaries_undecodable this w body err h he] at hl
    simp at hl
  | none =>
    rw [GetMarketSummaries_decoded this w body h he] at hl
    exact json_Unmarshal_absent_slice "[]bittrex.MarketSummary" "bittrex.MarketSummary" "MarketSummary" MarketSummary.fields {} kg.2
      kg.1 (MarketSummary_declared_frame kg hkg) body raw items none hp hm l hl

theorem GetMarketSummaries_unknown {σ : Type} (this : BittrexAPI σ) (w : World σ) (body raw : String)
    (items : List Json)
    (h : (this.client.Do "GET" (this.uri ++ "/markets/summaries") "" false w.state).1 = (body, none))
    (hp : parseJSON body = .ok (.arr raw items))
    (hu : ∀ j ∈ items, ∃ r ms, j = .obj r ms ∧ ∀ m ∈ ms, findField MarketSummary.fields m.1 = none) :
    (this.GetMarketSummaries w).1 = (some (items.map (fun _ => {})), none) := by
  have hj := json_Unmarshal_unknown_slice "[]bittrex.MarketSummary" "bittrex.MarketSummary" "MarketSummary" MarketSummary.fields {}
    body raw items none hp hu
  rw [GetMarketSummaries_decoded this w body h (by rw [show json_Unmarshal (decodeSlice "[]bittrex.MarketSummary" decodeMarketSummary {}) body none = _ from hj]),
    show json_Unmarshal (decodeSlice "[]bittrex.MarketSummary" decodeMarketSummary {}) body none = _ from hj]

theorem GetMarketSummaries_object {σ : Type} (this : BittrexAPI σ) (w : World σ) (body raw : String)
    (members : List (String × Json))
    (h : (this.client.Do "GET" (this.uri ++ "/markets/summaries") "" false w.state).1 = (body, none))
    (hp : parseJSON body = .ok (.obj raw members)) :
    (this.GetMarketSummaries w).1
      = (none, some (.UnmarshalTypeError "object" "[]bittrex.MarketSummary" "" "")) := by
  have hj := json_Unmarshal_object_slice "[]bittrex.MarketSummary" decodeMarketSummary {} body raw members none hp
  exact GetMarketSummaries_undecodable this w body _ h
    (by rw [show json_Unmarshal (decodeSlice "[]bittrex.MarketSummary" decodeMarketSummary {}) body none = _ from hj])

theorem GetMarketTicker_known {σ τ : Type} (this : BittrexAPI σ) (w : World σ) (that : BittrexAPI τ)
    (w2 : World τ) (symbol symbol2 body body2 raw raw2 : String) (members : List (String × Json))
    (h : (this.client.Do "GET" (this.uri ++ "/markets/" ++ symbol ++ "/ticker") "" false w.state).1 = (body, none))
    (h2 : (that.client.Do "GET" (that.uri ++ "/markets/" ++ symbol2 ++ "/ticker") "" false w2.state).1 = (body2, none))
    (hp : parseJSON body = .ok (.obj raw members))
    (hp2 : parseJSON body2 = .ok (.obj raw2 (knownMembers MarketTicker.fields members))) :
    (this.GetMarketTicker symbol w).1 = (that.GetMarketTicker symbol2 w2).1 := by
  have hu : json_Unmarshal decodeMarketTicker body {} = json_Unmarshal decodeMarketTicker body2 {} :=
    json_Unmarshal_known "bittrex.MarketTicker" "MarketTicker" MarketTicker.fields body body2 raw raw2 members {} hp hp2
  cases he : (json_Unmarshal decodeMarketTicker body {}).2 with
  | some err =>
    rw [GetMarketTicker_undecodable this symbol w body err h he,
      GetMarketTicker_undecodable that symbol2 w2 body2 err h2 (hu ▸ he)]
  | none =>
    rw [GetMarketTicker_decoded this symbol w body h he, GetMarketTicker_decoded that symbol2 w2 body2 h2 (hu ▸ he), hu]

theorem GetMarketTicker_absent (kg : String × (MarketTicker → FieldValue)) (hkg : kg ∈ MarketTicker.declared)
    {σ : Type} (this : BittrexAPI σ) (w : World σ) (symbol body raw : String)
    (members : List (String × Json))
    (h : (this.client.Do "GET" (this.uri ++ "/markets/" ++ symbol ++ "/ticker") "" false w.state).1 = (body, none))
    (hp : parseJSON body = .ok (.obj raw members))
    (hm : ∀ m ∈ members, ¬ namesField MarketTicker.fields m.1 kg.1) :
    kg.2 (this.GetMarketTicker symbol w).1.1 = kg.2 {} := by
  cases he : (json_Unmarshal decodeMarketTicker body {}).2 with
  | some err => rw [GetMarketTicker_undecodable this symbol w body err h he]
  | none =>
    rw [GetMarketTicker_decoded this symbol w body h he]
    exact json_Unmarshal_absent "bittrex.MarketTicker" "MarketTicker" MarketTicker.fields kg.2 kg.1
      (MarketTicker_declared_frame kg hkg) body raw members {} hp hm

theorem GetMarketTicker_unknown {σ : Type} (this : BittrexAPI σ) (w : World σ) (symbol body raw : String)
    (members : List (String × Json))
    (h : (this.client.Do "GET" (this.uri ++ "/markets/" ++ symbol ++ "/ticker") "" false w.state).1 = (body, none))
    (hp : parseJSON body = .ok (.obj raw members))
    (hu : ∀ m ∈ members, findField MarketTicker.fields m.1 = none) :
    (this.GetMarketTicker symbol w).1 = ({}, none) := by
  have hj := json_Unmarshal_unknown "bittrex.MarketTicker" "MarketTicker" MarketTicker.fields body raw members {} hp hu
  rw [GetMarketTicker_decoded this symbol w body h (by rw [show json_Unmarshal decodeMarketTicker body {} = _ from hj]),
    show json_Unmarshal decodeMarketTicker body {} = _ from hj]

theorem GetMarketTickers_known {σ τ : Type} (this : BittrexAPI σ) (w : World σ) (that : BittrexAPI τ)
    (w2 : World τ) (body body2 raw raw2 : String) (items items2 : List Json)
    (h : (this.client.Do "GET" (this.uri ++ "/markets/tickers") "" false w.state).1 = (body, none))
    (h2 : (that.client.Do "GET" (that.uri ++ "/markets/tickers") "" false w2.state).1 = (body2, none))
    (hp : parseJSON body = .ok (.arr raw items))
    (hp2 : parseJSON body2 = .ok (.arr raw2 items2))
    (hrel : List.Forall₂ (withoutUnknown MarketTicker.fields) items items2) :
    (this.GetMarketTickers w).1 = (that.GetMarketTickers w2).1 := by
  have hu : json_Unmarshal (decodeSlice "[]bittrex.MarketTicker" decodeMarketTicker {}) body none = json_Unmarshal (decodeSlice "[]bittrex.MarketTicker" decodeMarketTicker {}) body2 none :=
    json_Unmarshal_known_slice "[]bittrex.MarketTicker" "bittrex.MarketTicker" "MarketTicker" MarketTicker.fields {} body body2
      raw raw2 items items2 none hp hp2 hrel
  cases he : (json_Unmarshal (decodeSlice "[]bittrex.MarketTicker" decodeMarketTicker {}) body none).2 with
  | some err =>
    rw [GetMarketTickers_undecodable this w body err h he,
      GetMarketTickers_undecodable that w2 body2 err h2 (hu ▸ he)]
  | none =>
    rw [GetMarketTickers_decoded this w body h he, GetMarketTickers_decoded that w2 body2 h2 (hu ▸ he), hu]

theorem GetMarketTickers_absent (kg : String × (MarketTicker → FieldValue)) (hkg : kg ∈ MarketTicker.declared)
    {σ : Type} (this : BittrexAPI σ) (w : World σ) (body raw : String)
    (items : List Json)
    (h : (this.client.Do "GET" (this.uri ++ "/markets/tickers") "" false w.state).1 = (body, none))
    (hp : parseJSON body = .ok (.arr raw items))
    (hm : ∀ j ∈ items, ∃ r ms, j = .obj r ms ∧ ∀ m ∈ ms, ¬ namesField MarketTicker.fields m.1 kg.1)
    (l : List MarketTicker) (hl : (this.GetMarketTickers w).1.1 = some l) :
    ∀ x ∈ l, kg.2 x = kg.2 {} := by
  cases he : (json_Unmarshal (decodeSlice "[]bittrex.MarketTicker" decodeMarketTicker {}) body none).2 with
  | some err =>
    rw [GetMarketTickers_undecodable this w body err h he] at hl
    simp at hl
  | none =>
    rw [GetMarketTickers_decoded this w body h he] at hl
    exact json_Unmarshal_absent_slice "[]bittrex.MarketTicker" "bittrex.MarketTicker" "MarketTicker" MarketTicker.fields {} kg.2
      kg.1 (MarketTicker_declared_frame kg hkg) body raw items none hp hm l hl

theorem GetMarketTickers_unknown {σ : Type} (this : BittrexAPI σ) (w : World σ) (body raw : String)
    (items : List Json)
    (h : (this.client.Do "GET" (this.uri ++ "/markets/tickers") "" false w.state).1 = (body, none))
    (hp : parseJSON body = .ok (.arr raw items))
    (hu : ∀ j ∈ items, ∃ r ms, j = .obj r ms ∧ ∀ m ∈ ms, findField MarketTicker.fields m.1 = none) :
    (this.GetMarketTickers w).1 = (some (items.map (fun _ => {})), none) := by
  have hj := json_Unmarshal_unknown_slice "[]bittrex.MarketTicker" "bittrex.MarketTicker" "MarketTicker" MarketTicker.fields {}
    body raw items none hp hu
  rw [GetMarketTickers_decoded this w body h (by rw [show json_Unmarshal (decodeSlice "[]bittrex.MarketTicker" decodeMarketTicker {}) body none = _ from hj]),
    show json_Unmarshal (decodeSlice "[]bittrex.MarketTicker" decodeMarketTicker {}) body none = _ from hj]

theorem GetMarketTickers_object {σ : Type} (this : BittrexAPI σ) (w : World σ) (body raw : String)
    (members : List (String × Json))
    (h : (this.client.Do "GET" (this.uri ++ "/markets/tickers") "" false w.state).1 = (body, none))
    (hp : parseJSON body = .ok (.obj raw members)) :
    (this.GetMarketTickers w).1
      = (none, some (.UnmarshalTypeError "object" "[]bittrex.MarketTicker" "" "")) := by
  have hj := json_Unmarshal_object_slice "[]bittrex.MarketTicker" decodeMarketTicker {} body raw members none hp
  exact GetMarketTickers_undecodable this w body _ h
    (by rw [show json_Unmarshal (decodeSlice "[]bittrex.MarketTicker" decodeMarketTicker {}) body none = _ from hj])

theorem GetCurrency_known {σ τ : Type} (this : BittrexAPI σ) (w : World σ) (that : BittrexAPI τ)
    (w2 : World τ) (symbol symbol2 body body2 raw raw2 : String) (members : List (String × Json))
    (h : (this.client.Do "GET" (this.uri ++ "/currencies/" ++ symbol) "" false w.state).1 = (body, none))
    (h2 : (that.client.Do "GET" (that.uri ++ "/currencies/" ++ symbol2) "" false w2.state).1 = (body2, none))
    (hp : parseJSON body = .ok (.obj raw members))
    (hp2 : parseJSON body2 = .ok (.obj raw2 (knownMembers Currency.fields members))) :
    (this.GetCurrency symbol w).1 = (that.GetCurrency symbol2 w2).1 := by
  have hu : json_Unmarshal decodeCurrency body {} = json_Unmarshal decodeCurrency body2 {} :=
    json_Unmarshal_known "bittrex.Currency" "Currency" Currency.fields body body2 raw raw2 members {} hp hp2
  cases he : (json_Unmarshal decodeCurrency body {}).2 with
  | some err =>
    rw [GetCurrency_undecodable this symbol w body err h he,
      GetCurrency_undecodable that symbol2 w2 body2 err h2 (hu ▸ he)]
  | none =>
    rw [GetCurrency_decoded this symbol w body h he, GetCurrency_decoded that symbol2 w2 body2 h2 (hu ▸ he), hu]

theorem GetCurrency_absent (kg : String × (Currency → FieldValue)) (hkg : kg ∈ Currency.declared)
    {σ : Type} (this : BittrexAPI σ) (w : World σ) (symbol body raw : String)
    (members : List (String × Json))
    (h : (this.client.Do "GET" (this.uri ++ "/currencies/" ++ symbol) "" false w.state).1 = (body, none))
    (hp : parseJSON body = .ok (.obj raw members))
    (hm : ∀ m ∈ members, ¬ namesField Currency.fields m.1 kg.1) :
    kg.2 (this.GetCurrency symbol w).1.1 = kg.2 {} := by
  cases he : (json_Unmarshal decodeCurrency body {}).2 with
  | some err => rw [GetCurrency_undecodable this symbol w body err h he]
  | none =>
    rw [GetCurrency_decoded this symbol w body h he]
    exact json_Unmarshal_absent "bittrex.Currency" "Currency" Currency.fields kg.2 kg.1
      (Currency_declared_frame kg hkg) body raw members {} hp hm

theorem GetCurrency_unknown {σ : Type} (this : BittrexAPI σ) (w : World σ) (symbol body raw : String)
    (members : List (String × Json))
    (h : (this.client.Do "GET" (this.uri ++ "/currencies/" ++ symbol) "" false w.state).1 = (body, none))
    (hp : parseJSON body = .ok (.obj raw members))
    (hu : ∀ m ∈ members, findField Currency.fields m.1 = none) :
    (this.GetCurrency symbol w).1 = ({}, none) := by
  have hj := json_Unmarshal_unknown "bittrex.Currency" "Currency" Currency.fields body raw members {} hp hu
  rw [GetCurrency_decoded this symbol w body h (by rw [show json_Unmarshal decodeCurrency body {} = _ from hj]),
    show json_Unmarshal decodeCurrency body {} = _ from hj]

theorem GetBalances_known {σ τ : Type} (this : BittrexAPI σ) (w : World σ) (that : BittrexAPI τ)
    (w2 : World τ) (body body2 raw raw2 : String) (items items2 : List Json)
    (h : (this.client.Do "GET" (this.uri ++ "/balances") "" true w.state).1 = (body, none))
    (h2 : (that.client.Do "GET" (that.uri ++ "/balances") "" true w2.state).1 = (body2, none))
    (hp : parseJSON body = .ok (.arr raw items))
    (hp2 : parseJSON body2 = .ok (.arr raw2 items2))
    (hrel : List.Forall₂ (withoutUnknown Balance.fields) items items2) :
    (this.GetBalances w).1 = (that.GetBalances w2).1 := by
  have hu : json_Unmarshal (decodeSlice "[]bittrex.Balance" decodeBalance {}) body none = json_Unmarshal (decodeSlice "[]bittrex.Balance" decodeBalance {}) body2 none :=
    json_Unmarshal_known_slice "[]bittrex.Balance" "bittrex.Balance" "Balance" Balance.fields {} body body2
      raw raw2 items items2 none hp hp2 hrel
  cases he : (json_Unmarshal (decodeSlice "[]bittrex.Balance" decodeBalance {}) body none).2 with
  | some err =>
    rw [GetBalances_undecodable this w body err h he,
      GetBalances_undecodable that w2 body2 err h2 (hu ▸ he)]
  | none =>
    rw [GetBalances_decoded this w body h he, GetBalances_decoded that w2 body2 h2 (hu ▸ he), hu]

theorem GetBalances_absent (kg : String × (Balance → FieldValue)) (hkg : kg ∈ Balance.declared)
    {σ : Type} (this : BittrexAPI σ) (w : World σ) (body raw : String)
    (items : List Json)
    (h : (this.client.Do "GET" (this.uri ++ "/balances") "" true w.state).1 = (body, none))
    (hp : parseJSON body = .ok (.arr raw items))
    (hm : ∀ j ∈ items, ∃ r ms, j = .obj r ms ∧ ∀ m ∈ ms, ¬ namesField Balance.fields m.1 kg.1)
    (l : List Balance) (hl : (this.GetBalances w).1.1 = some l) :
    ∀ x ∈ l, kg.2 x = kg.2 {} := by
  cases he : (json_Unmarshal (decodeSlice "[]bittrex.Balance" decodeBalance {}) body none).2 with
  | some err =>
    rw [GetBalances_undecodable this w body err h he] at hl
    simp at hl
  | none =>
    rw [GetBalances_decoded this w body h he] at hl
    exact json_Unmarshal_absent_slice "[]bittrex.Balance" "bittrex.Balance" "Balance" Balance.fields {} kg.2
      kg.1 (Balance_declared_frame kg hkg) body raw items none hp hm l hl

theorem GetBalances_unknown {σ : Type} (this : BittrexAPI σ) (w : World σ) (body raw : String)
    (items : List Json)
    (h : (this.client.Do "GET" (this.uri ++ "/balances") "" true w.state).1 = (body, none))
    (hp : parseJSON body = .ok (.arr raw items))
    (hu : ∀ j ∈ items, ∃ r ms, j = .obj r ms ∧ ∀ m ∈ ms, findField Balance.fields m.1 = none) :
    (this.GetBalances w).1 = (some (items.map (fun _ => {})), none) := by
  have hj := json_Unmarshal_unknown_slice "[]bittrex.Balance" "bittrex.Balance" "Balance" Balance.fields {}
    body raw items none hp hu
  rw [GetBalances_decoded this w body h (by rw [show json_Unmarshal (decodeSlice "[]bittrex.Balance" decodeBalance {}) body none = _ from hj]),
    show json_Unmarshal (decodeSlice "[]bittrex.Balance" decodeBalance {}) body none = _ from hj]

theorem GetBalances_object {σ : Type} (this : BittrexAPI σ) (w : World σ) (body raw : String)
    (members : List (String × Json))
    (h : (this.client.Do "GET" (this.uri ++ "/balances") "" true w.state).1 = (body, none))
    (hp : parseJSON body = .ok (.obj raw members)) :
    (this.GetBalances w).1
      = (none, some (.UnmarshalTypeError "object" "[]bittrex.Balance" "" "")) := by
  have hj := json_Unmarshal_object_slice "[]bittrex.Balance" decodeBalance {} body raw members none hp
  exact GetBalances_undecodable this w body _ h
    (by rw [show json_Unmarshal (decodeSlice "[]bittrex.Balance" decodeBalance {}) body none = _ from hj])

theorem GetOrder_known {σ τ : Type} (this : BittrexAPI σ) (w : World σ) (that : BittrexAPI τ)
    (w2 : World τ) (orderID orderID2 body body2 raw raw2 : String) (members : List (String × Json))
    (h : (this.client.Do "GET" (this.uri ++ "/orders/" ++ orderID) "" false w.state).1 = (body, none))
    (h2 : (that.client.Do "GET" (that.uri ++ "/orders/" ++ orderID2) "" false w2.state).1 = (body2, none))
    (hp : parseJSON body = .ok (.obj raw members))
    (hp2 : parseJSON body2 = .ok (.obj raw2 (knownMembers Order.fields members))) :
    (this.GetOrder orderID w).1 = (that.GetOrder orderID2 w2).1 := by
  have hu : json_Unmarshal decodeOrder body {} = json_Unmarshal decodeOrder body2 {} :=
    json_Unmarshal_known "bittrex.Order" "Order" Order.fields body body2 raw raw2 members {} hp hp2
  cases he : (json_Unmarshal decodeOrder body {}).2 with
  | some err =>
    rw [GetOrder_undecodable this orderID w body err h he,
      GetOrder_undecodable that orderID2 w2 body2 err h2 (hu ▸ he)]
  | none =>
    rw [GetOrder_decoded this orderID w body h he, GetOrder_decoded that orderID2 w2 body2 h2 (hu ▸ he), hu]

theorem GetOrder_absent (kg : String × (Order → FieldValue)) (hkg : kg ∈ Order.declared)
    {σ : Type} (this : BittrexAPI σ) (w : World σ) (orderID body raw : String)
    (members : List (String × Json))
    (h : (this.client.Do "GET" (this.uri ++ "/orders/" ++ orderID) "" false w.state).1 = (body, none))
    (hp : parseJSON body = .ok (.obj raw members))
    (hm : ∀ m ∈ members, ¬ namesField Order.fields m.1 kg.1) :
    kg.2 (this.GetOrder orderID w).1.1 = kg.2 {} := by
  cases he : (json_Unmarshal decodeOrder body {}).2 with
  | some err => rw [GetOrder_undecodable this orderID w body err h he]
  | none =>
    rw [GetOrder_decoded this orderID w body h he]
    exact json_Unmarshal_absent "bittrex.Order" "Order" Order.fields kg.2 kg.1
      (Order_declared_frame kg hkg) body raw members {} hp hm

theorem GetOrder_unknown {σ : Type} (this : BittrexAPI σ) (w : World σ) (orderID body raw : String)
    (members : List (String × Json))
    (h : (this.client.Do "GET" (this.uri ++ "/orders/" ++ orderID) "" false w.state).1 = (body, none))
    (hp : parseJSON body = .ok (.obj raw members))
    (hu : ∀ m ∈ members, findField Order.fields m.1 = none) :
    (this.GetOrder orderID w).1 = ({}, none) := by
  have hj := json_Unmarshal_unknown "bittrex.Order" "Order" Order.fields body raw members {} hp hu
  rw [GetOrder_decoded this orderID w body h (by rw [show json_Unmarshal decodeOrder body {} = _ from hj]),
    show json_Unmarshal decodeOrder body {} = _ from hj]

theorem GetOrders_known {σ τ : Type} (this : BittrexAPI σ) (w : World σ) (that : BittrexAPI τ)
    (w2 : World τ) (openOrClosed openOrClosed2 body body2 raw raw2 : String) (items items2 : List Json)
    (h : (this.client.Do "GET" (this.uri ++ "/orders/" ++ openOrClosed) "" true w.state).1 = (body, none))
    (h2 : (that.client.Do "GET" (that.uri ++ "/orders/" ++ openOrClosed2) "" true w2.state).1 = (body2, none))
    (hp : parseJSON body = .ok (.arr raw items))
    (hp2 : parseJSON body2 = .ok (.arr raw2 items2))
    (hrel : List.Forall₂ (withoutUnknown Order.fields) items items2) :
    (this.GetOrders openOrClosed w).1 = (that.GetOrders openOrClosed2 w2).1 := by
  have hu : json_Unmarshal (decodeSlice "[]bittrex.Order" decodeOrder {}) body none = json_Unmarshal (decodeSlice "[]bittrex.Order" decodeOrder {}) body2 none :=
    json_Unmarshal_known_slice "[]bittrex.Order" "bittrex.Order" "Order" Order.fields {} body body2
      raw raw2 items items2 none hp hp2 hrel
  cases he : (json_Unmarshal (decodeSlice "[]bittrex.Order" decodeOrder {}) body none).2 with
  | some err =>
    rw [GetOrders_undecodable this openOrClosed w body err h he,
      GetOrders_undecodable that openOrClosed2 w2 body2 err h2 (hu ▸ he)]
  | none =>
    rw [GetOrders_decoded this openOrClosed w body h he, GetOrders_decoded that openOrClosed2 w2 body2 h2 (hu ▸ he), hu]

theorem GetOrders_absent (kg : String × (Order → FieldValue)) (hkg : kg ∈ Order.declared)
    {σ : Type} (this : BittrexAPI σ) (w : World σ) (openOrClosed body raw : String)
    (items : List Json)
    (h : (this.client.Do "GET" (this.uri ++ "/orders/" ++ openOrClosed) "" true w.state).1 = (body, none))
    (hp : parseJSON body = .ok (.arr raw items))
    (hm : ∀ j ∈ items, ∃ r ms, j = .obj r ms ∧ ∀ m ∈ ms, ¬ namesField Order.fields m.1 kg.1)
    (l : List Order) (hl : (this.GetOrders openOrClosed w).1.1 = some l) :
    ∀ x ∈ l, kg.2 x = kg.2 {} := by
  cases he : (json_Unmarshal (decodeSlice "[]bittrex.Order" decodeOrder {}) body none).2 with
  | some err =>
    rw [GetOrders_undecodable this openOrClosed w body err h he] at hl
    simp at hl
  | none =>
    rw [GetOrders_decoded this openOrClosed w body h he] at hl
    exact json_Unmarshal_absent_slice "[]bittrex.Order" "bittrex.Order" "Order" Order.fields {} kg.2
      kg.1 (Order_declared_frame kg hkg) body raw items none hp hm l hl

theorem GetOrders_unknown {σ : Type} (this : BittrexAPI σ) (w : World σ) (openOrClosed body raw : String)
    (items : List Json)
    (h : (this.client.Do "GET" (this.uri ++ "/orders/" ++ openOrClosed) "" true w.state).1 = (body, none))
    (hp : parseJSON body = .ok (.arr raw items))
    (hu : ∀ j ∈ items, ∃ r ms, j = .obj r ms ∧ ∀ m ∈ ms, findField Order.fields m.1 = none) :
    (this.GetOrders openOrClosed w).1 = (some (items.map (fun _ => {})), none) := by
  have hj := json_Unmarshal_unknown_slice "[]bittrex.Order" "bittrex.Order" "Order" Order.fields {}
    body raw items none hp hu
  rw [GetOrders_decoded this openOrClosed w body h (by rw [show json_Unmarshal (decodeSlice "[]bittrex.Order" decodeOrder {}) body none = _ from hj]),
    show json_Unmarshal (decodeSlice "[]bittrex.Order" decodeOrder {}) body none = _ from hj]

theorem GetOrders_object {σ : Type} (this : BittrexAPI σ) (w : World σ) (openOrClosed body raw : String)
    (members : List (String × Json))
    (h : (this.client.Do "GET" (this.uri ++ "/orders/" ++ openOrClosed) "" true w.state).1 = (body, none))
    (hp : parseJSON body = .ok (.obj raw members)) :
    (this.GetOrders openOrClosed w).1
      = (none, some (.UnmarshalTypeError "object" "[]bittrex.Order" "" "")) := by
  have hj := json_Unmarshal_object_slice "[]bittrex.Order" decodeOrder {} body raw members none hp
  exact GetOrders_undecodable this openOrClosed w body _ h
    (by rw [show json_Unmarshal (decodeSlice "[]bittrex.Order" decodeOrder {}) body none = _ from hj])

/-! ## The body `null` -/

theorem skipSpace_split (cs : List Char) :
    ∃ sp, (∀ c ∈ sp, isSpace c = true) ∧ cs = sp ++ skipSpace cs := by
  induction cs with
  | nil => exact ⟨[], by simp, rfl⟩
  | cons c cs ih =>
    by_cases hc : isSpace c = true
    · obtain ⟨sp, hsp, heq⟩ := ih
      refine ⟨c :: sp, ?_, ?_⟩
      · intro x hx
        rcases List.mem_cons.mp hx with rfl | hx
        · exact hc
        · exact hsp x hx
      · simp only [skipSpace, hc, if_true, List.cons_append]
        rw [← heq]
    · exact ⟨[], by simp, by simp [skipSpace, hc]⟩

theorem skipSpace_nil_iff (cs : List Char) :
    skipSpace cs = [] ↔ ∀ c ∈ cs, isSpace c = true := by
  induction cs with
  | nil => simp [skipSpace]
  | cons c cs ih =>
    by_cases hc : isSpace c = true
    · simp [skipSpace, hc, ih]
    · simp [skipSpace, hc]

theorem skipSpace_append_of_space (sp rest : List Char) (h : ∀ c ∈ sp, isSpace c = true) :
    skipSpace (sp ++ rest) = skipSpace rest := by
  induction sp with
  | nil => rfl
  | cons c sp ih =>
    have hc : isSpace c = true := h c (List.mem_cons_self _ _)
    simp only [List.cons_append, skipSpace, hc, if_true]
    exact ih (fun x hx => h x (List.mem_cons_of_mem _ hx))

theorem scanLiteral_null (rest r : List Char)
    (h : scanLiteral "null" ['u', 'l', 'l'] rest = .ok r) : rest = 'u' :: 'l' :: 'l' :: r := by
  match rest with
  | [] => simp [scanLiteral] at h
  | [a] =>
    simp only [scanLiteral] at h
    split at h <;> simp at h
  | [a, b] =>
    simp only [scanLiteral] at h
    split at h
    · split at h <;> simp at h
    · simp at h
  | a :: b :: c :: tl =>
    simp only [scanLiteral] at h
    split at h
    · split at h
      · split at h
        · rename_i h1 h2 h3
          cases h
          rw [h1, h2, h3]
        · simp at h
      · simp at h
    · simp at h

/-- The value read is `null` only when the input is the word null behind white
space. -/
theorem parseValue_null (fuel depth : Nat) (cs rest : List Char)
    (h : parseValue fuel depth cs = .ok (.null, rest)) :
    skipSpace cs = 'n' :: 'u' :: 'l' :: 'l' :: rest := by
  cases fuel with
  | zero => simp [parseValue] at h
  | succ fuel =>
    rw [parseValue] at h
    split at h
    · simp at h
    · rename_i c tl hskip
      rw [hskip]
      split at h
      · split at h
        · simp at h
        · split at h
          · simp at h
          · split at h
            · simp at h
            · split at h <;> simp at h
      · split at h
        · split at h
          · simp at h
          · split at h
            · simp at h
            · split at h
              · simp at h
              · split at h <;> simp at h
        · split at h
          · split at h <;> simp at h
          · split at h
            · split at h <;> simp at h
            · split at h
              · split at h <;> simp at h
              · split at h
                · split at h <;> simp at h
                · split at h
                  · cases hl : scanLiteral "true" ['r', 'u', 'e'] tl <;>
                      simp [hl, Except.map] at h
                  · split at h
                    · cases hl : scanLiteral "false" ['a', 'l', 's', 'e'] tl <;>
                        simp [hl, Except.map] at h
                    · split at h
                      · rename_i hn
                        subst hn
                        cases hl : scanLiteral "null" ['u', 'l', 'l'] tl with
                        | error e => simp [hl, Except.map] at h
                        | ok r =>
                          simp only [hl, Except.map, Except.ok.injEq, Prod.mk.injEq,
                            true_and] at h
                          subst h
                          rw [scanLiteral_null tl r hl]
                      · simp at h

theorem parseValue_null_word (fuel depth : Nat) (sp rest : List Char)
    (hsp : ∀ c ∈ sp, isSpace c = true) :
    parseValue (fuel + 1) depth (sp ++ 'n' :: 'u' :: 'l' :: 'l' :: rest) = .ok (.null, rest) := by
  rw [parseValue, skipSpace_append_of_space sp _ hsp]
  rfl

/-- The syntax pass reads `null` exactly from the word null with white space
(blanks, tabs, line ends) before and after it, and nothing else. -/
theorem parseJSON_null_iff (body : String) :
    parseJSON body = .ok .null ↔
      ∃ pre post : List Char, (∀ c ∈ pre, isSpace c = true) ∧ (∀ c ∈ post, isSpace c = true) ∧
        body = String.mk (pre ++ ['n', 'u', 'l', 'l'] ++ post) := by
  constructor
  · intro h
    unfold parseJSON at h
    split at h
    · simp at h
    · rename_i v rest hv
      split at h
      · rename_i hrest
        simp only [Except.ok.injEq] at h
        subst h
        have h1 := parseValue_null _ _ _ _ hv
        obtain ⟨sp, hsp, heq⟩ := skipSpace_split body.toList
        refine ⟨sp, rest, hsp, (skipSpace_nil_iff rest).mp hrest, ?_⟩
        apply String.ext
        show body.toList = _
        rw [heq, h1]
        simp
      · simp at h
  · rintro ⟨pre, post, hpre, hpost, rfl⟩
    unfold parseJSON
    have hv : parseValue (2 * (String.mk (pre ++ ['n', 'u', 'l', 'l'] ++ post)).length + 2) 0
        (String.mk (pre ++ ['n', 'u', 'l', 'l'] ++ post)).toList = .ok (.null, post) := by
      have := parseValue_null_word (2 * (String.mk (pre ++ ['n', 'u', 'l', 'l'] ++ post)).length + 1)
        0 pre post hpre
      simpa using this
    rw [hv]
    simp only []
    rw [(skipSpace_nil_iff post).mpr hpost]

/-- Decoding the body `null` into a pointer makes it nil and returns no error. -/
theorem json_Unmarshal_ptr_null {α : Type} (elem : Decoder α) (zero : α) (body : String)
    (init : Option α) (h : parseJSON body = .ok .null) :
    json_Unmarshal (decodePtr elem zero) body init = (none, none) := by
  simp [json_Unmarshal, h, decodePtr]

/-- A decoding into a pointer that returns no error leaves the pointer nil only
when the body is `null`. -/
theorem json_Unmarshal_ptr_nil {α : Type} (elem : Decoder α) (zero : α) (body : String)
    (init : Option α) (hok : (json_Unmarshal (decodePtr elem zero) body init).2 = none) :
    (json_Unmarshal (decodePtr elem zero) body init).1 = none ↔ parseJSON body = .ok .null := by
  constructor
  · intro h
    unfold json_Unmarshal at h hok
    cases hp : parseJSON body with
    | error e => simp [hp] at hok
    | ok j =>
      cases j with
      | null => rfl
      | _ =>
        simp only [hp, decodePtr] at h
        split at h <;> simp at h
  · intro h
    rw [json_Unmarshal_ptr_null elem zero body init h]

theorem String_append_left_cancel (a b c : String) : a ++ b = a ++ c ↔ b = c := by
  constructor
  · intro h
    have hd := congrArg String.data h
    simp only [String.data_append, List.append_cancel_left_eq] at hd
    exact String.ext hd
  · intro h
    rw [h]

theorem findField_MarketSummary_high :
    findField MarketSummary.fields "high"
      = some (field "high" (·.High) (fun v x => { v with High := x }) decodeDecimal) := by
  rfl

theorem long_fraction_plain (frac : List Char) (hd : ∀ c ∈ frac, isDigit c = true) :
    isPlainDecimal [] ['0'] (some frac) :=
  ⟨Or.inl rfl, by simp, by decide, hd⟩

/-- A fraction of more than 2^31 digits: `GetMarketSummary` fails on the body
that gives it as the high, with the error of the decimal package. -/
theorem GetMarketSummary_long_fraction (frac : List Char)
    (hd : ∀ c ∈ frac, isDigit c = true) (hlen : 2147483648 < frac.length) :
    ((NewBittrexAPI (stubClient
        ("\x7b\"" ++ "high" ++ "\":\"" ++ plainDecimal [] ['0'] (some frac) ++ "\"\x7d") none)
        "").GetMarketSummary "ETH-BTC" (World.init ())).1
      = ({}, some (fmt_Errorf ("error decoding string '"
          ++ plainDecimal [] ['0'] (some frac) ++ "': " ++ ("can't convert "
          ++ plainDecimal [] ['0'] (some frac) ++ " to decimal: fractional part too long")))) := by
  have h := long_fraction_plain frac hd
  have hnot : ¬ ((some frac).getD []).length ≤ 2147483648 := by
    simp only [Option.getD_some]
    omega
  have hparse := parseJSON_member "high".data (plainDecimal [] ['0'] (some frac)).data []
    (by decide) (plainDecimal_plain [] ['0'] (some frac) h) (by simp)
  rw [← member_text] at hparse
  have hparse' : parseJSON ("\x7b\"" ++ "high" ++ "\":\"" ++ plainDecimal [] ['0'] (some frac)
      ++ "\"\x7d")
      = .ok (.obj ("\x7b\"" ++ "high" ++ "\":\"" ++ plainDecimal [] ['0'] (some frac) ++ "\"\x7d")
          [("high", .str (plainDecimal [] ['0'] (some frac))
            (plainDecimal [] ['0'] (some frac)))]) := hparse
  apply GetMarketSummary_undecodable _ _ _ _ _ rfl
  unfold json_Unmarshal
  rw [hparse']
  simp only [decodeMarketSummary, decodeStruct, decodeMembers, findField_MarketSummary_high, field,
    decodeDecimal_plain [] ['0'] (some frac) h, hnot, if_false]

set_option maxRecDepth 100000

/-! ## The test-suite of the repository, replayed

Each test of `bittrex_test.go` runs a method against `fakeBittrexClient` and
compares the result with a literal; the same comparisons hold of the embedding.
The decimals the tests build with `decimal.NewFromFloat` and
`decimal.NewFromFloatWithExponent` are written here as coefficient and
exponent. -/

theorem TestGetCurrency :
    ((NewBittrexAPI (fakeBittrexClient.client {}) "").GetCurrency "fakesymbol"
      (World.init ())).1 = ({}, none) := by
  rfl

theorem TestGetBalances :
    ((NewBittrexAPI (fakeBittrexClient.client {}) "").GetBalances (World.init ())).1
      = (some [
          { CurrencySymbol := "BTC", Total := "0.00000000", Available := "0.00000000",
            UpdatedAt := "2019-10-29T20:25:10.16Z" },
          { CurrencySymbol := "LTC", Total := "0", Available := "0",
            UpdatedAt := "2020-09-03T21:27:53.8210894Z" }], none) := by
  rfl

theorem TestGetMarket :
    ((NewBittrexAPI (fakeBittrexClient.client {}) "").GetMarket "fakesymbol"
      (World.init ())).1
      = ({ Symbol := "ETH-BTC", BaseCurrencySymbol := "ETH", QuoteCurrencySymbol := "BTC",
           MinTradeSize := "0.01000000", Precision := 8, Status := "ONLINE",
           CreatedAt := "2015-08-14T09:02:24.817Z", Notice := "",
           ProhibitedIn := some [] }, none) := by
  rfl

theorem TestGetMarkets :
    ((NewBittrexAPI (fakeBittrexClient.client {}) "").GetMarkets (World.init ())).1
      = (some [
          { Symbol := "4ART-BTC", BaseCurrencySymbol := "4ART", QuoteCurrencySymbol := "BTC",
            MinTradeSize := "10.00000000", Precision := 8, Status := "ONLINE",
            CreatedAt := "2020-06-10T15:05:29.833Z", Notice := "",
            ProhibitedIn := some ["US"] },
          { Symbol := "4ART-USDT", BaseCurrencySymbol := "4ART", QuoteCurrencySymbol := "USDT",
            MinTradeSize := "10.00000000", Precision := 5, Status := "ONLINE",
            CreatedAt := "2020-06-10T15:05:40.98Z", Notice := "",
            ProhibitedIn := some ["US"] }], none) := by
  rfl

theorem TestGetMarketSummary :
    ((NewBittrexAPI (fakeBittrexClient.client {}) "").GetMarketSummary "fakesymbol"
      (World.init ())).1
      = ({ Symbol := "ETH-BTC", High := some ⟨3894964, -8⟩, Low := some ⟨3650000, -8⟩,
           Volume := some ⟨1849404035144, -8⟩, QuoteVolume := some ⟨69642899671, -8⟩,
           PercentChange := some ⟨-333, -2⟩, UpdatedAt := "2020-09-04T04:37:45.107Z" },
         none) := by
  rfl

theorem TestGetMarketSummaries :
    ((NewBittrexAPI (fakeBittrexClient.client {}) "").GetMarketSummaries (World.init ())).1
      = (some [
          { Symbol := "4ART-BTC", High := some ⟨275, -8⟩, Low := some ⟨249, -8⟩,
            Volume := some ⟨5449959344453, -8⟩, QuoteVolume := some ⟨13917073, -8⟩,
            PercentChange := some ⟨1044, -2⟩, UpdatedAt := "2020-09-04T04:58:55.447Z" },
          { Symbol := "4ART-USDT", High := some ⟨2880000, -8⟩, Low := some ⟨2667000, -8⟩,
            Volume := some ⟨4825953706735, -8⟩, QuoteVolume := some ⟨132075839607, -8⟩,
            PercentChange := some ⟨-611, -2⟩, UpdatedAt := "2020-09-04T04:33:20.01Z" }],
         none) := by
  rfl

theorem TestGetMarketTicker :
    ((NewBittrexAPI (fakeBittrexClient.client {}) "").GetMarketTicker "fakesymbol"
      (World.init ())).1
      = ({ Symbol := "ETH-BTC", LastTradeRate := some ⟨3760069, -8⟩,
           BidRate := some ⟨3760103, -8⟩, AskRate := some ⟨3762798, -8⟩ }, none) := by
  rfl

theorem TestGetMarketTickers :
    ((NewBittrexAPI (fakeBittrexClient.client {}) "").GetMarketTickers (World.init ())).1
      = (some [
          { Symbol := "ETH-BTC", LastTradeRate := some ⟨3760069, -8⟩,
            BidRate := some ⟨3760103, -8⟩, AskRate := some ⟨3762798, -8⟩ },
          { Symbol := "ETH-FAKE", LastTradeRate := some ⟨103760069, -8⟩,
            BidRate := some ⟨103760103, -8⟩, AskRate := some ⟨103762798, -8⟩ }], none) := by
  rfl

theorem TestGetOrder :
    ((NewBittrexAPI (fakeBittrexClient.client {}) "").GetOrder "fakeOrder"
      (World.init ())).1
      = ({ OrderID := "55eb2c82-4184-4a24-8b6e-ee154b2f7eaf", MarketSymbol := "XRP-BTC",
           Direction := "BUY", OrderType := "LIMIT", Quantity := some ⟨7753046131, -8⟩,
           Limit := some ⟨3528, -8⟩, TimeInForce := "GOOD_TIL_CANCELLED",
           FillQuantity := some ⟨7753046131, -8⟩, Commission := some ⟨682, -8⟩,
           Proceeds := some ⟨272829, -8⟩, Status := "CLOSED",
           CreatedAt := "2017-10-20T18:27:20.747Z", UpdatedAt := "2017-10-20T18:27:20.763Z",
           ClosedAt := "2017-10-20T18:27:20.763Z" }, none) := by
  rfl

theorem TestGetOrders :
    ((NewBittrexAPI (fakeBittrexClient.client {}) "").GetOrders "open" (World.init ())).1
      = (some [
          { OrderID := "55eb2c82-4184-4a24-8b6e-ee154b2f7eaf", MarketSymbol := "XRP-BTC",
            Direction := "BUY", OrderType := "LIMIT", Quantity := some ⟨7753046131, -8⟩,
            Limit := some ⟨3528, -8⟩, TimeInForce := "GOOD_TIL_CANCELLED",
            FillQuantity := some ⟨7753046131, -8⟩, Commission := some ⟨682, -8⟩,
            Proceeds := some ⟨272829, -8⟩, Status := "OPEN",
            CreatedAt := "2017-10-20T18:27:20.747Z", UpdatedAt := "2017-10-20T18:27:20.763Z",
            ClosedAt := "2017-10-20T18:27:20.763Z" }], none) ∧
    (((NewBittrexAPI (fakeBittrexClient.client {}) "").GetOrders "closed"
      (World.init ())).1.1.map (fun orders => orders.map (·.Status))) = some ["CLOSED"] ∧
    ((NewBittrexAPI (fakeBittrexClient.client {}) "").GetOrders "closed"
      (World.init ())).1.2 = none := by
  refine ⟨?_, ?_, ?_⟩ <;> rfl

theorem TestCreateOrder :
    ((NewBittrexAPI (fakeBittrexClient.client {}) "").CreateOrder
        { OrderID := "", MarketSymbol := "ETH-BTC", Direction := "BUY", OrderType := "LIMIT",
          TimeInForce := "GOOD_TIL_CANCELLED", Quantity := some ⟨5, 0⟩,
          Limit := some ⟨39561, -8⟩ }
        (World.init ())).1
      = (some { OrderID := "fab677a0-510e-456e-b450-8a75cea69f5d", MarketSymbol := "ETH-BTC",
                Direction := "BUY", OrderType := "LIMIT", Quantity := some ⟨5, 0⟩,
                Limit := some ⟨39561, -8⟩, TimeInForce := "GOOD_TIL_CANCELLED",
                Status := "OPEN", CreatedAt := "2020-09-08T05:08:40.84Z",
                UpdatedAt := "2020-09-08T05:08:40.84Z", ClosedAt := "" }, none) := by
  rfl

theorem TestCancelOrder :
    ((NewBittrexAPI (fakeBittrexClient.client {}) "").CancelOrder
        "fab677a0-510e-456e-b450-8a75cea69f5d" (World.init ())).1
      = (some { OrderID := "fab677a0-510e-456e-b450-8a75cea69f5d", MarketSymbol := "ETH-BTC",
                Direction := "BUY", OrderType := "LIMIT", Quantity := some ⟨5, 0⟩,
                Limit := some ⟨39561, -8⟩, TimeInForce := "GOOD_TIL_CANCELLED",
                Status := "OPEN", CreatedAt := "2020-09-08T05:08:40.84Z",
                UpdatedAt := "2020-09-08T05:08:40.84Z", ClosedAt := "" }, none) := by
  rfl

/-! ## The claims -/

/-- C1: whatever the base URI, the transport and the arguments, `GetBalances`,
`GetOrders`, `CreateOrder` and `CancelOrder` call the transport with the
authentication flag true, and `GetMarket`, `GetMarkets`, `GetMarketSummary`,
`GetMarketSummaries`, `GetMarketTicker`, `GetMarketTickers` and `GetCurrency`
call it with the flag false. -/
theorem authentication_flag {σ : Type} (this : BittrexAPI σ) (w : World σ)
    (symbol openOrClosed orderId : String) (order : Order) :
    (newCalls w (this.GetBalances w).2).map (·.authenticate) = [true] ∧
    (newCalls w (this.GetOrders openOrClosed w).2).map (·.authenticate) = [true] ∧
    (newCalls w (this.CreateOrder order w).2).map (·.authenticate) = [true] ∧
    (newCalls w (this.CancelOrder orderId w).2).map (·.authenticate) = [true] ∧
    (newCalls w (this.GetMarket symbol w).2).map (·.authenticate) = [false] ∧
    (newCalls w (this.GetMarkets w).2).map (·.authenticate) = [false] ∧
    (newCalls w (this.GetMarketSummary symbol w).2).map (·.authenticate) = [false] ∧
    (newCalls w (this.GetMarketSummaries w).2).map (·.authenticate) = [false] ∧
    (newCalls w (this.GetMarketTicker symbol w).2).map (·.authenticate) = [false] ∧
    (newCalls w (this.GetMarketTickers w).2).map (·.authenticate) = [false] ∧
    (newCalls w (this.GetCurrency symbol w).2).map (·.authenticate) = [false] := by
  simp only [GetBalances_world, GetOrders_world, CreateOrder_world, CancelOrder_world,
    GetMarket_world, GetMarkets_world, GetMarketSummary_world, GetMarketSummaries_world,
    GetMarketTicker_world, GetMarketTickers_world, GetCurrency_world, newCalls_call,
    List.map_cons, List.map_nil, and_self]

/-- C2 (what the code does): `GetOrder` calls the transport with method GET and
the URI `uri + "/orders/" + orderID`, but with the authentication flag false,
where every other method on `/orders` passes true. -/
theorem GetOrder_call_unauthenticated {σ : Type} (this : BittrexAPI σ) (w : World σ)
    (orderID : String) :
    newCalls w (this.GetOrder orderID w).2
      = [⟨"GET", this.uri ++ "/orders/" ++ orderID, "", false⟩] := by
  rw [GetOrder_world, newCalls_call]

/-- C3: `CreateOrder(o)` calls the transport with method POST, the URI
`uri + "/orders"`, and as payload the text `json.Marshal(o)` returns, which
comes with no error and is never empty. -/
theorem CreateOrder_call {σ : Type} (this : BittrexAPI σ) (w : World σ) (order : Order) :
    (newCalls w (this.CreateOrder order w).2).map (fun c => (c.method, c.uri, c.payload))
        = [("POST", this.uri ++ "/orders", (json_Marshal order).1)] ∧
    (json_Marshal order).2 = none ∧
    (json_Marshal order).1 ≠ "" := by
  refine ⟨?_, json_Marshal_err order, ?_⟩
  · rw [CreateOrder_world, newCalls_call]
    rfl
  · obtain ⟨ms, h⟩ := json_Marshal_ok order
    rw [h]
    exact encodeObject_ne_empty ms

/-- C4: every method without a payload calls the transport with an empty
payload and with the method and URI of the operations table; `GetOrders("open")`
and `GetOrders("closed")` ask for different URIs, and two filters give the same
URI only when they are the same filter. -/
theorem payload_free_calls {σ : Type} (this : BittrexAPI σ) (w : World σ) (s : String) :
    (newCalls w (this.GetMarket s w).2).map (fun c => (c.method, c.uri, c.payload))
        = [("GET", this.uri ++ "/markets/" ++ s, "")] ∧
    (newCalls w (this.GetMarkets w).2).map (fun c => (c.method, c.uri, c.payload))
        = [("GET", this.uri ++ "/markets", "")] ∧
    (newCalls w (this.GetMarketSummary s w).2).map (fun c => (c.method, c.uri, c.payload))
        = [("GET", this.uri ++ "/markets/" ++ s ++ "/summary", "")] ∧
    (newCalls w (this.GetMarketSummaries w).2).map (fun c => (c.method, c.uri, c.payload))
        = [("GET", this.uri ++ "/markets/summaries", "")] ∧
    (newCalls w (this.GetMarketTicker s w).2).map (fun c => (c.method, c.uri, c.payload))
        = [("GET", this.uri ++ "/markets/" ++ s ++ "/ticker", "")] ∧
    (newCalls w (this.GetMarketTickers w).2).map (fun c => (c.method, c.uri, c.payload))
        = [("GET", this.uri ++ "/markets/tickers", "")] ∧
    (newCalls w (this.GetCurrency s w).2).map (fun c => (c.method, c.uri, c.payload))
        = [("GET", this.uri ++ "/currencies/" ++ s, "")] ∧
    (newCalls w (this.GetBalances w).2).map (fun c => (c.method, c.uri, c.payload))
        = [("GET", this.uri ++ "/balances", "")] ∧
    (newCalls w (this.GetOrder s w).2).map (fun c => (c.method, c.uri, c.payload))
        = [("GET", this.uri ++ "/orders/" ++ s, "")] ∧
    (newCalls w (this.GetOrders s w).2).map (fun c => (c.method, c.uri, c.payload))
        = [("GET", this.uri ++ "/orders/" ++ s, "")] ∧
    (newCalls w (this.CancelOrder s w).2).map (fun c => (c.method, c.uri, c.payload))
        = [("DELETE", this.uri ++ "/orders/" ++ s, "")] ∧
    (newCalls w (this.GetOrders "open" w).2).map (·.uri)
        ≠ (newCalls w (this.GetOrders "closed" w).2).map (·.uri) ∧
    (∀ s1 s2 : String,
      (newCalls w (this.GetOrders s1 w).2).map (·.uri)
          = (newCalls w (this.GetOrders s2 w).2).map (·.uri) ↔ s1 = s2) := by
  have key : ∀ s1 s2 : String,
      (newCalls w (this.GetOrders s1 w).2).map (·.uri)
          = (newCalls w (this.GetOrders s2 w).2).map (·.uri) ↔ s1 = s2 := by
    intro s1 s2
    simp only [GetOrders_world, newCalls_call, List.map_cons, List.map_nil, List.cons.injEq,
      and_true, String.append_assoc, String_append_left_cancel]
  refine ⟨?_, ?_, ?_, ?_, ?_, ?_, ?_, ?_, ?_, ?_, ?_, ?_, key⟩
  all_goals first
    | (simp only [GetMarket_world, GetMarkets_world, GetMarketSummary_world, GetMarketSummaries_world, GetMarketTicker_world, GetMarketTickers_world, GetCurrency_world, GetBalances_world, GetOrder_world, GetOrders_world, CancelOrder_world, newCalls_call]; rfl)
    | (rw [Ne, key]; decide)

/-- C5: one invocation of any method of the facade is exactly one call of the
transport, never none and never two, whatever the transport answers and whether
or not the answer decodes: the calls the transport received during the method
are one call, the record of calls after the method is the record before it with
that one call added, and the state of the transport after the method is its
state after that one call. -/
theorem single_call {σ : Type} (this : BittrexAPI σ) (w : World σ)
    (symbol orderID openOrClosed orderId : String) (order : Order) :
    (newCalls w (this.GetMarket symbol w).2 = [⟨"GET", this.uri ++ "/markets/" ++ symbol, "", false⟩] ∧
      (this.GetMarket symbol w).2.calls = w.calls ++ [⟨"GET", this.uri ++ "/markets/" ++ symbol, "", false⟩] ∧
      (this.GetMarket symbol w).2.state = (this.client.Do "GET" (this.uri ++ "/markets/" ++ symbol) "" false w.state).2) ∧
    (newCalls w (this.GetMarkets w).2 = [⟨"GET", this.uri ++ "/markets", "", false⟩] ∧
      (this.GetMarkets w).2.calls = w.calls ++ [⟨"GET", this.uri ++ "/markets", "", false⟩] ∧
      (this.GetMarkets w).2.state = (this.client.Do "GET" (this.uri ++ "/markets") "" false w.state).2) ∧
    (newCalls w (this.GetMarketSummary symbol w).2 = [⟨"GET", this.uri ++ "/markets/" ++ symbol ++ "/summary", "", false⟩] ∧
      (this.GetMarketSummary symbol w).2.calls = w.calls ++ [⟨"GET", this.uri ++ "/markets/" ++ symbol ++ "/summary", "", false⟩] ∧
      (this.GetMarketSummary symbol w).2.state = (this.client.Do "GET" (this.uri ++ "/markets/" ++ symbol ++ "/summary") "" false w.state).2) ∧
    (newCalls w (this.GetMarketSummaries w).2 = [⟨"GET", this.uri ++ "/markets/summaries", "", false⟩] ∧
      (this.GetMarketSummaries w).2.calls = w.calls ++ [⟨"GET", this.uri ++ "/markets/summaries", "", false⟩] ∧
      (this.GetMarketSummaries w).2.state = (this.client.Do "GET" (this.uri ++ "/markets/summaries") "" false w.state).2) ∧
    (newCalls w (this.GetMarketTicker symbol w).2 = [⟨"GET", this.uri ++ "/markets/" ++ symbol ++ "/ticker", "", false⟩] ∧
      (this.GetMarketTicker symbol w).2.calls = w.calls ++ [⟨"GET", this.uri ++ "/markets/" ++ symbol ++ "/ticker", "", false⟩] ∧
      (this.GetMarketTicker symbol w).2.state = (this.client.Do "GET" (this.uri ++ "/markets/" ++ symbol ++ "/ticker") "" false w.state).2) ∧
    (newCalls w (this.GetMarketTickers w).2 = [⟨"GET", this.uri ++ "/markets/tickers", "", false⟩] ∧
      (this.GetMarketTickers w).2.calls = w.calls ++ [⟨"GET", this.uri ++ "/markets/tickers", "", false⟩] ∧
      (this.GetMarketTickers w).2.state = (this.client.Do "GET" (this.uri ++ "/markets/tickers") "" false w.state).2) ∧
    (newCalls w (this.GetCurrency symbol w).2 = [⟨"GET", this.uri ++ "/currencies/" ++ symbol, "", false⟩] ∧
      (this.GetCurrency symbol w).2.calls = w.calls ++ [⟨"GET", this.uri ++ "/currencies/" ++ symbol, "", false⟩] ∧
      (this.GetCurrency symbol w).2.state = (this.client.Do "GET" (this.uri ++ "/currencies/" ++ symbol) "" false w.state).2) ∧
    (newCalls w (this.GetBalances w).2 = [⟨"GET", this.uri ++ "/balances", "", true⟩] ∧
      (this.GetBalances w).2.calls = w.calls ++ [⟨"GET", this.uri ++ "/balances", "", true⟩] ∧
      (this.GetBalances w).2.state = (this.client.Do "GET" (this.uri ++ "/balances") "" true w.state).2) ∧
    (newCalls w (this.GetOrder orderID w).2 = [⟨"GET", this.uri ++ "/orders/" ++ orderID, "", false⟩] ∧
      (this.GetOrder orderID w).2.calls = w.calls ++ [⟨"GET", this.uri ++ "/orders/" ++ orderID, "", false⟩] ∧
      (this.GetOrder orderID w).2.state = (this.client.Do "GET" (this.uri ++ "/orders/" ++ orderID) "" false w.state).2) ∧
    (newCalls w (this.GetOrders openOrClosed w).2 = [⟨"GET", this.uri ++ "/orders/" ++ openOrClosed, "", true⟩] ∧
      (this.GetOrders openOrClosed w).2.calls = w.calls ++ [⟨"GET", this.uri ++ "/orders/" ++ openOrClosed, "", true⟩] ∧
      (this.GetOrders openOrClosed w).2.state = (this.client.Do "GET" (this.uri ++ "/orders/" ++ openOrClosed) "" true w.state).2) ∧
    (newCalls w (this.CancelOrder orderId w).2 = [⟨"DELETE", this.uri ++ "/orders/" ++ orderId, "", true⟩] ∧
      (this.CancelOrder orderId w).2.calls = w.calls ++ [⟨"DELETE", this.uri ++ "/orders/" ++ orderId, "", true⟩] ∧
      (this.CancelOrder orderId w).2.state = (this.client.Do "DELETE" (this.uri ++ "/orders/" ++ orderId) "" true w.state).2) ∧
    (newCalls w (this.CreateOrder order w).2 = [⟨"POST", this.uri ++ "/orders", (json_Marshal order).1, true⟩] ∧
      (this.CreateOrder order w).2.calls = w.calls ++ [⟨"POST", this.uri ++ "/orders", (json_Marshal order).1, true⟩] ∧
      (this.CreateOrder order w).2.state = (this.client.Do "POST" (this.uri ++ "/orders") (json_Marshal order).1 true w.state).2) := by
  refine ⟨?_, ?_, ?_, ?_, ?_, ?_, ?_, ?_, ?_, ?_, ?_, ?_⟩
  · rw [GetMarket_world]
    exact ⟨newCalls_call .., rfl, rfl⟩
  · rw [GetMarkets_world]
    exact ⟨newCalls_call .., rfl, rfl⟩
  · rw [GetMarketSummary_world]
    exact ⟨newCalls_call .., rfl, rfl⟩
  · rw [GetMarketSummaries_world]
    exact ⟨newCalls_call .., rfl, rfl⟩
  · rw [GetMarketTicker_world]
    exact ⟨newCalls_call .., rfl, rfl⟩
  · rw [GetMarketTickers_world]
    exact ⟨newCalls_call .., rfl, rfl⟩
  · rw [GetCurrency_world]
    exact ⟨newCalls_call .., rfl, rfl⟩
  · rw [GetBalances_world]
    exact ⟨newCalls_call .., rfl, rfl⟩
  · rw [GetOrder_world]
    exact ⟨newCalls_call .., rfl, rfl⟩
  · rw [GetOrders_world]
    exact ⟨newCalls_call .., rfl, rfl⟩
  · rw [CancelOrder_world]
    exact ⟨newCalls_call .., rfl, rfl⟩
  · rw [CreateOrder_world]
    exact ⟨newCalls_call .., rfl, rfl⟩

/-- C6: when the transport answers the call of a method with a failure `e`, the
method returns that very `e` and no partial result: the zero record for a read
of one record, a nil list for a read of a list, a nil order for `CreateOrder`
and `CancelOrder`. -/
theorem transport_failure_unchanged {σ : Type} (this : BittrexAPI σ) (w : World σ)
    (e : GoError) :
    (∀ symbol : String, (this.client.Do "GET" (this.uri ++ "/markets/" ++ symbol) "" false w.state).1.2 = some e →
      (this.GetMarket symbol w).1 = ({}, some e)) ∧
    ((this.client.Do "GET" (this.uri ++ "/markets") "" false w.state).1.2 = some e →
      (this.GetMarkets w).1 = (none, some e)) ∧
    (∀ symbol : String, (this.client.Do "GET" (this.uri ++ "/markets/" ++ symbol ++ "/summary") "" false w.state).1.2 = some e →
      (this.GetMarketSummary symbol w).1 = ({}, some e)) ∧
    ((this.client.Do "GET" (this.uri ++ "/markets/summaries") "" false w.state).1.2 = some e →
      (this.GetMarketSummaries w).1 = (none, some e)) ∧
    (∀ symbol : String, (this.client.Do "GET" (this.uri ++ "/markets/" ++ symbol ++ "/ticker") "" false w.state).1.2 = some e →
      (this.GetMarketTicker symbol w).1 = ({}, some e)) ∧
    ((this.client.Do "GET" (this.uri ++ "/markets/tickers") "" false w.state).1.2 = some e →
      (this.GetMarketTickers w).1 = (none, some e)) ∧
    (∀ symbol : String, (this.client.Do "GET" (this.uri ++ "/currencies/" ++ symbol) "" false w.state).1.2 = some e →
      (this.GetCurrency symbol w).1 = ({}, some e)) ∧
    ((this.client.Do "GET" (this.uri ++ "/balances") "" true w.state).1.2 = some e →
      (this.GetBalances w).1 = (none, some e)) ∧
    (∀ orderID : String, (this.client.Do "GET" (this.uri ++ "/orders/" ++ orderID) "" false w.state).1.2 = some e →
      (this.GetOrder orderID w).1 = ({}, some e)) ∧
    (∀ openOrClosed : String, (this.client.Do "GET" (this.uri ++ "/orders/" ++ openOrClosed) "" true w.state).1.2 = some e →
      (this.GetOrders openOrClosed w).1 = (none, some e)) ∧
    (∀ orderId : String, (this.client.Do "DELETE" (this.uri ++ "/orders/" ++ orderId) "" true w.state).1.2 = some e →
      (this.CancelOrder orderId w).1 = (none, some e)) ∧
    (∀ order : Order,
      (this.client.Do "POST" (this.uri ++ "/orders") (json_Marshal order).1 true w.state).1.2 = some e →
      (this.CreateOrder order w).1 = (none, some e)) := by
  refine ⟨?_, ?_, ?_, ?_, ?_, ?_, ?_, ?_, ?_, ?_, ?_, ?_⟩
  · exact fun symbol h => GetMarket_failure this symbol w e h
  · exact fun h => GetMarkets_failure this w e h
  · exact fun symbol h => GetMarketSummary_failure this symbol w e h
  · exact fun h => GetMarketSummaries_failure this w e h
  · exact fun symbol h => GetMarketTicker_failure this symbol w e h
  · exact fun h => GetMarketTickers_failure this w e h
  · exact fun symbol h => GetCurrency_failure this symbol w e h
  · exact fun h => GetBalances_failure this w e h
  · exact fun orderID h => GetOrder_failure this orderID w e h
  · exact fun openOrClosed h => GetOrders_failure this openOrClosed w e h
  · exact fun orderId h => CancelOrder_failure this orderId w e h
  · exact fun order h => CreateOrder_failure this order w e h

/-- C6 at the transport of the tests: a URI it does not know makes `GetMarket`
return the zero `Market` and the failure "test resource not found". -/
theorem transport_failure_unchanged_witness :
    (fakeBittrexClient.Do {} "GET" ("" ++ "/markets/" ++ "nosuchmarket") "" false).2
        = some (errors_New "test resource not found") ∧
    ((NewBittrexAPI (fakeBittrexClient.client {}) "").GetMarket "nosuchmarket"
        (World.init ())).1 = ({}, some (errors_New "test resource not found")) :=
  ⟨by decide,
   (transport_failure_unchanged (NewBittrexAPI (fakeBittrexClient.client {}) "")
      (World.init ()) (errors_New "test resource not found")).1 "nosuchmarket" (by decide)⟩

/-- C7: for every string `c`, when the transport returns to `CreateOrder` or to
`CancelOrder` the body `{"code": c}`, with `c` written as a JSON string, the
method returns no failure and an order whose `Code` is `c` and whose every
other field is absent or zero: an error of the exchange is a result, not a
failure.  The same holds of any other text of that object (other spacing,
other escapes): any body that parses to the object whose one member is `code`
with the string `c` for value. -/
theorem business_error_is_decoded {σ : Type} (this : BittrexAPI σ) (w : World σ) (c : String) :
    (∀ order : Order,
      (this.client.Do "POST" (this.uri ++ "/orders") (json_Marshal order).1 true w.state).1
        = ("\x7b\"code\": " ++ encodeString c ++ "\x7d", none) →
      (this.CreateOrder order w).1 = (some { Code := some c }, none)) ∧
    (∀ orderId : String,
      (this.client.Do "DELETE" (this.uri ++ "/orders/" ++ orderId) "" true w.state).1
        = ("\x7b\"code\": " ++ encodeString c ++ "\x7d", none) →
      (this.CancelOrder orderId w).1 = (some { Code := some c }, none)) ∧
    (∀ body raw rawc : String, parseJSON body = .ok (.obj raw [("code", .str rawc c)]) →
      (∀ order : Order,
        (this.client.Do "POST" (this.uri ++ "/orders") (json_Marshal order).1 true w.state).1
          = (body, none) →
        (this.CreateOrder order w).1 = (some { Code := some c }, none)) ∧
      (∀ orderId : String,
        (this.client.Do "DELETE" (this.uri ++ "/orders/" ++ orderId) "" true w.state).1
          = (body, none) →
        (this.CancelOrder orderId w).1 = (some { Code := some c }, none))) := by
  have key : ∀ body raw rawc : String, parseJSON body = .ok (.obj raw [("code", .str rawc c)]) →
      (∀ order : Order,
        (this.client.Do "POST" (this.uri ++ "/orders") (json_Marshal order).1 true w.state).1
          = (body, none) →
        (this.CreateOrder order w).1 = (some { Code := some c }, none)) ∧
      (∀ orderId : String,
        (this.client.Do "DELETE" (this.uri ++ "/orders/" ++ orderId) "" true w.state).1
          = (body, none) →
        (this.CancelOrder orderId w).1 = (some { Code := some c }, none)) := by
    intro body raw rawc hparse
    constructor
    · intro order h
      have hu := json_Unmarshal_code body raw rawc c none rfl hparse
      rw [CreateOrder_decoded this order w body h (by rw [hu]), hu]
    · intro orderId h
      have hu := json_Unmarshal_code body raw rawc c (some {}) rfl hparse
      rw [CancelOrder_decoded this orderId w body h (by rw [hu]), hu]
  exact ⟨(key _ _ _ (parseJSON_code c)).1, (key _ _ _ (parseJSON_code c)).2, key⟩

/-- C7 at the transport of the tests with `EnableErrors` set: `CreateOrder`
returns an order that holds only the code MIN_TRADE_REQUIREMENT_NOT_MET, and
`CancelOrder` one that holds only the code ORDER_NOT_OPEN; neither fails. -/
theorem business_error_is_decoded_witness :
    ((NewBittrexAPI (fakeBittrexClient.client { EnableErrors := true }) "").CreateOrder
        { MarketSymbol := "ETH-BTC", Direction := "BUY", OrderType := "LIMIT",
          TimeInForce := "GOOD_TIL_CANCELLED", Quantity := some ⟨5, 0⟩,
          Limit := some ⟨39561, -8⟩ }
        (World.init ())).1
      = (some { Code := some "MIN_TRADE_REQUIREMENT_NOT_MET" }, none) ∧
    ((NewBittrexAPI (fakeBittrexClient.client { EnableErrors := true }) "").CancelOrder
        "fab677a0-510e-456e-b450-8a75cea69f5d" (World.init ())).1
      = (some { Code := some "ORDER_NOT_OPEN" }, none) :=
  ⟨(business_error_is_decoded
      (NewBittrexAPI (fakeBittrexClient.client { EnableErrors := true }) "") (World.init ())
      "MIN_TRADE_REQUIREMENT_NOT_MET").1 _ (by rfl),
   (business_error_is_decoded
      (NewBittrexAPI (fakeBittrexClient.client { EnableErrors := true }) "") (World.init ())
      "ORDER_NOT_OPEN").2.1 _ (by rfl)⟩

/-- C8: when the transport answers `CreateOrder` or `CancelOrder` with a body
that `json.Unmarshal` cannot decode into an `Order`, the method returns a nil
order and a new failure whose message is the message of the decoder's failure
followed at once by the text of the body. -/
theorem order_decode_failure_carries_body {σ : Type} (this : BittrexAPI σ) (w : World σ)
    (body : String) (err : GoError) :
    (∀ order : Order,
      (this.client.Do "POST" (this.uri ++ "/orders") (json_Marshal order).1 true w.state).1
        = (body, none) →
      (json_Unmarshal (decodePtr decodeOrder {}) body none).2 = some err →
      (this.CreateOrder order w).1 = (none, some (errors_New (err.Error ++ body))) ∧
      ∀ e, (this.CreateOrder order w).1.2 = some e → e.Error = err.Error ++ body) ∧
    (∀ orderId : String,
      (this.client.Do "DELETE" (this.uri ++ "/orders/" ++ orderId) "" true w.state).1
        = (body, none) →
      (json_Unmarshal (decodePtr decodeOrder {}) body (some {})).2 = some err →
      (this.CancelOrder orderId w).1 = (none, some (errors_New (err.Error ++ body))) ∧
      ∀ e, (this.CancelOrder orderId w).1.2 = some e → e.Error = err.Error ++ body) := by
  constructor
  · intro order h hd
    have hr := CreateOrder_undecodable this order w body err h hd
    refine ⟨hr, ?_⟩
    intro e he
    rw [hr] at he
    cases he
    rfl
  · intro orderId h hd
    have hr := CancelOrder_undecodable this orderId w body err h hd
    refine ⟨hr, ?_⟩
    intro e he
    rw [hr] at he
    cases he
    rfl

/-- C8 at a transport that answers with the text Bad Gateway: both methods
return a nil order and the message of the syntax error followed by that text. -/
theorem order_decode_failure_carries_body_witness :
    ((NewBittrexAPI (stubClient "Bad Gateway" none) "").CreateOrder {} (World.init ())).1
      = (none, some (errors_New
          "invalid character 'B' looking for beginning of valueBad Gateway")) ∧
    ((NewBittrexAPI (stubClient "Bad Gateway" none) "").CancelOrder "1" (World.init ())).1
      = (none, some (errors_New
          "invalid character 'B' looking for beginning of valueBad Gateway")) :=
  ⟨((order_decode_failure_carries_body (NewBittrexAPI (stubClient "Bad Gateway" none) "")
      (World.init ()) "Bad Gateway"
      (.SyntaxError "invalid character 'B' looking for beginning of value")).1 {}
      (by rfl) (by rfl)).1,
   ((order_decode_failure_carries_body (NewBittrexAPI (stubClient "Bad Gateway" none) "")
      (World.init ()) "Bad Gateway"
      (.SyntaxError "invalid character 'B' looking for beginning of value")).2 "1"
      (by rfl) (by rfl)).1⟩

/-- C9: when the transport answers a read with a body that `json.Unmarshal`
cannot decode into the result type, the read returns the decoder's failure as
it is, with no body text added, and no partial result: the zero record or a nil
list, whatever the decoder had stored before it failed. -/
theorem read_decode_failure_unchanged {σ : Type} (this : BittrexAPI σ) (w : World σ)
    (body : String) (err : GoError) :
    (∀ symbol : String, (this.client.Do "GET" (this.uri ++ "/markets/" ++ symbol) "" false w.state).1 = (body, none) →
      (json_Unmarshal decodeMarket body {}).2 = some err →
      (this.GetMarket symbol w).1 = ({}, some err)) ∧
    ((this.client.Do "GET" (this.uri ++ "/markets") "" false w.state).1 = (body, none) →
      (json_Unmarshal (decodeSlice "[]bittrex.Market" decodeMarket {}) body none).2 = some err →
      (this.GetMarkets w).1 = (none, some err)) ∧
    (∀ symbol : String, (this.client.Do "GET" (this.uri ++ "/markets/" ++ symbol ++ "/summary") "" false w.state).1 = (body, none) →
      (json_Unmarshal decodeMarketSummary body {}).2 = some err →
      (this.GetMarketSummary symbol w).1 = ({}, some err)) ∧
    ((this.client.Do "GET" (this.uri ++ "/markets/summaries") "" false w.state).1 = (body, none) →
      (json_Unmarshal (decodeSlice "[]bittrex.MarketSummary" decodeMarketSummary {}) body none).2 = some err →
      (this.GetMarketSummaries w).1 = (none, some err)) ∧
    (∀ symbol : String, (this.client.Do "GET" (this.uri ++ "/markets/" ++ symbol ++ "/ticker") "" false w.state).1 = (body, none) →
      (json_Unmarshal decodeMarketTicker body {}).2 = some err →
      (this.GetMarketTicker symbol w).1 = ({}, some err)) ∧
    ((this.client.Do "GET" (this.uri ++ "/markets/tickers") "" false w.state).1 = (body, none) →
      (json_Unmarshal (decodeSlice "[]bittrex.MarketTicker" decodeMarketTicker {}) body none).2 = some err →
      (this.GetMarketTickers w).1 = (none, some err)) ∧
    (∀ symbol : String, (this.client.Do "GET" (this.uri ++ "/currencies/" ++ symbol) "" false w.state).1 = (body, none) →
      (json_Unmarshal decodeCurrency body {}).2 = some err →
      (this.GetCurrency symbol w).1 = ({}, some err)) ∧
    ((this.client.Do "GET" (this.uri ++ "/balances") "" true w.state).1 = (body, none) →
      (json_Unmarshal (decodeSlice "[]bittrex.Balance" decodeBalance {}) body none).2 = some err →
      (this.GetBalances w).1 = (none, some err)) ∧
    (∀ orderID : String, (this.client.Do "GET" (this.uri ++ "/orders/" ++ orderID) "" false w.state).1 = (body, none) →
      (json_Unmarshal decodeOrder body {}).2 = some err →
      (this.GetOrder orderID w).1 = ({}, some err)) ∧
    (∀ openOrClosed : String, (this.client.Do "GET" (this.uri ++ "/orders/" ++ openOrClosed) "" true w.state).1 = (body, none) →
      (json_Unmarshal (decodeSlice "[]bittrex.Order" decodeOrder {}) body none).2 = some err →
      (this.GetOrders openOrClosed w).1 = (none, some err)) := by
  refine ⟨?_, ?_, ?_, ?_, ?_, ?_, ?_, ?_, ?_, ?_⟩
  · exact fun symbol h hd => GetMarket_undecodable this symbol w body err h hd
  · exact fun h hd => GetMarkets_undecodable this w body err h hd
  · exact fun symbol h hd => GetMarketSummary_undecodable this symbol w body err h hd
  · exact fun h hd => GetMarketSummaries_undecodable this w body err h hd
  · exact fun symbol h hd => GetMarketTicker_undecodable this symbol w body err h hd
  · exact fun h hd => GetMarketTickers_undecodable this w body err h hd
  · exact fun symbol h hd => GetCurrency_undecodable this symbol w body err h hd
  · exact fun h hd => GetBalances_undecodable this w body err h hd
  · exact fun orderID h hd => GetOrder_undecodable this orderID w body err h hd
  · exact fun openOrClosed h hd => GetOrders_undecodable this openOrClosed w body err h hd

/-- C9 at a transport whose body gives `precision` as a string: the decoder has
stored the symbol when it meets the mismatch, and `GetMarket` returns the zero
`Market` with the decoder's own error. -/
theorem read_decode_failure_unchanged_witness :
    (json_Unmarshal decodeMarket "\x7b\"symbol\":\"ETH-BTC\",\"precision\":\"8\"\x7d" {}).1.Symbol
      = "ETH-BTC" ∧
    ((NewBittrexAPI (stubClient "\x7b\"symbol\":\"ETH-BTC\",\"precision\":\"8\"\x7d" none)
        "").GetMarket "ETH-BTC" (World.init ())).1
      = ({}, some (.UnmarshalTypeError "string" "int32" "Market" "precision")) :=
  ⟨by rfl,
   (read_decode_failure_unchanged
      (NewBittrexAPI (stubClient "\x7b\"symbol\":\"ETH-BTC\",\"precision\":\"8\"\x7d" none) "")
      (World.init ()) "\x7b\"symbol\":\"ETH-BTC\",\"precision\":\"8\"\x7d"
      (.UnmarshalTypeError "string" "int32" "Market" "precision")).1 "ETH-BTC"
      (by rfl) (by rfl)⟩

/-- C10, amended: for every monetary field of `MarketSummary`, `MarketTicker`
and `Order`, and every plain decimal literal (an optional sign, digits, and
optionally a point and the digits of the fraction) whose fraction has at most
2^31 digits, the field decoded from the literal carried as a JSON string
written without escapes is the exact decimal the literal denotes: the
coefficient is the integer formed by all the digits, the exponent minus the
number of fractional digits.  First for a
body holding that one member, read by `GetMarketSummary`, `GetMarketTicker`
and `GetOrder`: the read does not fail and the field is exact.  Then for any
body that is a JSON object: when the last member naming the field carries the
literal and the read does not fail, the field is exact.  Last the same of the
decoders of the three records, which every method of the facade uses. -/
theorem monetary_fields_exact (sign whole : List Char) (frac : Option (List Char))
    (h : isPlainDecimal sign whole frac) (hlen : (frac.getD []).length ≤ 2147483648) :
    (∀ kg ∈ MarketSummary.monetary, ∀ (σ : Type) (this : BittrexAPI σ) (w : World σ)
        (symbol : String),
      (this.client.Do "GET" (this.uri ++ "/markets/" ++ symbol ++ "/summary") "" false w.state).1
        = ("\x7b\"" ++ kg.1 ++ "\":\"" ++ plainDecimal sign whole frac ++ "\"\x7d", none) →
      (this.GetMarketSummary symbol w).1.2 = none ∧
      kg.2 (this.GetMarketSummary symbol w).1.1 = some (exactDecimal sign whole frac)) ∧
    (∀ kg ∈ MarketTicker.monetary, ∀ (σ : Type) (this : BittrexAPI σ) (w : World σ)
        (symbol : String),
      (this.client.Do "GET" (this.uri ++ "/markets/" ++ symbol ++ "/ticker") "" false w.state).1
        = ("\x7b\"" ++ kg.1 ++ "\":\"" ++ plainDecimal sign whole frac ++ "\"\x7d", none) →
      (this.GetMarketTicker symbol w).1.2 = none ∧
      kg.2 (this.GetMarketTicker symbol w).1.1 = some (exactDecimal sign whole frac)) ∧
    (∀ kg ∈ Order.monetary, ∀ (σ : Type) (this : BittrexAPI σ) (w : World σ)
        (orderID : String),
      (this.client.Do "GET" (this.uri ++ "/orders/" ++ orderID) "" false w.state).1
        = ("\x7b\"" ++ kg.1 ++ "\":\"" ++ plainDecimal sign whole frac ++ "\"\x7d", none) →
      (this.GetOrder orderID w).1.2 = none ∧
      kg.2 (this.GetOrder orderID w).1.1 = some (exactDecimal sign whole frac)) ∧
    (∀ kg ∈ MarketSummary.monetary, ∀ (σ : Type) (this : BittrexAPI σ) (w : World σ)
        (symbol body raw key : String) (pre post : List (String × Json)),
      (this.client.Do "GET" (this.uri ++ "/markets/" ++ symbol ++ "/summary") "" false w.state).1 = (body, none) →
      parseJSON body = .ok (.obj raw (pre ++ (key, (.str (plainDecimal sign whole frac) (plainDecimal sign whole frac))) :: post)) →
      namesField MarketSummary.fields key kg.1 →
      (∀ m ∈ post, ¬ namesField MarketSummary.fields m.1 kg.1) →
      (this.GetMarketSummary symbol w).1.2 = none →
      kg.2 (this.GetMarketSummary symbol w).1.1 = some (exactDecimal sign whole frac)) ∧
    (∀ kg ∈ MarketTicker.monetary, ∀ (σ : Type) (this : BittrexAPI σ) (w : World σ)
        (symbol body raw key : String) (pre post : List (String × Json)),
      (this.client.Do "GET" (this.uri ++ "/markets/" ++ symbol ++ "/ticker") "" false w.state).1 = (body, none) →
      parseJSON body = .ok (.obj raw (pre ++ (key, (.str (plainDecimal sign whole frac) (plainDecimal sign whole frac))) :: post)) →
      namesField MarketTicker.fields key kg.1 →
      (∀ m ∈ post, ¬ namesField MarketTicker.fields m.1 kg.1) →
      (this.GetMarketTicker symbol w).1.2 = none →
      kg.2 (this.GetMarketTicker symbol w).1.1 = some (exactDecimal sign whole frac)) ∧
    (∀ kg ∈ Order.monetary, ∀ (σ : Type) (this : BittrexAPI σ) (w : World σ)
        (orderID body raw key : String) (pre post : List (String × Json)),
      (this.client.Do "GET" (this.uri ++ "/orders/" ++ orderID) "" false w.state).1 = (body, none) →
      parseJSON body = .ok (.obj raw (pre ++ (key, (.str (plainDecimal sign whole frac) (plainDecimal sign whole frac))) :: post)) →
      namesField Order.fields key kg.1 →
      (∀ m ∈ post, ¬ namesField Order.fields m.1 kg.1) →
      (this.GetOrder orderID w).1.2 = none →
      kg.2 (this.GetOrder orderID w).1.1 = some (exactDecimal sign whole frac)) ∧
    (∀ kg ∈ MarketSummary.monetary, ∀ (raw key : String) (pre post : List (String × Json))
        (ctx : ErrorContext) (saved : Option GoError) (v : MarketSummary),
      namesField MarketSummary.fields key kg.1 →
      (∀ m ∈ post, ¬ namesField MarketSummary.fields m.1 kg.1) →
      (decodeMarketSummary (.obj raw (pre ++ (key, (.str (plainDecimal sign whole frac) (plainDecimal sign whole frac))) :: post)) ctx saved v).err = none →
      kg.2 (decodeMarketSummary (.obj raw (pre ++ (key, (.str (plainDecimal sign whole frac) (plainDecimal sign whole frac))) :: post)) ctx saved v).val
        = some (exactDecimal sign whole frac)) ∧
    (∀ kg ∈ MarketTicker.monetary, ∀ (raw key : String) (pre post : List (String × Json))
        (ctx : ErrorContext) (saved : Option GoError) (v : MarketTicker),
      namesField MarketTicker.fields key kg.1 →
      (∀ m ∈ post, ¬ namesField MarketTicker.fields m.1 kg.1) →
      (decodeMarketTicker (.obj raw (pre ++ (key, (.str (plainDecimal sign whole frac) (plainDecimal sign whole frac))) :: post)) ctx saved v).err = none →
      kg.2 (decodeMarketTicker (.obj raw (pre ++ (key, (.str (plainDecimal sign whole frac) (plainDecimal sign whole frac))) :: post)) ctx saved v).val
        = some (exactDecimal sign whole frac)) ∧
    (∀ kg ∈ Order.monetary, ∀ (raw key : String) (pre post : List (String × Json))
        (ctx : ErrorContext) (saved : Option GoError) (v : Order),
      namesField Order.fields key kg.1 →
      (∀ m ∈ post, ¬ namesField Order.fields m.1 kg.1) →
      (decodeOrder (.obj raw (pre ++ (key, (.str (plainDecimal sign whole frac) (plainDecimal sign whole frac))) :: post)) ctx saved v).err = none →
      kg.2 (decodeOrder (.obj raw (pre ++ (key, (.str (plainDecimal sign whole frac) (plainDecimal sign whole frac))) :: post)) ctx saved v).val
        = some (exactDecimal sign whole frac)) := by
  refine ⟨?_, ?_, ?_, ?_, ?_, ?_, ?_, ?_, ?_⟩
  · exact fun kg hkg σ this w symbol hdo =>
      GetMarketSummary_monetary_text sign whole frac h hlen kg hkg this w symbol hdo
  · exact fun kg hkg σ this w symbol hdo =>
      GetMarketTicker_monetary_text sign whole frac h hlen kg hkg this w symbol hdo
  · exact fun kg hkg σ this w orderID hdo =>
      GetOrder_monetary_text sign whole frac h hlen kg hkg this w orderID hdo
  · exact fun kg hkg σ this w symbol body raw key pre post hdo hparse hkey hpost hok =>
      GetMarketSummary_monetary sign whole frac h hlen kg hkg this w symbol body raw key pre post
        hdo hparse hkey hpost hok
  · exact fun kg hkg σ this w symbol body raw key pre post hdo hparse hkey hpost hok =>
      GetMarketTicker_monetary sign whole frac h hlen kg hkg this w symbol body raw key pre post
        hdo hparse hkey hpost hok
  · exact fun kg hkg σ this w orderID body raw key pre post hdo hparse hkey hpost hok =>
      GetOrder_monetary sign whole frac h hlen kg hkg this w orderID body raw key pre post
        hdo hparse hkey hpost hok
  · exact fun kg hkg raw key pre post ctx saved v hkey hpost hok =>
      MarketSummary_monetary_decoded sign whole frac h hlen kg hkg raw key pre post hkey hpost
        ctx saved v hok
  · exact fun kg hkg raw key pre post ctx saved v hkey hpost hok =>
      MarketTicker_monetary_decoded sign whole frac h hlen kg hkg raw key pre post hkey hpost
        ctx saved v hok
  · exact fun kg hkg raw key pre post ctx saved v hkey hpost hok =>
      Order_monetary_decoded sign whole frac h hlen kg hkg raw key pre post hkey hpost
        ctx saved v hok

/-- C10 at the transport of the tests: `GetMarketSummary` reads the high
0.03894964 as 3894964 x 10^-8 and the low 0.03650000 as 3650000 x 10^-8. -/
theorem monetary_fields_exact_witness :
    ((NewBittrexAPI (fakeBittrexClient.client {}) "").GetMarketSummary "fakesymbol"
        (World.init ())).1.1.High = some ⟨3894964, -8⟩ ∧
    ((NewBittrexAPI (fakeBittrexClient.client {}) "").GetMarketSummary "fakesymbol"
        (World.init ())).1.1.Low = some ⟨3650000, -8⟩ :=
  ⟨(monetary_fields_exact [] ['0'] (some ['0', '3', '8', '9', '4', '9', '6', '4'])
      (by unfold isPlainDecimal; decide) (by decide)).2.2.2.1
      ("high", (·.High)) (by simp [MarketSummary.monetary]) Unit
      (NewBittrexAPI (fakeBittrexClient.client {}) "") (World.init ()) "fakesymbol"
      (fakeBittrexClient.Do {} "GET" "/markets/fakesymbol/summary" "" false).1
      (fakeBittrexClient.Do {} "GET" "/markets/fakesymbol/summary" "" false).1
      "high" [("symbol", .str "ETH-BTC" "ETH-BTC")]
      [("low", .str "0.03650000" "0.03650000"), ("volume", .str "18494.04035144" "18494.04035144"),
       ("quoteVolume", .str "696.42899671" "696.42899671"),
       ("percentChange", .str "-3.33" "-3.33"),
       ("updatedAt", .str "2020-09-04T04:37:45.107Z" "2020-09-04T04:37:45.107Z")]
      (by rfl) (by rfl) (by decide) (by decide) (by rfl),
   (monetary_fields_exact [] ['0'] (some ['0', '3', '6', '5', '0', '0', '0', '0'])
      (by unfold isPlainDecimal; decide) (by decide)).2.2.2.1
      ("low", (·.Low)) (by simp [MarketSummary.monetary]) Unit
      (NewBittrexAPI (fakeBittrexClient.client {}) "") (World.init ()) "fakesymbol"
      (fakeBittrexClient.Do {} "GET" "/markets/fakesymbol/summary" "" false).1
      (fakeBittrexClient.Do {} "GET" "/markets/fakesymbol/summary" "" false).1
      "low" [("symbol", .str "ETH-BTC" "ETH-BTC"), ("high", .str "0.03894964" "0.03894964")]
      [("volume", .str "18494.04035144" "18494.04035144"),
       ("quoteVolume", .str "696.42899671" "696.42899671"),
       ("percentChange", .str "-3.33" "-3.33"),
       ("updatedAt", .str "2020-09-04T04:37:45.107Z" "2020-09-04T04:37:45.107Z")]
      (by rfl) (by rfl) (by decide) (by decide) (by rfl)⟩

/-- C10 as stated fails, in two ways.  The literal 0.00...0 with 2^31 + 1
fractional zeros is a plain decimal literal, and on the body that carries it as
the high `GetMarketSummary` returns a failure and no decimal at all.  And a
JSON string may carry a literal with an escape: the string written `\u0030.5`
between its quotes is the literal 0.5, yet `GetMarketSummary` fails on it, for
the decimal package reads the text between the quotes as it is written. -/
theorem monetary_fields_exact_counterexample :
    (isPlainDecimal [] ['0'] (some (List.replicate 2147483649 '0')) ∧
     ((NewBittrexAPI (stubClient
        ("\x7b\"" ++ "high" ++ "\":\""
          ++ plainDecimal [] ['0'] (some (List.replicate 2147483649 '0')) ++ "\"\x7d") none)
        "").GetMarketSummary "ETH-BTC" (World.init ())).1
      = ({}, some (fmt_Errorf ("error decoding string '"
          ++ plainDecimal [] ['0'] (some (List.replicate 2147483649 '0')) ++ "': "
          ++ ("can't convert "
          ++ plainDecimal [] ['0'] (some (List.replicate 2147483649 '0'))
          ++ " to decimal: fractional part too long"))))) ∧
    (parseJSON "\x7b\"high\":\"\\u0030.5\"\x7d"
      = .ok (.obj "\x7b\"high\":\"\\u0030.5\"\x7d" [("high", .str "\\u0030.5" "0.5")]) ∧
     plainDecimal [] ['0'] (some ['5']) = "0.5" ∧
     ((NewBittrexAPI (stubClient "\x7b\"high\":\"\\u0030.5\"\x7d" none)
        "").GetMarketSummary "ETH-BTC" (World.init ())).1
      = ({}, some (fmt_Errorf
          "error decoding string '\\u0030.5': can't convert \\u0030.5 to decimal"))) :=
  ⟨⟨long_fraction_plain _ (fun c hc => by rw [List.eq_of_mem_replicate hc]; rfl),
    GetMarketSummary_long_fraction _ (fun c hc => by rw [List.eq_of_mem_replicate hc]; rfl)
      (by rw [List.length_replicate]; exact Nat.lt_succ_self _)⟩,
   ⟨by rfl, by rfl, by rfl⟩⟩

/-- C11: an order in which only MarketSymbol, Direction, OrderType and
TimeInForce are set, every other field empty, nil or false, is serialized by
`CreateOrder` as the object of exactly the four members marketSymbol, direction,
type and timeInForce, in that order, each a JSON string holding the value of the
field: that is the text `json.Marshal` returns, it is the payload of the one
call `CreateOrder` makes, and the syntax pass of the decoder reads it back as
those four members and no other.  Only TimeInForce has to be non-empty for this:
the three fields without `omitempty` are written whatever they hold. -/
theorem required_fields_only {σ : Type} (this : BittrexAPI σ) (w : World σ)
    (m d t f : String) (hf : f ≠ "") :
    json_Marshal { MarketSymbol := m, Direction := d, OrderType := t, TimeInForce := f }
      = ("\x7b\"marketSymbol\":" ++ encodeString m ++ ",\"direction\":" ++ encodeString d
          ++ ",\"type\":" ++ encodeString t ++ ",\"timeInForce\":" ++ encodeString f ++ "\x7d",
         none) ∧
    newCalls w (this.CreateOrder
        { MarketSymbol := m, Direction := d, OrderType := t, TimeInForce := f } w).2
      = [⟨"POST", this.uri ++ "/orders",
          "\x7b\"marketSymbol\":" ++ encodeString m ++ ",\"direction\":" ++ encodeString d
            ++ ",\"type\":" ++ encodeString t ++ ",\"timeInForce\":" ++ encodeString f ++ "\x7d",
          true⟩] ∧
    parseJSON ("\x7b\"marketSymbol\":" ++ encodeString m ++ ",\"direction\":" ++ encodeString d
        ++ ",\"type\":" ++ encodeString t ++ ",\"timeInForce\":" ++ encodeString f ++ "\x7d")
      = .ok (.obj ("\x7b\"marketSymbol\":" ++ encodeString m ++ ",\"direction\":"
            ++ encodeString d ++ ",\"type\":" ++ encodeString t ++ ",\"timeInForce\":"
            ++ encodeString f ++ "\x7d")
          [("marketSymbol", .str (String.mk (m.data.flatMap encodeChar)) m),
           ("direction", .str (String.mk (d.data.flatMap encodeChar)) d),
           ("type", .str (String.mk (t.data.flatMap encodeChar)) t),
           ("timeInForce", .str (String.mk (f.data.flatMap encodeChar)) f)]) := by
  have hm := json_Marshal_required m d t f hf
  refine ⟨hm, ?_, ?_⟩
  · rw [CreateOrder_world, newCalls_call, hm]
  · have hp := json_Marshal_parse
      { MarketSymbol := m, Direction := d, OrderType := t, TimeInForce := f }
    rw [hm, readBack_required m d t f hf] at hp
    exact hp

/-- C11 on the order of the tests without its quantity and limit: the payload is
the text with the four members, and nothing else. -/
theorem required_fields_only_witness :
    "GOOD_TIL_CANCELLED" ≠ "" ∧
    json_Marshal
        { MarketSymbol := "ETH-BTC", Direction := "BUY", OrderType := "LIMIT",
          TimeInForce := "GOOD_TIL_CANCELLED" }
      = ("\x7b\"marketSymbol\":\"ETH-BTC\",\"direction\":\"BUY\",\"type\":\"LIMIT\",\"timeInForce\":\"GOOD_TIL_CANCELLED\"\x7d",
         none) :=
  ⟨by decide,
   (required_fields_only (NewBittrexAPI (stubClient "" none) "") (World.init ())
      "ETH-BTC" "BUY" "LIMIT" "GOOD_TIL_CANCELLED" (by decide)).1.trans (by rfl)⟩

/-- C13, amended: a read of one record on a body that is a JSON object, and a
read of a list on a body that is a JSON array of objects, ignores the keys that
name no declared field of the record and leaves at its zero value every declared
field that no key names; neither is a failure.  A read of a list on a body that
is a JSON object is a failure: the type error of the decoder.  A key names a
field when it is the JSON name of the field, exactly or up to the case of its
letters (`findField`).
First, for each of the ten reads: a body and a body that differs from it only
by lacking the members (of the object, or of the objects of the array) whose key
names no field give the same result, failure or not.  Then, for each read and
each declared field: when no key of the object names the field, the field of
the result is the one of the zero value of the record, and so for every element
of a list read from an array of such objects.  Then, for each read: an object
none of whose keys names a field gives the zero value and no failure, an array
of such objects the list of as many zero values and no failure.  Then, for each
read of a list: a body that is a JSON object gives a nil list and the type
error.  Last, the declared fields are all the fields of the six records, and
their zero values are the empty string, 0, false and nil. -/
theorem unknown_keys_ignored :
    (∀ (σ τ : Type) (this : BittrexAPI σ) (w : World σ) (that : BittrexAPI τ) (w2 : World τ)
        (symbol symbol2 body body2 raw raw2 : String) (members : List (String × Json)),
      (this.client.Do "GET" (this.uri ++ "/markets/" ++ symbol) "" false w.state).1 = (body, none) →
      (that.client.Do "GET" (that.uri ++ "/markets/" ++ symbol2) "" false w2.state).1 = (body2, none) →
      parseJSON body = .ok (.obj raw members) →
      parseJSON body2 = .ok (.obj raw2 (knownMembers Market.fields members)) →
      (this.GetMarket symbol w).1 = (that.GetMarket symbol2 w2).1) ∧
    (∀ (σ τ : Type) (this : BittrexAPI σ) (w : World σ) (that : BittrexAPI τ) (w2 : World τ)
        (body body2 raw raw2 : String) (items items2 : List Json),
      (this.client.Do "GET" (this.uri ++ "/markets") "" false w.state).1 = (body, none) →
      (that.client.Do "GET" (that.uri ++ "/markets") "" false w2.state).1 = (body2, none) →
      parseJSON body = .ok (.arr raw items) →
      parseJSON body2 = .ok (.arr raw2 items2) →
      List.Forall₂ (withoutUnknown Market.fields) items items2 →
      (this.GetMarkets w).1 = (that.GetMarkets w2).1) ∧
    (∀ (σ τ : Type) (this : BittrexAPI σ) (w : World σ) (that : BittrexAPI τ) (w2 : World τ)
        (symbol symbol2 body body2 raw raw2 : String) (members : List (String × Json)),
      (this.client.Do "GET" (this.uri ++ "/markets/" ++ symbol ++ "/summary") "" false w.state).1 = (body, none) →
      (that.client.Do "GET" (that.uri ++ "/markets/" ++ symbol2 ++ "/summary") "" false w2.state).1 = (body2, none) →
      parseJSON body = .ok (.obj raw members) →
      parseJSON body2 = .ok (.obj raw2 (knownMembers MarketSummary.fields members)) →
      (this.GetMarketSummary symbol w).1 = (that.GetMarketSummary symbol2 w2).1) ∧
    (∀ (σ τ : Type) (this : BittrexAPI σ) (w : World σ) (that : BittrexAPI τ) (w2 : World τ)
        (body body2 raw raw2 : String) (items items2 : List Json),
      (this.client.Do "GET" (this.uri ++ "/markets/summaries") "" false w.state).1 = (body, none) →
      (that.client.Do "GET" (that.uri ++ "/markets/summaries") "" false w2.state).1 = (body2, none) →
      parseJSON body = .ok (.arr raw items) →
      parseJSON body2 = .ok (.arr raw2 items2) →
      List.Forall₂ (withoutUnknown MarketSummary.fields) items items2 →
      (this.GetMarketSummaries w).1 = (that.GetMarketSummaries w2).1) ∧
    (∀ (σ τ : Type) (this : BittrexAPI σ) (w : World σ) (that : BittrexAPI τ) (w2 : World τ)
        (symbol symbol2 body body2 raw raw2 : String) (members : List (String × Json)),
      (this.client.Do "GET" (this.uri ++ "/markets/" ++ symbol ++ "/ticker") "" false w.state).1 = (body, none) →
      (that.client.Do "GET" (that.uri ++ "/markets/" ++ symbol2 ++ "/ticker") "" false w2.state).1 = (body2, none) →
      parseJSON body = .ok (.obj raw members) →
      parseJSON body2 = .ok (.obj raw2 (knownMembers MarketTicker.fields members)) →
      (this.GetMarketTicker symbol w).1 = (that.GetMarketTicker symbol2 w2).1) ∧
    (∀ (σ τ : Type) (this : BittrexAPI σ) (w : World σ) (that : BittrexAPI τ) (w2 : World τ)
        (body body2 raw raw2 : String) (items items2 : List Json),
      (this.client.Do "GET" (this.uri ++ "/markets/tickers") "" false w.state).1 = (body, none) →
      (that.client.Do "GET" (that.uri ++ "/markets/tickers") "" false w2.state).1 = (body2, none) →
      parseJSON body = .ok (.arr raw items) →
      parseJSON body2 = .ok (.arr raw2 items2) →
      List.Forall₂ (withoutUnknown MarketTicker.fields) items items2 →
      (this.GetMarketTickers w).1 = (that.GetMarketTickers w2).1) ∧
    (∀ (σ τ : Type) (this : BittrexAPI σ) (w : World σ) (that : BittrexAPI τ) (w2 : World τ)
        (symbol symbol2 body body2 raw raw2 : String) (members : List (String × Json)),
      (this.client.Do "GET" (this.uri ++ "/currencies/" ++ symbol) "" false w.state).1 = (body, none) →
      (that.client.Do "GET" (that.uri ++ "/currencies/" ++ symbol2) "" false w2.state).1 = (body2, none) →
      parseJSON body = .ok (.obj raw members) →
      parseJSON body2 = .ok (.obj raw2 (knownMembers Currency.fields members)) →
      (this.GetCurrency symbol w).1 = (that.GetCurrency symbol2 w2).1) ∧
    (∀ (σ τ : Type) (this : BittrexAPI σ) (w : World σ) (that : BittrexAPI τ) (w2 : World τ)
        (body body2 raw raw2 : String) (items items2 : List Json),
      (this.client.Do "GET" (this.uri ++ "/balances") "" true w.state).1 = (body, none) →
      (that.client.Do "GET" (that.uri ++ "/balances") "" true w2.state).1 = (body2, none) →
      parseJSON body = .ok (.arr raw items) →
      parseJSON body2 = .ok (.arr raw2 items2) →
      List.Forall₂ (withoutUnknown Balance.fields) items items2 →
      (this.GetBalances w).1 = (that.GetBalances w2).1) ∧
    (∀ (σ τ : Type) (this : BittrexAPI σ) (w : World σ) (that : BittrexAPI τ) (w2 : World τ)
        (orderID orderID2 body body2 raw raw2 : String) (members : List (String × Json)),
      (this.client.Do "GET" (this.uri ++ "/orders/" ++ orderID) "" false w.state).1 = (body, none) →
      (that.client.Do "GET" (that.uri ++ "/orders/" ++ orderID2) "" false w2.state).1 = (body2, none) →
      parseJSON body = .ok (.obj raw members) →
      parseJSON body2 = .ok (.obj raw2 (knownMembers Order.fields members)) →
      (this.GetOrder orderID w).1 = (that.GetOrder orderID2 w2).1) ∧
    (∀ (σ τ : Type) (this : BittrexAPI σ) (w : World σ) (that : BittrexAPI τ) (w2 : World τ)
        (openOrClosed openOrClosed2 body body2 raw raw2 : String) (items items2 : List Json),
      (this.client.Do "GET" (this.uri ++ "/orders/" ++ openOrClosed) "" true w.state).1 = (body, none) →
      (that.client.Do "GET" (that.uri ++ "/orders/" ++ openOrClosed2) "" true w2.state).1 = (body2, none) →
      parseJSON body = .ok (.arr raw items) →
      parseJSON body2 = .ok (.arr raw2 items2) →
      List.Forall₂ (withoutUnknown Order.fields) items items2 →
      (this.GetOrders openOrClosed w).1 = (that.GetOrders openOrClosed2 w2).1) ∧
    (∀ kg ∈ Market.declared, ∀ (σ : Type) (this : BittrexAPI σ) (w : World σ)
        (symbol body raw : String) (members : List (String × Json)),
      (this.client.Do "GET" (this.uri ++ "/markets/" ++ symbol) "" false w.state).1 = (body, none) →
      parseJSON body = .ok (.obj raw members) →
      (∀ m ∈ members, ¬ namesField Market.fields m.1 kg.1) →
      kg.2 (this.GetMarket symbol w).1.1 = kg.2 {}) ∧
    (∀ kg ∈ Market.declared, ∀ (σ : Type) (this : BittrexAPI σ) (w : World σ)
        (body raw : String) (items : List Json),
      (this.client.Do "GET" (this.uri ++ "/markets") "" false w.state).1 = (body, none) →
      parseJSON body = .ok (.arr raw items) →
      (∀ j ∈ items, ∃ r ms, j = .obj r ms ∧ ∀ m ∈ ms, ¬ namesField Market.fields m.1 kg.1) →
      ∀ l, (this.GetMarkets w).1.1 = some l → ∀ x ∈ l, kg.2 x = kg.2 {}) ∧
    (∀ kg ∈ MarketSummary.declared, ∀ (σ : Type) (this : BittrexAPI σ) (w : World σ)
        (symbol body raw : String) (members : List (String × Json)),
      (this.client.Do "GET" (this.uri ++ "/markets/" ++ symbol ++ "/summary") "" false w.state).1 = (body, none) →
      parseJSON body = .ok (.obj raw members) →
      (∀ m ∈ members, ¬ namesField MarketSummary.fields m.1 kg.1) →
      kg.2 (this.GetMarketSummary symbol w).1.1 = kg.2 {}) ∧
    (∀ kg ∈ MarketSummary.declared, ∀ (σ : Type) (this : BittrexAPI σ) (w : World σ)
        (body raw : String) (items : List Json),
      (this.client.Do "GET" (this.uri ++ "/markets/summaries") "" false w.state).1 = (body, none) →
      parseJSON body = .ok (.arr raw items) →
      (∀ j ∈ items, ∃ r ms, j = .obj r ms ∧ ∀ m ∈ ms, ¬ namesField MarketSummary.fields m.1 kg.1) →
      ∀ l, (this.GetMarketSummaries w).1.1 = some l → ∀ x ∈ l, kg.2 x = kg.2 {}) ∧
    (∀ kg ∈ MarketTicker.declared, ∀ (σ : Type) (this : BittrexAPI σ) (w : World σ)
        (symbol body raw : String) (members : List (String × Json)),
      (this.client.Do "GET" (this.uri ++ "/markets/" ++ symbol ++ "/ticker") "" false w.state).1 = (body, none) →
      parseJSON body = .ok (.obj raw members) →
      (∀ m ∈ members, ¬ namesField MarketTicker.fields m.1 kg.1) →
      kg.2 (this.GetMarketTicker symbol w).1.1 = kg.2 {}) ∧
    (∀ kg ∈ MarketTicker.declared, ∀ (σ : Type) (this : BittrexAPI σ) (w : World σ)
        (body raw : String) (items : List Json),
      (this.client.Do "GET" (this.uri ++ "/markets/tickers") "" false w.state).1 = (body, none) →
      parseJSON body = .ok (.arr raw items) →
      (∀ j ∈ items, ∃ r ms, j = .obj r ms ∧ ∀ m ∈ ms, ¬ namesField MarketTicker.fields m.1 kg.1) →
      ∀ l, (this.GetMarketTickers w).1.1 = some l → ∀ x ∈ l, kg.2 x = kg.2 {}) ∧
    (∀ kg ∈ Currency.declared, ∀ (σ : Type) (this : BittrexAPI σ) (w : World σ)
        (symbol body raw : String) (members : List (String × Json)),
      (this.client.Do "GET" (this.uri ++ "/currencies/" ++ symbol) "" false w.state).1 = (body, none) →
      parseJSON body = .ok (.obj raw members) →
      (∀ m ∈ members, ¬ namesField Currency.fields m.1 kg.1) →
      kg.2 (this.GetCurrency symbol w).1.1 = kg.2 {}) ∧
    (∀ kg ∈ Balance.declared, ∀ (σ : Type) (this : BittrexAPI σ) (w : World σ)
        (body raw : String) (items : List Json),
      (this.client.Do "GET" (this.uri ++ "/balances") "" true w.state).1 = (body, none) →
      parseJSON body = .ok (.arr raw items) →
      (∀ j ∈ items, ∃ r ms, j = .obj r ms ∧ ∀ m ∈ ms, ¬ namesField Balance.fields m.1 kg.1) →
      ∀ l, (this.GetBalances w).1.1 = some l → ∀ x ∈ l, kg.2 x = kg.2 {}) ∧
    (∀ kg ∈ Order.declared, ∀ (σ : Type) (this : BittrexAPI σ) (w : World σ)
        (orderID body raw : String) (members : List (String × Json)),
      (this.client.Do "GET" (this.uri ++ "/orders/" ++ orderID) "" false w.state).1 = (body, none) →
      parseJSON body = .ok (.obj raw members) →
      (∀ m ∈ members, ¬ namesField Order.fields m.1 kg.1) →
      kg.2 (this.GetOrder orderID w).1.1 = kg.2 {}) ∧
    (∀ kg ∈ Order.declared, ∀ (σ : Type) (this : BittrexAPI σ) (w : World σ)
        (openOrClosed body raw : String) (items : List Json),
      (this.client.Do "GET" (this.uri ++ "/orders/" ++ openOrClosed) "" true w.state).1 = (body, none) →
      parseJSON body = .ok (.arr raw items) →
      (∀ j ∈ items, ∃ r ms, j = .obj r ms ∧ ∀ m ∈ ms, ¬ namesField Order.fields m.1 kg.1) →
      ∀ l, (this.GetOrders openOrClosed w).1.1 = some l → ∀ x ∈ l, kg.2 x = kg.2 {}) ∧
    (∀ (σ : Type) (this : BittrexAPI σ) (w : World σ) (symbol body raw : String)
        (members : List (String × Json)),
      (this.client.Do "GET" (this.uri ++ "/markets/" ++ symbol) "" false w.state).1 = (body, none) →
      parseJSON body = .ok (.obj raw members) →
      (∀ m ∈ members, findField Market.fields m.1 = none) →
      (this.GetMarket symbol w).1 = ({}, none)) ∧
    (∀ (σ : Type) (this : BittrexAPI σ) (w : World σ) (body raw : String)
        (items : List Json),
      (this.client.Do "GET" (this.uri ++ "/markets") "" false w.state).1 = (body, none) →
      parseJSON body = .ok (.arr raw items) →
      (∀ j ∈ items, ∃ r ms, j = .obj r ms ∧ ∀ m ∈ ms, findField Market.fields m.1 = none) →
      (this.GetMarkets w).1 = (some (items.map (fun _ => {})), none)) ∧
    (∀ (σ : Type) (this : BittrexAPI σ) (w : World σ) (symbol body raw : String)
        (members : List (String × Json)),
      (this.client.Do "GET" (this.uri ++ "/markets/" ++ symbol ++ "/summary") "" false w.state).1 = (body, none) →
      parseJSON body = .ok (.obj raw members) →
      (∀ m ∈ members, findField MarketSummary.fields m.1 = none) →
      (this.GetMarketSummary symbol w).1 = ({}, none)) ∧
    (∀ (σ : Type) (this : BittrexAPI σ) (w : World σ) (body raw : String)
        (items : List Json),
      (this.client.Do "GET" (this.uri ++ "/markets/summaries") "" false w.state).1 = (body, none) →
      parseJSON body = .ok (.arr raw items) →
      (∀ j ∈ items, ∃ r ms, j = .obj r ms ∧ ∀ m ∈ ms, findField MarketSummary.fields m.1 = none) →
      (this.GetMarketSummaries w).1 = (some (items.map (fun _ => {})), none)) ∧
    (∀ (σ : Type) (this : BittrexAPI σ) (w : World σ) (symbol body raw : String)
        (members : List (String × Json)),
      (this.client.Do "GET" (this.uri ++ "/markets/" ++ symbol ++ "/ticker") "" false w.state).1 = (body, none) →
      parseJSON body = .ok (.obj raw members) →
      (∀ m ∈ members, findField MarketTicker.fields m.1 = none) →
      (this.GetMarketTicker symbol w).1 = ({}, none)) ∧
    (∀ (σ : Type) (this : BittrexAPI σ) (w : World σ) (body raw : String)
        (items : List Json),
      (this.client.Do "GET" (this.uri ++ "/markets/tickers") "" false w.state).1 = (body, none) →
      parseJSON body = .ok (.arr raw items) →
      (∀ j ∈ items, ∃ r ms, j = .obj r ms ∧ ∀ m ∈ ms, findField MarketTicker.fields m.1 = none) →
      (this.GetMarketTickers w).1 = (some (items.map (fun _ => {})), none)) ∧
    (∀ (σ : Type) (this : BittrexAPI σ) (w : World σ) (symbol body raw : String)
        (members : List (String × Json)),
      (this.client.Do "GET" (this.uri ++ "/currencies/" ++ symbol) "" false w.state).1 = (body, none) →
      parseJSON body = .ok (.obj raw members) →
      (∀ m ∈ members, findField Currency.fields m.1 = none) →
      (this.GetCurrency symbol w).1 = ({}, none)) ∧
    (∀ (σ : Type) (this : BittrexAPI σ) (w : World σ) (body raw : String)
        (items : List Json),
      (this.client.Do "GET" (this.uri ++ "/balances") "" true w.state).1 = (body, none) →
      parseJSON body = .ok (.arr raw items) →
      (∀ j ∈ items, ∃ r ms, j = .obj r ms ∧ ∀ m ∈ ms, findField Balance.fields m.1 = none) →
      (this.GetBalances w).1 = (some (items.map (fun _ => {})), none)) ∧
    (∀ (σ : Type) (this : BittrexAPI σ) (w : World σ) (orderID body raw : String)
        (members : List (String × Json)),
      (this.client.Do "GET" (this.uri ++ "/orders/" ++ orderID) "" false w.state).1 = (body, none) →
      parseJSON body = .ok (.obj raw members) →
      (∀ m ∈ members, findField Order.fields m.1 = none) →
      (this.GetOrder orderID w).1 = ({}, none)) ∧
    (∀ (σ : Type) (this : BittrexAPI σ) (w : World σ) (openOrClosed body raw : String)
        (items : List Json),
      (this.client.Do "GET" (this.uri ++ "/orders/" ++ openOrClosed) "" true w.state).1 = (body, none) →
      parseJSON body = .ok (.arr raw items) →
      (∀ j ∈ items, ∃ r ms, j = .obj r ms ∧ ∀ m ∈ ms, findField Order.fields m.1 = none) →
      (this.GetOrders openOrClosed w).1 = (some (items.map (fun _ => {})), none)) ∧
    (∀ (σ : Type) (this : BittrexAPI σ) (w : World σ) (body raw : String)
        (members : List (String × Json)),
      (this.client.Do "GET" (this.uri ++ "/markets") "" false w.state).1 = (body, none) →
      parseJSON body = .ok (.obj raw members) →
      (this.GetMarkets w).1
        = (none, some (.UnmarshalTypeError "object" "[]bittrex.Market" "" ""))) ∧
    (∀ (σ : Type) (this : BittrexAPI σ) (w : World σ) (body raw : String)
        (members : List (String × Json)),
      (this.client.Do "GET" (this.uri ++ "/markets/summaries") "" false w.state).1 = (body, none) →
      parseJSON body = .ok (.obj raw members) →
      (this.GetMarketSummaries w).1
        = (none, some (.UnmarshalTypeError "object" "[]bittrex.MarketSummary" "" ""))) ∧
    (∀ (σ : Type) (this : BittrexAPI σ) (w : World σ) (body raw : String)
        (members : List (String × Json)),
      (this.client.Do "GET" (this.uri ++ "/markets/tickers") "" false w.state).1 = (body, none) →
      parseJSON body = .ok (.obj raw members) →
      (this.GetMarketTickers w).1
        = (none, some (.UnmarshalTypeError "object" "[]bittrex.MarketTicker" "" ""))) ∧
    (∀ (σ : Type) (this : BittrexAPI σ) (w : World σ) (body raw : String)
        (members : List (String × Json)),
      (this.client.Do "GET" (this.uri ++ "/balances") "" true w.state).1 = (body, none) →
      parseJSON body = .ok (.obj raw members) →
      (this.GetBalances w).1
        = (none, some (.UnmarshalTypeError "object" "[]bittrex.Balance" "" ""))) ∧
    (∀ (σ : Type) (this : BittrexAPI σ) (w : World σ) (openOrClosed body raw : String)
        (members : List (String × Json)),
      (this.client.Do "GET" (this.uri ++ "/orders/" ++ openOrClosed) "" true w.state).1 = (body, none) →
      parseJSON body = .ok (.obj raw members) →
      (this.GetOrders openOrClosed w).1
        = (none, some (.UnmarshalTypeError "object" "[]bittrex.Order" "" ""))) ∧
    Currency.declared.map (·.1) = Currency.fields.map (·.name) ∧
    Balance.declared.map (·.1) = Balance.fields.map (·.name) ∧
    Market.declared.map (·.1) = Market.fields.map (·.name) ∧
    MarketSummary.declared.map (·.1) = MarketSummary.fields.map (·.name) ∧
    MarketTicker.declared.map (·.1) = MarketTicker.fields.map (·.name) ∧
    Order.declared.map (·.1) = Order.fields.map (·.name) ∧
    (∀ kg ∈ Currency.declared, kg.2 {} ∈ FieldValue.zeros) ∧
    (∀ kg ∈ Balance.declared, kg.2 {} ∈ FieldValue.zeros) ∧
    (∀ kg ∈ Market.declared, kg.2 {} ∈ FieldValue.zeros) ∧
    (∀ kg ∈ MarketSummary.declared, kg.2 {} ∈ FieldValue.zeros) ∧
    (∀ kg ∈ MarketTicker.declared, kg.2 {} ∈ FieldValue.zeros) ∧
    (∀ kg ∈ Order.declared, kg.2 {} ∈ FieldValue.zeros) := by
  refine ⟨?_, ?_, ?_, ?_, ?_, ?_, ?_, ?_, ?_, ?_, ?_, ?_, ?_, ?_, ?_, ?_, ?_, ?_, ?_, ?_, ?_, ?_, ?_, ?_, ?_, ?_, ?_, ?_, ?_, ?_, ?_, ?_, ?_, ?_, ?_, ?_, ?_, ?_, ?_, ?_, ?_, ?_, ?_, ?_, ?_, ?_, ?_⟩
  · exact fun σ τ this w that w2 symbol symbol2 body body2 raw raw2 members h h2 hp hp2 =>
      GetMarket_known this w that w2 symbol symbol2 body body2 raw raw2 members h h2 hp hp2
  · exact fun σ τ this w that w2 body body2 raw raw2 items items2 h h2 hp hp2 hrel =>
      GetMarkets_known this w that w2 body body2 raw raw2 items items2 h h2 hp hp2 hrel
  · exact fun σ τ this w that w2 symbol symbol2 body body2 raw raw2 members h h2 hp hp2 =>
      GetMarketSummary_known this w that w2 symbol symbol2 body body2 raw raw2 members h h2 hp hp2
  · exact fun σ τ this w that w2 body body2 raw raw2 items items2 h h2 hp hp2 hrel =>
      GetMarketSummaries_known this w that w2 body body2 raw raw2 items items2 h h2 hp hp2 hrel
  · exact fun σ τ this w that w2 symbol symbol2 body body2 raw raw2 members h h2 hp hp2 =>
      GetMarketTicker_known this w that w2 symbol symbol2 body body2 raw raw2 members h h2 hp hp2
  · exact fun σ τ this w that w2 body body2 raw raw2 items items2 h h2 hp hp2 hrel =>
      GetMarketTickers_known this w that w2 body body2 raw raw2 items items2 h h2 hp hp2 hrel
  · exact fun σ τ this w that w2 symbol symbol2 body body2 raw raw2 members h h2 hp hp2 =>
      GetCurrency_known this w that w2 symbol symbol2 body body2 raw raw2 members h h2 hp hp2
  · exact fun σ τ this w that w2 body body2 raw raw2 items items2 h h2 hp hp2 hrel =>
      GetBalances_known this w that w2 body body2 raw raw2 items items2 h h2 hp hp2 hrel
  · exact fun σ τ this w that w2 orderID orderID2 body body2 raw raw2 members h h2 hp hp2 =>
      GetOrder_known this w that w2 orderID orderID2 body body2 raw raw2 members h h2 hp hp2
  · exact fun σ τ this w that w2 openOrClosed openOrClosed2 body body2 raw raw2 items items2 h h2 hp hp2 hrel =>
      GetOrders_known this w that w2 openOrClosed openOrClosed2 body body2 raw raw2 items items2 h h2 hp hp2 hrel
  · exact fun kg hkg σ this w symbol body raw members h hp hm =>
      GetMarket_absent kg hkg this w symbol body raw members h hp hm
  · exact fun kg hkg σ this w body raw items h hp hm l hl =>
      GetMarkets_absent kg hkg this w body raw items h hp hm l hl
  · exact fun kg hkg σ this w symbol body raw members h hp hm =>
      GetMarketSummary_absent kg hkg this w symbol body raw members h hp hm
  · exact fun kg hkg σ this w body raw items h hp hm l hl =>
      GetMarketSummaries_absent kg hkg this w body raw items h hp hm l hl
  · exact fun kg hkg σ this w symbol body raw members h hp hm =>
      GetMarketTicker_absent kg hkg this w symbol body raw members h hp hm
  · exact fun kg hkg σ this w body raw items h hp hm l hl =>
      GetMarketTickers_absent kg hkg this w body raw items h hp hm l hl
  · exact fun kg hkg σ this w symbol body raw members h hp hm =>
      GetCurrency_absent kg hkg this w symbol body raw members h hp hm
  · exact fun kg hkg σ this w body raw items h hp hm l hl =>
      GetBalances_absent kg hkg this w body raw items h hp hm l hl
  · exact fun kg hkg σ this w orderID body raw members h hp hm =>
      GetOrder_absent kg hkg this w orderID body raw members h hp hm
  · exact fun kg hkg σ this w openOrClosed body raw items h hp hm l hl =>
      GetOrders_absent kg hkg this w openOrClosed body raw items h hp hm l hl
  · exact fun σ this w symbol body raw members h hp hu =>
      GetMarket_unknown this w symbol body raw members h hp hu
  · exact fun σ this w body raw items h hp hu =>
      GetMarkets_unknown this w body raw items h hp hu
  · exact fun σ this w symbol body raw members h hp hu =>
      GetMarketSummary_unknown this w symbol body raw members h hp hu
  · exact fun σ this w body raw items h hp hu =>
      GetMarketSummaries_unknown this w body raw items h hp hu
  · exact fun σ this w symbol body raw members h hp hu =>
      GetMarketTicker_unknown this w symbol body raw members h hp hu
  · exact fun σ this w body raw items h hp hu =>
      GetMarketTickers_unknown this w body raw items h hp hu
  · exact fun σ this w symbol body raw members h hp hu =>
      GetCurrency_unknown this w symbol body raw members h hp hu
  · exact fun σ this w body raw items h hp hu =>
      GetBalances_unknown this w body raw items h hp hu
  · exact fun σ this w orderID body raw members h hp hu =>
      GetOrder_unknown this w orderID body raw members h hp hu
  · exact fun σ this w openOrClosed body raw items h hp hu =>
      GetOrders_unknown this w openOrClosed body raw items h hp hu
  · exact fun σ this w body raw members h hp =>
      GetMarkets_object this w body raw members h hp
  · exact fun σ this w body raw members h hp =>
      GetMarketSummaries_object this w body raw members h hp
  · exact fun σ this w body raw members h hp =>
      GetMarketTickers_object this w body raw members h hp
  · exact fun σ this w body raw members h hp =>
      GetBalances_object this w body raw members h hp
  · exact fun σ this w openOrClosed body raw members h hp =>
      GetOrders_object this w openOrClosed body raw members h hp
  · rfl
  · rfl
  · rfl
  · rfl
  · rfl
  · rfl
  · decide
  · decide
  · decide
  · decide
  · decide
  · decide

/-- C13 at the transport of the tests and on two lists: `GetMarket` on the body
of the tests, which carries the key associatedTermsOfService that `Market` does
not declare, returns what it returns on the same body without that key;
`GetCurrency` on the body of an empty object returns the zero `Currency` and no
failure; and `GetBalances` on an array of two objects that carry the undeclared
keys zzz and yyy returns what it returns on the array without those keys, the
two balances with their other fields empty, among them the field available that
no key names. -/
theorem unknown_keys_ignored_witness :
    ((NewBittrexAPI (fakeBittrexClient.client {}) "").GetMarket "fakesymbol"
        (World.init ())).1
      = ((NewBittrexAPI (stubClient "\x7b\"symbol\":\"ETH-BTC\",\"baseCurrencySymbol\":\"ETH\",\"quoteCurrencySymbol\":\"BTC\",\"minTradeSize\":\"0.01000000\",\"precision\":8,\"status\":\"ONLINE\",\"createdAt\":\"2015-08-14T09:02:24.817Z\",\"notice\":\"\",\"prohibitedIn\":[]\x7d" none) "").GetMarket "fakesymbol" (World.init ())).1 ∧
    ((NewBittrexAPI (fakeBittrexClient.client {}) "").GetCurrency "fakesymbol"
        (World.init ())).1 = ({}, none) ∧
    ((NewBittrexAPI (stubClient "[\x7b\"currencySymbol\":\"BTC\",\"zzz\":1\x7d,\x7b\"yyy\":null,\"total\":\"0\"\x7d]" none) "").GetBalances (World.init ())).1
      = ((NewBittrexAPI (stubClient "[\x7b\"currencySymbol\":\"BTC\"\x7d,\x7b\"total\":\"0\"\x7d]" none) "").GetBalances (World.init ())).1 ∧
    ((NewBittrexAPI (stubClient "[\x7b\"currencySymbol\":\"BTC\",\"zzz\":1\x7d,\x7b\"yyy\":null,\"total\":\"0\"\x7d]" none) "").GetBalances (World.init ())).1
      = (some [{ CurrencySymbol := "BTC" }, { Total := "0" }], none) ∧
    (∀ l, ((NewBittrexAPI (stubClient "[\x7b\"currencySymbol\":\"BTC\",\"zzz\":1\x7d,\x7b\"yyy\":null,\"total\":\"0\"\x7d]" none) "").GetBalances (World.init ())).1.1 = some l →
      ∀ x ∈ l, FieldValue.string x.Available = FieldValue.string "") :=
  ⟨unknown_keys_ignored.1 Unit Unit
      (NewBittrexAPI (fakeBittrexClient.client {}) "") (World.init ())
      (NewBittrexAPI (stubClient "\x7b\"symbol\":\"ETH-BTC\",\"baseCurrencySymbol\":\"ETH\",\"quoteCurrencySymbol\":\"BTC\",\"minTradeSize\":\"0.01000000\",\"precision\":8,\"status\":\"ONLINE\",\"createdAt\":\"2015-08-14T09:02:24.817Z\",\"notice\":\"\",\"prohibitedIn\":[]\x7d" none) "") (World.init ())
      "fakesymbol" "fakesymbol"
      "\x7b\"symbol\":\"ETH-BTC\",\"baseCurrencySymbol\":\"ETH\",\"quoteCurrencySymbol\":\"BTC\",\"minTradeSize\":\"0.01000000\",\"precision\":8,\"status\":\"ONLINE\",\"createdAt\":\"2015-08-14T09:02:24.817Z\",\"notice\":\"\",\"prohibitedIn\":[],\"associatedTermsOfService\":[]\x7d"
      "\x7b\"symbol\":\"ETH-BTC\",\"baseCurrencySymbol\":\"ETH\",\"quoteCurrencySymbol\":\"BTC\",\"minTradeSize\":\"0.01000000\",\"precision\":8,\"status\":\"ONLINE\",\"createdAt\":\"2015-08-14T09:02:24.817Z\",\"notice\":\"\",\"prohibitedIn\":[]\x7d"
      "\x7b\"symbol\":\"ETH-BTC\",\"baseCurrencySymbol\":\"ETH\",\"quoteCurrencySymbol\":\"BTC\",\"minTradeSize\":\"0.01000000\",\"precision\":8,\"status\":\"ONLINE\",\"createdAt\":\"2015-08-14T09:02:24.817Z\",\"notice\":\"\",\"prohibitedIn\":[],\"associatedTermsOfService\":[]\x7d"
      "\x7b\"symbol\":\"ETH-BTC\",\"baseCurrencySymbol\":\"ETH\",\"quoteCurrencySymbol\":\"BTC\",\"minTradeSize\":\"0.01000000\",\"precision\":8,\"status\":\"ONLINE\",\"createdAt\":\"2015-08-14T09:02:24.817Z\",\"notice\":\"\",\"prohibitedIn\":[]\x7d"
      [("symbol", .str "ETH-BTC" "ETH-BTC"), ("baseCurrencySymbol", .str "ETH" "ETH"),
       ("quoteCurrencySymbol", .str "BTC" "BTC"),
       ("minTradeSize", .str "0.01000000" "0.01000000"), ("precision", .num "8"),
       ("status", .str "ONLINE" "ONLINE"),
       ("createdAt", .str "2015-08-14T09:02:24.817Z" "2015-08-14T09:02:24.817Z"),
       ("notice", .str "" ""), ("prohibitedIn", .arr "[]" []),
       ("associatedTermsOfService", .arr "[]" [])]
      (by rfl) (by rfl) (by rfl) (by rfl),
   unknown_keys_ignored.2.2.2.2.2.2.2.2.2.2.2.2.2.2.2.2.2.2.2.2.2.2.2.2.2.2.1 Unit
      (NewBittrexAPI (fakeBittrexClient.client {}) "") (World.init ())
      "fakesymbol" "\x7b\x7d" "\x7b\x7d" [] (by rfl) (by rfl) (by simp),
   unknown_keys_ignored.2.2.2.2.2.2.2.1 Unit Unit
      (NewBittrexAPI (stubClient "[\x7b\"currencySymbol\":\"BTC\",\"zzz\":1\x7d,\x7b\"yyy\":null,\"total\":\"0\"\x7d]" none) "") (World.init ())
      (NewBittrexAPI (stubClient "[\x7b\"currencySymbol\":\"BTC\"\x7d,\x7b\"total\":\"0\"\x7d]" none) "") (World.init ())
      "[\x7b\"currencySymbol\":\"BTC\",\"zzz\":1\x7d,\x7b\"yyy\":null,\"total\":\"0\"\x7d]"
      "[\x7b\"currencySymbol\":\"BTC\"\x7d,\x7b\"total\":\"0\"\x7d]"
      "[\x7b\"currencySymbol\":\"BTC\",\"zzz\":1\x7d,\x7b\"yyy\":null,\"total\":\"0\"\x7d]"
      "[\x7b\"currencySymbol\":\"BTC\"\x7d,\x7b\"total\":\"0\"\x7d]"
      [.obj "\x7b\"currencySymbol\":\"BTC\",\"zzz\":1\x7d" [("currencySymbol", .str "BTC" "BTC"), ("zzz", .num "1")],
       .obj "\x7b\"yyy\":null,\"total\":\"0\"\x7d" [("yyy", .null), ("total", .str "0" "0")]]
      [.obj "\x7b\"currencySymbol\":\"BTC\"\x7d" [("currencySymbol", .str "BTC" "BTC")],
       .obj "\x7b\"total\":\"0\"\x7d" [("total", .str "0" "0")]]
      (by rfl) (by rfl) (by rfl) (by rfl)
      (List.Forall₂.cons (by rfl) (List.Forall₂.cons (by rfl) List.Forall₂.nil)),
   by rfl,
   unknown_keys_ignored.2.2.2.2.2.2.2.2.2.2.2.2.2.2.2.2.2.1
      ("available", fun v => .string v.Available) (by simp [Balance.declared]) Unit
      (NewBittrexAPI (stubClient "[\x7b\"currencySymbol\":\"BTC\",\"zzz\":1\x7d,\x7b\"yyy\":null,\"total\":\"0\"\x7d]" none) "") (World.init ())
      "[\x7b\"currencySymbol\":\"BTC\",\"zzz\":1\x7d,\x7b\"yyy\":null,\"total\":\"0\"\x7d]"
      "[\x7b\"currencySymbol\":\"BTC\",\"zzz\":1\x7d,\x7b\"yyy\":null,\"total\":\"0\"\x7d]"
      [.obj "\x7b\"currencySymbol\":\"BTC\",\"zzz\":1\x7d" [("currencySymbol", .str "BTC" "BTC"), ("zzz", .num "1")],
       .obj "\x7b\"yyy\":null,\"total\":\"0\"\x7d" [("yyy", .null), ("total", .str "0" "0")]]
      (by rfl) (by rfl)
      (by
        intro j hj
        simp only [List.mem_cons, List.mem_singleton, List.not_mem_nil, or_false] at hj
        rcases hj with rfl | rfl
        · exact ⟨_, _, rfl, by decide⟩
        · exact ⟨_, _, rfl, by decide⟩)⟩

/-- C13 as stated fails for the reads of a list: on a body that is a JSON
object, the empty object or an object with an undeclared key, `GetMarkets` and
`GetBalances` return a nil list and a failure, the type error of the decoder
(json: cannot unmarshal object into Go value of type []bittrex.Market). -/
theorem unknown_keys_ignored_counterexample :
    parseJSON "\x7b\x7d" = .ok (.obj "\x7b\x7d" []) ∧
    ((NewBittrexAPI (stubClient "\x7b\x7d" none) "").GetMarkets (World.init ())).1
      = (none, some (.UnmarshalTypeError "object" "[]bittrex.Market" "" "")) ∧
    (GoError.UnmarshalTypeError "object" "[]bittrex.Market" "" "").Error
      = "json: cannot unmarshal object into Go value of type []bittrex.Market" ∧
    parseJSON "\x7b\"zzz\":1\x7d" = .ok (.obj "\x7b\"zzz\":1\x7d" [("zzz", .num "1")]) ∧
    ((NewBittrexAPI (stubClient "\x7b\"zzz\":1\x7d" none) "").GetBalances (World.init ())).1
      = (none, some (.UnmarshalTypeError "object" "[]bittrex.Balance" "" "")) :=
  ⟨by rfl, by rfl, by rfl, by rfl, by rfl⟩

/-- C14, amended: whatever the transport answers, `CreateOrder` and
`CancelOrder` return a nil order whenever they return a failure; and when they
return no failure, the order is nil exactly when the body is the JSON literal
`null`, that is the word null with at most white space around it: for every
other body a call without failure returns an order that is not nil. -/
theorem order_or_failure {σ : Type} (this : BittrexAPI σ) (w : World σ) :
    (∀ order : Order,
      ((this.CreateOrder order w).1.2 ≠ none → (this.CreateOrder order w).1.1 = none) ∧
      ((this.CreateOrder order w).1.2 = none →
        ((this.CreateOrder order w).1.1 = none ↔
          parseJSON (this.client.Do "POST" (this.uri ++ "/orders") (json_Marshal order).1 true
            w.state).1.1 = .ok .null))) ∧
    (∀ orderId : String,
      ((this.CancelOrder orderId w).1.2 ≠ none → (this.CancelOrder orderId w).1.1 = none) ∧
      ((this.CancelOrder orderId w).1.2 = none →
        ((this.CancelOrder orderId w).1.1 = none ↔
          parseJSON (this.client.Do "DELETE" (this.uri ++ "/orders/" ++ orderId) "" true
            w.state).1.1 = .ok .null))) ∧
    (∀ body : String, parseJSON body = .ok .null ↔
      ∃ pre post : List Char, (∀ c ∈ pre, isSpace c = true) ∧ (∀ c ∈ post, isSpace c = true) ∧
        body = String.mk (pre ++ ['n', 'u', 'l', 'l'] ++ post)) := by
  refine ⟨?_, ?_, parseJSON_null_iff⟩
  · intro order
    rcases hans : (this.client.Do "POST" (this.uri ++ "/orders") (json_Marshal order).1 true
      w.state).1 with ⟨body, err⟩
    cases err with
    | some e =>
      rw [CreateOrder_failure this order w e (by rw [hans])]
      simp
    | none =>
      cases hu : (json_Unmarshal (decodePtr decodeOrder {}) body none).2 with
      | some e =>
        rw [CreateOrder_undecodable this order w body e hans hu]
        simp
      | none =>
        rw [CreateOrder_decoded this order w body hans hu]
        simp only [ne_eq, not_true_eq_false, false_implies, true_and, forall_const]
        exact json_Unmarshal_ptr_nil decodeOrder {} body none hu
  · intro orderId
    rcases hans : (this.client.Do "DELETE" (this.uri ++ "/orders/" ++ orderId) "" true
      w.state).1 with ⟨body, err⟩
    cases err with
    | some e =>
      rw [CancelOrder_failure this orderId w e (by rw [hans])]
      simp
    | none =>
      cases hu : (json_Unmarshal (decodePtr decodeOrder {}) body (some {})).2 with
      | some e =>
        rw [CancelOrder_undecodable this orderId w body e hans hu]
        simp
      | none =>
        rw [CancelOrder_decoded this orderId w body hans hu]
        simp only [ne_eq, not_true_eq_false, false_implies, true_and, forall_const]
        exact json_Unmarshal_ptr_nil decodeOrder {} body (some {}) hu

/-- C14 at the transport of the tests: the body it returns for an order is not
`null`, and both methods return an order that is not nil and no failure. -/
theorem order_or_failure_witness :
    ((NewBittrexAPI (fakeBittrexClient.client {}) "").CancelOrder
        "fab677a0-510e-456e-b450-8a75cea69f5d" (World.init ())).1.2 = none ∧
    ((NewBittrexAPI (fakeBittrexClient.client {}) "").CancelOrder
        "fab677a0-510e-456e-b450-8a75cea69f5d" (World.init ())).1.1 ≠ none :=
  ⟨by rfl, fun h =>
    absurd ((((order_or_failure (NewBittrexAPI (fakeBittrexClient.client {}) "")
      (World.init ())).2.1 "fab677a0-510e-456e-b450-8a75cea69f5d").2 (by rfl)).mp h)
      (by
        intro hp
        have h2 : parseJSON (fakeBittrexClient.Do {} "DELETE"
            ("" ++ "/orders/" ++ "fab677a0-510e-456e-b450-8a75cea69f5d") "" true).1
            ≠ .ok .null := by
          rw [show parseJSON (fakeBittrexClient.Do {} "DELETE"
            ("" ++ "/orders/" ++ "fab677a0-510e-456e-b450-8a75cea69f5d") "" true).1
              = .ok (.obj _ _) from rfl]
          simp
        exact h2 hp)⟩

/-- C14 as stated fails on the body `null`: `CreateOrder` and `CancelOrder`
return a nil order and no failure, neither an order nor a failure. -/
theorem order_or_failure_counterexample :
    ((NewBittrexAPI (stubClient "null" none) "").CreateOrder
        { MarketSymbol := "ETH-BTC", Direction := "BUY", OrderType := "LIMIT",
          TimeInForce := "GOOD_TIL_CANCELLED" }
        (World.init ())).1 = (none, none) ∧
    ((NewBittrexAPI (stubClient "null" none) "").CancelOrder
        "fab677a0-510e-456e-b450-8a75cea69f5d" (World.init ())).1 = (none, none) :=
  ⟨by rfl, by rfl⟩

end Bittrex
